import Mathlib

/-!
The fizz record layer: AEAD nonce derivation and the TLS extension codec

A shallow embedding of `fizz/crypto/aead/OpenSSLEVPCipher-inl.h` and
`fizz/record/Extensions-inl.h`.

Conventions of the embedding:

* a byte is a `Nat` below 256 and a buffer (`folly::IOBuf`, `Buf`) is the list
  of its bytes; a null `Buf` and an empty one are both `[]`;
* a `folly::io::Cursor` is the list of the bytes that remain to be read;
* a function that may throw returns `Except Err`;
* fixed-width unsigned integers are `Nat`s, with the width made explicit
  wherever it matters.
-/

namespace fizz

/-! ## Bytes and big-endian integers -/

/-- The `w` bytes of `v`, most significant first (`v` is taken modulo `256 ^ w`). -/
def beBytes : Nat → Nat → List Nat
  | 0, _ => []
  | w + 1, v => (v / 256 ^ w) % 256 :: beBytes w v

/-- The unsigned integer whose big-endian bytes are `bs`. -/
def beValue (bs : List Nat) : Nat :=
  bs.foldl (fun acc b => acc * 256 + b) 0

/-! ## OpenSSLEVPCipher::createIV -/

/-- The constants of a cipher profile (`EVPImpl`), which the cipher template
takes from its parameter. -/
structure EVPImpl where
  kKeyLength : Nat
  kIVLength : Nat
  kTagLength : Nat
  deriving DecidableEq, Repr

/-- Modelled from the spec: the helper `XOR(first, second)` is declared outside
the two source files; "bitwise-XOR with the fixed traffic IV" is the bytewise
exclusive or of `first` into `second`. -/
def XOR (first second : List Nat) : List Nat :=
  List.zipWith (fun a b => b ^^^ a) first second

/-- The method `OpenSSLEVPCipher<EVPImpl>::createIV`, for the installed traffic IV
`trafficIv`. `folly::Endian::big` followed by the 8-byte `memcpy` stores the
sequence number most significant byte first. The source computes
`prefixLength` in `size_t`; below `kIVLength = 8` it wraps around and the
`memset` leaves the array, so the embedding is meant for `8 ≤ kIVLength`. -/
def createIV (impl : EVPImpl) (trafficIv : List Nat) (seqNum : Nat) : List Nat :=
  let bigEndianSeqNum := beBytes 8 seqNum
  let prefixLength := impl.kIVLength - 8
  let iv := List.replicate prefixLength 0 ++ bigEndianSeqNum
  XOR trafficIv iv

/-! ## Errors, cursors and appenders -/

/-- The exceptions the embedded code can raise. -/
inductive Err where
  /-- `std::out_of_range`, thrown by a `Cursor` asked for more bytes than remain. -/
  | outOfRange
  /-- A length that does not fit the integer type of its length field. -/
  | overflow
  /-- `FizzException(msg, AlertDescription::decode_error)`. -/
  | fizzException (msg : String)
  /-- `std::runtime_error(msg)`. -/
  | runtimeError (msg : String)
  /-- The bound on the iterations of a loop of the embedding was reached. -/
  | fuel
  deriving DecidableEq, Repr

instance instDecidableEqExcept {ε α : Type} [DecidableEq ε] [DecidableEq α] :
    DecidableEq (Except ε α)
  | .ok a, .ok b =>
    if h : a = b then isTrue (by rw [h]) else isFalse (by intro h1; cases h1; exact h rfl)
  | .error a, .error b =>
    if h : a = b then isTrue (by rw [h]) else isFalse (by intro h1; cases h1; exact h rfl)
  | .ok _, .error _ => isFalse (by intro h; cases h)
  | .error _, .ok _ => isFalse (by intro h; cases h)

/-- What a `read` leaves behind: the value stored in its `out` argument, the
byte count it returns, and the cursor after it. -/
structure ReadResult (α : Type) where
  out : α
  len : Nat
  cursor : List Nat
  deriving DecidableEq, Repr

/-- The folly call `Cursor::readBE<N>()` for a `w`-byte unsigned `N`: the value
and the advanced cursor. -/
def Cursor.readBE (w : Nat) (cursor : List Nat) : Except Err (Nat × List Nat) :=
  if cursor.length < w then .error .outOfRange
  else .ok (beValue (cursor.take w), cursor.drop w)

/-- The folly call `Cursor::skip(n)`. -/
def Cursor.skip (n : Nat) (cursor : List Nat) : Except Err (List Nat) :=
  if cursor.length < n then .error .outOfRange else .ok (cursor.drop n)

/-- The folly call `Cursor::clone(buf, n)`: the next `n` bytes and the advanced
cursor. -/
def Cursor.clone (n : Nat) (cursor : List Nat) : Except Err (List Nat × List Nat) :=
  if cursor.length < n then .error .outOfRange else .ok (cursor.take n, cursor.drop n)

/-- The folly call `Cursor::totalLength()`. -/
def Cursor.totalLength (cursor : List Nat) : Nat := cursor.length

namespace detail

/-- Modelled from the spec: `detail::read` for an integer or enum of `w` bytes
(Types-inl.h is not among the sources); it reads the big-endian value and
returns the `w` bytes consumed, failing on insufficient remaining bytes. -/
def read (w : Nat) (cursor : List Nat) : Except Err (ReadResult Nat) :=
  match Cursor.readBE w cursor with
  | .error e => .error e
  | .ok (v, rest) => .ok ⟨v, w, rest⟩

/-- Modelled from the spec: `detail::write` for an integer or enum of `w` bytes
(Types-inl.h is not among the sources); it appends the big-endian bytes. -/
def write (w : Nat) (v : Nat) : List Nat := beBytes w v

/-- Modelled from the spec: the length field of `w` bytes that `writeBuf` and
`writeVector` put in front (Types-inl.h is not among the sources); a length
that does not fit is not a valid value and the write fails. -/
def writeLength (w : Nat) (len : Nat) : Except Err (List Nat) :=
  if len < 256 ^ w then .ok (beBytes w len) else .error .overflow

/-- Modelled from the spec: `detail::readBuf<N>` (Types-inl.h is not among the
sources): a length field of `w` bytes followed by that many raw bytes. -/
def readBuf (w : Nat) (cursor : List Nat) : Except Err (ReadResult (List Nat)) :=
  match Cursor.readBE w cursor with
  | .error e => .error e
  | .ok (len, c1) =>
    match Cursor.clone len c1 with
    | .error e => .error e
    | .ok (buf, c2) => .ok ⟨buf, w + len, c2⟩

/-- Modelled from the spec: `detail::writeBuf<N>` (Types-inl.h is not among the
sources): the length field of `w` bytes, then the raw bytes. -/
def writeBuf (w : Nat) (buf : List Nat) : Except Err (List Nat) :=
  match writeLength w buf.length with
  | .error e => .error e
  | .ok p => .ok (p ++ buf)

/-- Modelled from the spec: `detail::getBufSize<N>` (Types-inl.h is not among
the sources): the exact length `writeBuf<N>` produces. -/
def getBufSize (w : Nat) (buf : List Nat) : Nat := w + buf.length

/-- Modelled from the spec: the loop of `detail::readVector` (Types-inl.h is not
among the sources): elements are read and pushed back until the bytes consumed
equal the declared length. -/
def readVectorLoop {α : Type} (rd : List Nat → Except Err (ReadResult α)) :
    Nat → Nat → Nat → List α → List Nat → Except Err (List α × List Nat)
  | 0, _, _, _, _ => .error .fuel
  | fuel + 1, len, consumed, out, cursor =>
    if consumed = len then .ok (out, cursor)
    else
      match rd cursor with
      | .error e => .error e
      | .ok r => readVectorLoop rd fuel len (consumed + r.len) (out ++ [r.out]) r.cursor

/-- Modelled from the spec: `detail::readVector<N, T>` (Types-inl.h is not among
the sources), the generic length-prefixed-sequence helper: a length field of
`w` bytes followed by a sequence of sub-elements filling that many bytes. It
fails when fewer bytes remain than declared. The loop is bounded by the
number of remaining bytes plus one, which suffices for element readers that
consume at least one byte. -/
def readVector {α : Type} (w : Nat) (rd : List Nat → Except Err (ReadResult α))
    (cursor : List Nat) : Except Err (List α × List Nat) :=
  match Cursor.readBE w cursor with
  | .error e => .error e
  | .ok (len, c1) =>
    if Cursor.totalLength c1 < len then .error .outOfRange
    else readVectorLoop rd (Cursor.totalLength c1 + 1) len 0 [] c1

/-- Modelled from the spec: the second pass of `detail::writeVector` (Types-inl.h
is not among the sources): every element is written in order. -/
def writeAll {α : Type} (wr : α → Except Err (List Nat)) : List α → Except Err (List Nat)
  | [] => .ok []
  | t :: ts =>
    match wr t with
    | .error e => .error e
    | .ok a =>
      match writeAll wr ts with
      | .error e => .error e
      | .ok b => .ok (a ++ b)

/-- Modelled from the spec: `detail::writeVector<N, T>` (Types-inl.h is not
among the sources): a first pass adds up `getSize` of the elements to
pre-compute the length field of `w` bytes, then the elements are written. -/
def writeVector {α : Type} (w : Nat) (getSize : α → Nat) (wr : α → Except Err (List Nat))
    (data : List α) : Except Err (List Nat) :=
  let len := (data.map getSize).sum
  match writeLength w len with
  | .error e => .error e
  | .ok p =>
    match writeAll wr data with
    | .error e => .error e
    | .ok body => .ok (p ++ body)

end detail

/-! ## Wire types (declared in Types.h and Extensions.h) -/

/-- The tags of `ExtensionType` that the sources name; a tag read from the
wire may be any other 16-bit value. -/
inductive ExtensionType where
  | server_name
  | supported_groups
  | signature_algorithms
  | application_layer_protocol_negotiation
  | key_share_old
  | pre_shared_key
  | early_data
  | supported_versions
  | cookie
  | psk_key_exchange_modes
  | certificate_authorities
  | key_share
  | alternate_server_name
  | other (code : Nat)
  deriving DecidableEq, Repr

/-- An extension as framed on the wire: a 16-bit tag and its data. -/
structure Extension where
  extension_type : ExtensionType
  extension_data : List Nat
  deriving DecidableEq, Repr

/-- The part of `ClientHello` that the codec looks at. -/
structure ClientHello where
  extensions : List Extension
  deriving DecidableEq, Repr

/-- Modelled from the spec: `sizeof(NamedGroup)`, whose declaration is outside
the sources: "NamedGroup(2 bytes)". -/
def sizeofNamedGroup : Nat := 2

/-- Modelled from the spec: `sizeof(ServerNameType)`, whose declaration is
outside the sources; the name type of a TLS server name is one byte. -/
def sizeofServerNameType : Nat := 1

/-- A key share entry: a named group and the key exchange bytes. -/
structure KeyShareEntry where
  group : Nat
  key_exchange : List Nat
  deriving DecidableEq, Repr

/-- Modelled from the spec: the declaration of `ClientKeyShare` is outside the
sources; a default-constructed value has no shares and `preDraft23 == false`
("one containing both tags prefers the current tag"). -/
structure ClientKeyShare where
  client_shares : List KeyShareEntry := []
  preDraft23 : Bool := false
  deriving DecidableEq, Repr

/-- A PSK identity: the identity bytes and the 32-bit obfuscated ticket age. -/
structure PskIdentity where
  psk_identity : List Nat
  obfuscated_ticket_age : Nat
  deriving DecidableEq, Repr

/-- A PSK binder. -/
structure PskBinder where
  binder : List Nat
  deriving DecidableEq, Repr

/-- The payload of a client `pre_shared_key` extension; a default-constructed
value has empty vectors. -/
structure ClientPresharedKey where
  identities : List PskIdentity := []
  binders : List PskBinder := []
  deriving DecidableEq, Repr

/-- A server name: its name type and the host name bytes. -/
structure ServerName where
  name_type : Nat
  hostname : List Nat
  deriving DecidableEq, Repr

/-- The payload of a `server_name` extension, with the flag that selects the
alternate tag on encoding. -/
structure ServerNameList where
  server_name_list : List ServerName
  useAlternateCodePoint : Bool
  deriving DecidableEq, Repr

/-- A protocol name of the ALPN list. -/
structure ProtocolName where
  name : List Nat
  deriving DecidableEq, Repr

/-- A distinguished name of the certificate authorities list. -/
structure DistinguishedName where
  encoded_name : List Nat
  deriving DecidableEq, Repr

/-- Modelled from the spec: `sizeof(SignatureScheme)`, whose declaration is
outside the sources; a TLS signature scheme is a 16-bit code. -/
def sizeofSignatureScheme : Nat := 2

/-- Modelled from the spec: `sizeof(ProtocolVersion)`, whose declaration is
outside the sources; a TLS protocol version is a 16-bit code. -/
def sizeofProtocolVersion : Nat := 2

/-- Modelled from the spec: `sizeof(PskKeyExchangeMode)`, whose declaration is
outside the sources; a TLS PSK key exchange mode is one byte. -/
def sizeofPskKeyExchangeMode : Nat := 1

/-- The payload of a `signature_algorithms` extension. -/
structure SignatureAlgorithms where
  supported_signature_algorithms : List Nat := []
  deriving DecidableEq, Repr

/-- The payload of a `supported_groups` extension. -/
structure SupportedGroups where
  named_group_list : List Nat := []
  deriving DecidableEq, Repr

/-- Modelled from the spec: the declaration of `ServerKeyShare` is outside the
sources; as for `ClientKeyShare`, a default-constructed value has
`preDraft23 == false`. The share of a default-constructed value is overwritten
by every read. -/
structure ServerKeyShare where
  server_share : KeyShareEntry := ⟨0, []⟩
  preDraft23 : Bool := false
  deriving DecidableEq, Repr

/-- Modelled from the spec: the declaration of `HelloRetryRequestKeyShare` is
outside the sources; as for `ClientKeyShare`, a default-constructed value has
`preDraft23 == false`. The group of a default-constructed value is overwritten
by every read. -/
structure HelloRetryRequestKeyShare where
  selected_group : Nat := 0
  preDraft23 : Bool := false
  deriving DecidableEq, Repr

/-- The payload of a server `pre_shared_key` extension: a `uint16_t` index. -/
structure ServerPresharedKey where
  selected_identity : Nat
  deriving DecidableEq, Repr

/-- The empty payload of a client `early_data` extension. -/
structure ClientEarlyData where
  deriving DecidableEq, Repr

/-- The empty payload of a server `early_data` extension. -/
structure ServerEarlyData where
  deriving DecidableEq, Repr

/-- The payload of an `early_data` extension of a ticket: a `uint32_t` size. -/
structure TicketEarlyData where
  max_early_data_size : Nat
  deriving DecidableEq, Repr

/-- The payload of a `cookie` extension. -/
structure Cookie where
  cookie : List Nat
  deriving DecidableEq, Repr

/-- The payload of a client `supported_versions` extension. -/
structure SupportedVersions where
  versions : List Nat := []
  deriving DecidableEq, Repr

/-- The payload of a server `supported_versions` extension. -/
structure ServerSupportedVersions where
  selected_version : Nat
  deriving DecidableEq, Repr

/-- The payload of a `psk_key_exchange_modes` extension. -/
structure PskKeyExchangeModes where
  modes : List Nat := []
  deriving DecidableEq, Repr

/-- The payload of an `application_layer_protocol_negotiation` extension. -/
structure ProtocolNameList where
  protocol_name_list : List ProtocolName := []
  deriving DecidableEq, Repr

/-- The payload of a `certificate_authorities` extension. -/
structure CertificateAuthorities where
  authorities : List DistinguishedName := []
  deriving DecidableEq, Repr

/-! ## Readers, writers and sizers of the nested wire structures -/

namespace detail

/-- The method `Reader<KeyShareEntry>::read`: the group, then the key exchange
behind a `uint16_t` length; it returns the sum of the two byte counts. -/
def Reader_KeyShareEntry.read (cursor : List Nat) : Except Err (ReadResult KeyShareEntry) :=
  match detail.read sizeofNamedGroup cursor with
  | .error e => .error e
  | .ok g =>
    match readBuf 2 g.cursor with
    | .error e => .error e
    | .ok k => .ok ⟨⟨g.out, k.out⟩, g.len + k.len, k.cursor⟩

/-- The method `Writer<KeyShareEntry>::write`: the group, then the key exchange
behind a `uint16_t` length (the only step that can fail). -/
def Writer_KeyShareEntry.write (share : KeyShareEntry) : Except Err (List Nat) :=
  match writeBuf 2 share.key_exchange with
  | .error e => .error e
  | .ok k => .ok (detail.write sizeofNamedGroup share.group ++ k)

/-- The method `Sizer<KeyShareEntry>::getSize`. -/
def Sizer_KeyShareEntry.getSize (share : KeyShareEntry) : Nat :=
  sizeofNamedGroup + getBufSize 2 share.key_exchange

/-- The method `Reader<PskIdentity>::read`: the identity behind a `uint16_t`
length, then the `uint32_t` ticket age. -/
def Reader_PskIdentity.read (cursor : List Nat) : Except Err (ReadResult PskIdentity) :=
  match readBuf 2 cursor with
  | .error e => .error e
  | .ok i =>
    match detail.read 4 i.cursor with
    | .error e => .error e
    | .ok a => .ok ⟨⟨i.out, a.out⟩, i.len + a.len, a.cursor⟩

/-- The method `Writer<PskIdentity>::write`. -/
def Writer_PskIdentity.write (ident : PskIdentity) : Except Err (List Nat) :=
  match writeBuf 2 ident.psk_identity with
  | .error e => .error e
  | .ok i => .ok (i ++ detail.write 4 ident.obfuscated_ticket_age)

/-- The method `Sizer<PskIdentity>::getSize`; `sizeof(uint32_t)` is 4. -/
def Sizer_PskIdentity.getSize (ident : PskIdentity) : Nat :=
  getBufSize 2 ident.psk_identity + 4

/-- The method `Reader<PskBinder>::read`: the binder behind a `uint8_t` length. -/
def Reader_PskBinder.read (cursor : List Nat) : Except Err (ReadResult PskBinder) :=
  match readBuf 1 cursor with
  | .error e => .error e
  | .ok b => .ok ⟨⟨b.out⟩, b.len, b.cursor⟩

/-- The method `Writer<PskBinder>::write`. -/
def Writer_PskBinder.write (binder : PskBinder) : Except Err (List Nat) :=
  writeBuf 1 binder.binder

/-- The method `Sizer<PskBinder>::getSize`. -/
def Sizer_PskBinder.getSize (binder : PskBinder) : Nat :=
  getBufSize 1 binder.binder

/-- The method `Reader<ServerName>::read`: the name type, then the host name
behind a `uint16_t` length. -/
def Reader_ServerName.read (cursor : List Nat) : Except Err (ReadResult ServerName) :=
  match detail.read sizeofServerNameType cursor with
  | .error e => .error e
  | .ok t =>
    match readBuf 2 t.cursor with
    | .error e => .error e
    | .ok h => .ok ⟨⟨t.out, h.out⟩, t.len + h.len, h.cursor⟩

/-- The method `Writer<ServerName>::write`. -/
def Writer_ServerName.write (name : ServerName) : Except Err (List Nat) :=
  match writeBuf 2 name.hostname with
  | .error e => .error e
  | .ok h => .ok (detail.write sizeofServerNameType name.name_type ++ h)

/-- The method `Sizer<ServerName>::getSize`. -/
def Sizer_ServerName.getSize (name : ServerName) : Nat :=
  sizeofServerNameType + getBufSize 2 name.hostname

/-- The method `Reader<ProtocolName>::read`: the name behind a `uint8_t` length. -/
def Reader_ProtocolName.read (cursor : List Nat) : Except Err (ReadResult ProtocolName) :=
  match readBuf 1 cursor with
  | .error e => .error e
  | .ok b => .ok ⟨⟨b.out⟩, b.len, b.cursor⟩

/-- The method `Writer<ProtocolName>::write`. -/
def Writer_ProtocolName.write (name : ProtocolName) : Except Err (List Nat) :=
  writeBuf 1 name.name

/-- The method `Sizer<ProtocolName>::getSize`. -/
def Sizer_ProtocolName.getSize (name : ProtocolName) : Nat :=
  getBufSize 1 name.name

/-- The method `Reader<DistinguishedName>::read`: the encoded name behind a
`uint16_t` length. -/
def Reader_DistinguishedName.read (cursor : List Nat) :
    Except Err (ReadResult DistinguishedName) :=
  match readBuf 2 cursor with
  | .error e => .error e
  | .ok b => .ok ⟨⟨b.out⟩, b.len, b.cursor⟩

/-- The method `Writer<DistinguishedName>::write`. -/
def Writer_DistinguishedName.write (dn : DistinguishedName) : Except Err (List Nat) :=
  writeBuf 2 dn.encoded_name

/-- The method `Sizer<DistinguishedName>::getSize`. -/
def Sizer_DistinguishedName.getSize (dn : DistinguishedName) : Nat :=
  getBufSize 2 dn.encoded_name

end detail

/-! ## Extensions-inl.h -/

/-- The function `findExtension`: the iterator it returns is an index into `extensions`,
and `extensions.end()` is the index `extensions.length`. -/
def findExtension : List Extension → ExtensionType → Nat
  | [], _ => 0
  | e :: rest, type =>
    if e.extension_type = type then 0 else findExtension rest type + 1

/-- The buffer `it->extension_data` a cursor is opened on. Whenever an iterator
returned by `findExtension` differs from `end()` it points at an element. -/
def extensionDataAt (extensions : List Extension) (it : Nat) : List Nat :=
  match extensions[it]? with
  | some e => e.extension_data
  | none => []

/-- The specialisation `getExtension<ClientKeyShare>`. -/
def getExtension_ClientKeyShare (extensions : List Extension) :
    Except Err (Option ClientKeyShare) :=
  let share : ClientKeyShare := {}
  let it := findExtension extensions ExtensionType.key_share
  if it = extensions.length then
    let it := findExtension extensions ExtensionType.key_share_old
    if it = extensions.length then
      .ok none
    else
      let share := { share with preDraft23 := true }
      match detail.readVector 2 detail.Reader_KeyShareEntry.read (extensionDataAt extensions it) with
      | .error e => .error e
      | .ok (v, _) => .ok (some { share with client_shares := share.client_shares ++ v })
  else
    match detail.readVector 2 detail.Reader_KeyShareEntry.read (extensionDataAt extensions it) with
    | .error e => .error e
    | .ok (v, _) => .ok (some { share with client_shares := share.client_shares ++ v })

/-- The specialisation `getExtension<ClientPresharedKey>`. -/
def getExtension_ClientPresharedKey (extensions : List Extension) :
    Except Err (Option ClientPresharedKey) :=
  let it := findExtension extensions ExtensionType.pre_shared_key
  if it = extensions.length then
    .ok none
  else
    let share : ClientPresharedKey := {}
    match detail.readVector 2 detail.Reader_PskIdentity.read (extensionDataAt extensions it) with
    | .error e => .error e
    | .ok (ids, cursor) =>
      match detail.readVector 2 detail.Reader_PskBinder.read cursor with
      | .error e => .error e
      | .ok (bs, _) =>
        .ok (some { identities := share.identities ++ ids, binders := share.binders ++ bs })

/-- The specialisation `getExtension<ServerNameList>`. The declaration of `ServerNameList` is
outside the sources, so the value `dflt` that a default-constructed
`ServerNameList` has in `useAlternateCodePoint` is a parameter; the function
never assigns that field. -/
def getExtension_ServerNameList (dflt : Bool) (extensions : List Extension) :
    Except Err (Option ServerNameList) :=
  let it := findExtension extensions ExtensionType.server_name
  if it = extensions.length then
    let it := findExtension extensions ExtensionType.alternate_server_name
    if it = extensions.length then
      .ok none
    else
      let names : ServerNameList := ⟨[], dflt⟩
      match detail.readVector 2 detail.Reader_ServerName.read (extensionDataAt extensions it) with
      | .error e => .error e
      | .ok (v, _) => .ok (some { names with server_name_list := names.server_name_list ++ v })
  else
    let names : ServerNameList := ⟨[], dflt⟩
    match detail.readVector 2 detail.Reader_ServerName.read (extensionDataAt extensions it) with
    | .error e => .error e
    | .ok (v, _) => .ok (some { names with server_name_list := names.server_name_list ++ v })

/-- The specialisation `getExtension<SignatureAlgorithms>`. -/
def getExtension_SignatureAlgorithms (extensions : List Extension) : Except Err (Option SignatureAlgorithms) :=
  let it := findExtension extensions ExtensionType.signature_algorithms
  if it = extensions.length then
    .ok none
  else
    let sigs : SignatureAlgorithms := {}
    match detail.readVector 2 (detail.read sizeofSignatureScheme) (extensionDataAt extensions it) with
    | .error e => .error e
    | .ok (v, _) => .ok (some { sigs with supported_signature_algorithms := sigs.supported_signature_algorithms ++ v })

/-- The specialisation `getExtension<SupportedGroups>`. -/
def getExtension_SupportedGroups (extensions : List Extension) : Except Err (Option SupportedGroups) :=
  let it := findExtension extensions ExtensionType.supported_groups
  if it = extensions.length then
    .ok none
  else
    let groups : SupportedGroups := {}
    match detail.readVector 2 (detail.read sizeofNamedGroup) (extensionDataAt extensions it) with
    | .error e => .error e
    | .ok (v, _) => .ok (some { groups with named_group_list := groups.named_group_list ++ v })

/-- The specialisation `getExtension<ServerKeyShare>`. -/
def getExtension_ServerKeyShare (extensions : List Extension) : Except Err (Option ServerKeyShare) :=
  let share : ServerKeyShare := {}
  let it := findExtension extensions ExtensionType.key_share
  if it = extensions.length then
    let it := findExtension extensions ExtensionType.key_share_old
    if it = extensions.length then
      .ok none
    else
      let share := { share with preDraft23 := true }
      match detail.Reader_KeyShareEntry.read (extensionDataAt extensions it) with
      | .error e => .error e
      | .ok r => .ok (some { share with server_share := r.out })
  else
    match detail.Reader_KeyShareEntry.read (extensionDataAt extensions it) with
    | .error e => .error e
    | .ok r => .ok (some { share with server_share := r.out })

/-- The specialisation `getExtension<HelloRetryRequestKeyShare>`. -/
def getExtension_HelloRetryRequestKeyShare (extensions : List Extension) : Except Err (Option HelloRetryRequestKeyShare) :=
  let share : HelloRetryRequestKeyShare := {}
  let it := findExtension extensions ExtensionType.key_share
  if it = extensions.length then
    let it := findExtension extensions ExtensionType.key_share_old
    if it = extensions.length then
      .ok none
    else
      let share := { share with preDraft23 := true }
      match detail.read sizeofNamedGroup (extensionDataAt extensions it) with
      | .error e => .error e
      | .ok r => .ok (some { share with selected_group := r.out })
  else
    match detail.read sizeofNamedGroup (extensionDataAt extensions it) with
    | .error e => .error e
    | .ok r => .ok (some { share with selected_group := r.out })

/-- The specialisation `getExtension<ServerPresharedKey>`. -/
def getExtension_ServerPresharedKey (extensions : List Extension) : Except Err (Option ServerPresharedKey) :=
  let it := findExtension extensions ExtensionType.pre_shared_key
  if it = extensions.length then
    .ok none
  else
    match detail.read 2 (extensionDataAt extensions it) with
    | .error e => .error e
    | .ok r => .ok (some { selected_identity := r.out })

/-- The specialisation `getExtension<ClientEarlyData>`. -/
def getExtension_ClientEarlyData (extensions : List Extension) : Except Err (Option ClientEarlyData) :=
  let it := findExtension extensions ExtensionType.early_data
  if it = extensions.length then
    .ok none
  else
    .ok (some {})

/-- The specialisation `getExtension<ServerEarlyData>`. -/
def getExtension_ServerEarlyData (extensions : List Extension) : Except Err (Option ServerEarlyData) :=
  let it := findExtension extensions ExtensionType.early_data
  if it = extensions.length then
    .ok none
  else
    .ok (some {})

/-- The specialisation `getExtension<TicketEarlyData>`. -/
def getExtension_TicketEarlyData (extensions : List Extension) : Except Err (Option TicketEarlyData) :=
  let it := findExtension extensions ExtensionType.early_data
  if it = extensions.length then
    .ok none
  else
    match detail.read 4 (extensionDataAt extensions it) with
    | .error e => .error e
    | .ok r => .ok (some { max_early_data_size := r.out })

/-- The specialisation `getExtension<Cookie>`. -/
def getExtension_Cookie (extensions : List Extension) : Except Err (Option Cookie) :=
  let it := findExtension extensions ExtensionType.cookie
  if it = extensions.length then
    .ok none
  else
    match detail.readBuf 2 (extensionDataAt extensions it) with
    | .error e => .error e
    | .ok r => .ok (some { cookie := r.out })

/-- The specialisation `getExtension<SupportedVersions>`. -/
def getExtension_SupportedVersions (extensions : List Extension) : Except Err (Option SupportedVersions) :=
  let it := findExtension extensions ExtensionType.supported_versions
  if it = extensions.length then
    .ok none
  else
    let versions : SupportedVersions := {}
    match detail.readVector 1 (detail.read sizeofProtocolVersion) (extensionDataAt extensions it) with
    | .error e => .error e
    | .ok (v, _) => .ok (some { versions with versions := versions.versions ++ v })

/-- The specialisation `getExtension<ServerSupportedVersions>`. -/
def getExtension_ServerSupportedVersions (extensions : List Extension) : Except Err (Option ServerSupportedVersions) :=
  let it := findExtension extensions ExtensionType.supported_versions
  if it = extensions.length then
    .ok none
  else
    match detail.read sizeofProtocolVersion (extensionDataAt extensions it) with
    | .error e => .error e
    | .ok r => .ok (some { selected_version := r.out })

/-- The specialisation `getExtension<PskKeyExchangeModes>`. -/
def getExtension_PskKeyExchangeModes (extensions : List Extension) : Except Err (Option PskKeyExchangeModes) :=
  let it := findExtension extensions ExtensionType.psk_key_exchange_modes
  if it = extensions.length then
    .ok none
  else
    let modes : PskKeyExchangeModes := {}
    match detail.readVector 1 (detail.read sizeofPskKeyExchangeMode) (extensionDataAt extensions it) with
    | .error e => .error e
    | .ok (v, _) => .ok (some { modes with modes := modes.modes ++ v })

/-- The specialisation `getExtension<ProtocolNameList>`. -/
def getExtension_ProtocolNameList (extensions : List Extension) : Except Err (Option ProtocolNameList) :=
  let it := findExtension extensions ExtensionType.application_layer_protocol_negotiation
  if it = extensions.length then
    .ok none
  else
    let names : ProtocolNameList := {}
    match detail.readVector 2 detail.Reader_ProtocolName.read (extensionDataAt extensions it) with
    | .error e => .error e
    | .ok (v, _) => .ok (some { names with protocol_name_list := names.protocol_name_list ++ v })

/-- The specialisation `getExtension<CertificateAuthorities>`. -/
def getExtension_CertificateAuthorities (extensions : List Extension) : Except Err (Option CertificateAuthorities) :=
  let it := findExtension extensions ExtensionType.certificate_authorities
  if it = extensions.length then
    .ok none
  else
    let authorities : CertificateAuthorities := {}
    match detail.readVector 2 detail.Reader_DistinguishedName.read (extensionDataAt extensions it) with
    | .error e => .error e
    | .ok (v, _) => .ok (some { authorities with authorities := authorities.authorities ++ v })

/-- A cursor too short for a key share entry: fewer than the four bytes of the
group and the length field, or a length field that declares more key exchange
bytes than remain after it. -/
def KeyShareEntry.Truncated (cursor : List Nat) : Prop :=
  cursor.length < 4 ∨ cursor.length - 4 < beValue ((cursor.drop 2).take 2)

instance (cursor : List Nat) : Decidable (KeyShareEntry.Truncated cursor) := by
  unfold KeyShareEntry.Truncated; infer_instance

/-- The specialisation `encodeExtension(const ClientKeyShare&)`. -/
def encodeExtension_ClientKeyShare (share : ClientKeyShare) : Except Err Extension :=
  match detail.writeVector 2 detail.Sizer_KeyShareEntry.getSize detail.Writer_KeyShareEntry.write
      share.client_shares with
  | .error e => .error e
  | .ok data =>
    .ok { extension_type :=
            if share.preDraft23 then ExtensionType.key_share_old else ExtensionType.key_share
          extension_data := data }

/-- The specialisation `encodeExtension(const ServerKeyShare&)`. -/
def encodeExtension_ServerKeyShare (share : ServerKeyShare) : Except Err Extension :=
  match detail.Writer_KeyShareEntry.write share.server_share with
  | .error e => .error e
  | .ok data =>
    .ok { extension_type :=
            if share.preDraft23 then ExtensionType.key_share_old else ExtensionType.key_share
          extension_data := data }

/-- The specialisation `encodeExtension(const ClientPresharedKey&)`. -/
def encodeExtension_ClientPresharedKey (share : ClientPresharedKey) : Except Err Extension :=
  match detail.writeVector 2 detail.Sizer_PskIdentity.getSize detail.Writer_PskIdentity.write
      share.identities with
  | .error e => .error e
  | .ok ids =>
    match detail.writeVector 2 detail.Sizer_PskBinder.getSize detail.Writer_PskBinder.write
        share.binders with
    | .error e => .error e
    | .ok bs => .ok { extension_type := ExtensionType.pre_shared_key, extension_data := ids ++ bs }

/-- The specialisation `encodeExtension(const ServerNameList&)`. -/
def encodeExtension_ServerNameList (names : ServerNameList) : Except Err Extension :=
  match detail.writeVector 2 detail.Sizer_ServerName.getSize detail.Writer_ServerName.write
      names.server_name_list with
  | .error e => .error e
  | .ok data =>
    .ok { extension_type :=
            if names.useAlternateCodePoint then ExtensionType.alternate_server_name
            else ExtensionType.server_name
          extension_data := data }

/-- The function `getBinderLength`; `sizeof(binderLen)` is 2. -/
def getBinderLength (chlo : ClientHello) : Except Err Nat :=
  match chlo.extensions.getLast? with
  | none => -- chlo.extensions.empty()
    .error (.fizzException "psk not at end of client hello")
  | some back => -- chlo.extensions.back()
    if back.extension_type ≠ ExtensionType.pre_shared_key then
      .error (.fizzException "psk not at end of client hello")
    else
      match detail.read 2 back.extension_data with
      | .error e => .error e
      | .ok identitiesLen =>
        match Cursor.skip identitiesLen.out identitiesLen.cursor with
        | .error e => .error e
        | .ok cursor =>
          match detail.read 2 cursor with
          | .error e => .error e
          | .ok binderLen =>
            if Cursor.totalLength binderLen.cursor ≠ binderLen.out then
              .error (.fizzException "malformed binder length")
            else .ok (2 + binderLen.out)

/-! ## Well-formed values -/

/-- A key share entry whose group is a 16-bit value and whose key exchange fits
its 16-bit length field. -/
def KeyShareEntry.WellFormed (e : KeyShareEntry) : Prop :=
  e.group < 2 ^ 16 ∧ e.key_exchange.length < 2 ^ 16

instance (e : KeyShareEntry) : Decidable e.WellFormed := by
  unfold KeyShareEntry.WellFormed; infer_instance

/-- A client key share whose entries are well formed and whose encoded entries
fit the 16-bit length field of the list. -/
def ClientKeyShare.WellFormed (v : ClientKeyShare) : Prop :=
  (∀ e ∈ v.client_shares, e.WellFormed) ∧
  (v.client_shares.map detail.Sizer_KeyShareEntry.getSize).sum < 2 ^ 16

instance (x : ClientKeyShare) : Decidable x.WellFormed := by
  unfold ClientKeyShare.WellFormed; infer_instance

/-- A PSK identity that fits its 16-bit length field, with a 32-bit ticket age. -/
def PskIdentity.WellFormed (i : PskIdentity) : Prop :=
  i.psk_identity.length < 2 ^ 16 ∧ i.obfuscated_ticket_age < 2 ^ 32

instance (x : PskIdentity) : Decidable x.WellFormed := by
  unfold PskIdentity.WellFormed; infer_instance

/-- A binder that fits its 8-bit length field. -/
def PskBinder.WellFormed (b : PskBinder) : Prop :=
  b.binder.length < 2 ^ 8

instance (x : PskBinder) : Decidable x.WellFormed := by
  unfold PskBinder.WellFormed; infer_instance

/-- A client pre-shared key whose identities and binders are well formed and
whose encoded identities list and binders list each fit a 16-bit length field. -/
def ClientPresharedKey.WellFormed (v : ClientPresharedKey) : Prop :=
  (∀ i ∈ v.identities, i.WellFormed) ∧
  (∀ b ∈ v.binders, b.WellFormed) ∧
  (v.identities.map detail.Sizer_PskIdentity.getSize).sum < 2 ^ 16 ∧
  (v.binders.map detail.Sizer_PskBinder.getSize).sum < 2 ^ 16

instance (x : ClientPresharedKey) : Decidable x.WellFormed := by
  unfold ClientPresharedKey.WellFormed; infer_instance

/-- A server name with a one-byte name type whose host name fits its 16-bit
length field. -/
def ServerName.WellFormed (n : ServerName) : Prop :=
  n.name_type < 2 ^ 8 ∧ n.hostname.length < 2 ^ 16

instance (x : ServerName) : Decidable x.WellFormed := by
  unfold ServerName.WellFormed; infer_instance

/-- A server name list whose names are well formed and whose encoded names fit
the 16-bit length field of the list. -/
def ServerNameList.WellFormed (v : ServerNameList) : Prop :=
  (∀ n ∈ v.server_name_list, n.WellFormed) ∧
  (v.server_name_list.map detail.Sizer_ServerName.getSize).sum < 2 ^ 16

instance (x : ServerNameList) : Decidable x.WellFormed := by
  unfold ServerNameList.WellFormed; infer_instance

/-- A protocol name that fits its 8-bit length field. -/
def ProtocolName.WellFormed (n : ProtocolName) : Prop :=
  n.name.length < 2 ^ 8

instance (x : ProtocolName) : Decidable x.WellFormed := by
  unfold ProtocolName.WellFormed; infer_instance

/-- A distinguished name that fits its 16-bit length field. -/
def DistinguishedName.WellFormed (dn : DistinguishedName) : Prop :=
  dn.encoded_name.length < 2 ^ 16

instance (x : DistinguishedName) : Decidable x.WellFormed := by
  unfold DistinguishedName.WellFormed; infer_instance

/-- A byte string: every element is below 256. -/
def ValidBytes (b : List Nat) : Prop :=
  ∀ y ∈ b, y < 256

instance (b : List Nat) : Decidable (ValidBytes b) := by
  unfold ValidBytes; infer_instance

/-! ## The round-trip contract of an element codec -/

/-- The three operations of an element type agree on `x`: `wr x` succeeds with
exactly `getSize x` bytes (at least one), and `rd` on those bytes followed by
anything gives back `x`, the byte count `getSize x`, and the rest. -/
def detail.ElemRoundTrip {α : Type} (getSize : α → Nat) (wr : α → Except Err (List Nat))
    (rd : List Nat → Except Err (ReadResult α)) (x : α) : Prop :=
  0 < getSize x ∧
  ∃ bytes, wr x = .ok bytes ∧ bytes.length = getSize x ∧
    ∀ rest, rd (bytes ++ rest) = .ok ⟨x, getSize x, rest⟩

/-! ## OpenSSLEVPCipher: state, setKey, encrypt, tryDecrypt -/

/-- A traffic key: the key bytes and the IV bytes. -/
structure TrafficKey where
  key : List Nat
  iv : List Nat
  deriving DecidableEq, Repr

/-- What the embedding keeps of an `EVP_CIPHER_CTX`: the key installed in it, if
any. The transform and the IV length are fixed by the constructor. -/
structure EVP_CIPHER_CTX where
  key : Option (List Nat)
  deriving DecidableEq, Repr

/-- The wrapped provider, a parameter of the embedding: whether
`EVP_EncryptInit_ex` and `EVP_DecryptInit_ex` return 1 for a key, and the two
functions `detail::evpEncrypt` and `detail::evpDecrypt`, which the header only
declares. An `associatedData` pointer is the list of its bytes. -/
structure Provider where
  EVP_EncryptInit_ex : List Nat → Bool
  EVP_DecryptInit_ex : List Nat → Bool
  evpEncrypt : List Nat → List Nat → List Nat → Nat → EVP_CIPHER_CTX → Except Err (List Nat)
  evpDecrypt : List Nat → List Nat → List Nat → Nat → EVP_CIPHER_CTX → Option (List Nat)

/-- The members of an `OpenSSLEVPCipher<EVPImpl>`. Before the first `setKey` the
traffic key holds null buffers. -/
structure OpenSSLEVPCipher where
  trafficKey_ : TrafficKey
  encryptCtx_ : EVP_CIPHER_CTX
  decryptCtx_ : EVP_CIPHER_CTX
  deriving DecidableEq, Repr

/-- The method `OpenSSLEVPCipher<EVPImpl>::setKey`: the outcome of the call and
the members after it, also when it throws. A provider call that does not
return 1 is taken to leave its context as it was. -/
def OpenSSLEVPCipher.setKey (impl : EVPImpl) (prov : Provider) (self : OpenSSLEVPCipher)
    (trafficKey : TrafficKey) : Except Err Unit × OpenSSLEVPCipher :=
  if trafficKey.key.length ≠ impl.kKeyLength then
    (.error (.runtimeError "Invalid key"), self)
  else if trafficKey.iv.length ≠ impl.kIVLength then
    (.error (.runtimeError "Invalid IV"), self)
  else
    let self1 := { self with trafficKey_ := trafficKey }
    if prov.EVP_EncryptInit_ex self1.trafficKey_.key ≠ true then
      (.error (.runtimeError "Error setting encrypt key"), self1)
    else
      let self2 := { self1 with encryptCtx_ := ⟨some self1.trafficKey_.key⟩ }
      if prov.EVP_DecryptInit_ex self2.trafficKey_.key ≠ true then
        (.error (.runtimeError "Error setting decrypt key"), self2)
      else
        (.ok (), { self2 with decryptCtx_ := ⟨some self2.trafficKey_.key⟩ })

/-- The method `OpenSSLEVPCipher<EVPImpl>::createIV` on the members of a cipher. -/
def OpenSSLEVPCipher.createIV (impl : EVPImpl) (self : OpenSSLEVPCipher) (seqNum : Nat) :
    List Nat :=
  fizz.createIV impl self.trafficKey_.iv seqNum

/-- The method `OpenSSLEVPCipher<EVPImpl>::encrypt`. -/
def OpenSSLEVPCipher.encrypt (impl : EVPImpl) (prov : Provider) (self : OpenSSLEVPCipher)
    (plaintext associatedData : List Nat) (seqNum : Nat) : Except Err (List Nat) :=
  let iv := self.createIV impl seqNum
  prov.evpEncrypt plaintext associatedData iv impl.kTagLength self.encryptCtx_

/-- The method `OpenSSLEVPCipher<EVPImpl>::tryDecrypt`. -/
def OpenSSLEVPCipher.tryDecrypt (impl : EVPImpl) (prov : Provider) (self : OpenSSLEVPCipher)
    (ciphertext associatedData : List Nat) (seqNum : Nat) : Option (List Nat) :=
  let iv := self.createIV impl seqNum
  prov.evpDecrypt ciphertext associatedData iv impl.kTagLength self.decryptCtx_

/-- The method `OpenSSLEVPCipher<EVPImpl>::getCipherOverhead`. -/
def OpenSSLEVPCipher.getCipherOverhead (impl : EVPImpl) : Nat :=
  impl.kTagLength

/-- The provider's decryption inverts its encryption at one point: on contexts
holding `key`, with the nonce `iv`, the tag length `tagLen` and the associated
data given, encrypting `plaintext` succeeds and decrypting the output gives
`plaintext` back. Nothing is asked of the provider at any other key, nonce,
tag length or associated data. -/
def Provider.InvertsAt (prov : Provider) (key plaintext associatedData iv : List Nat)
    (tagLen : Nat) : Prop :=
  ∃ ciphertext,
    prov.evpEncrypt plaintext associatedData iv tagLen ⟨some key⟩ = .ok ciphertext ∧
    prov.evpDecrypt ciphertext associatedData iv tagLen ⟨some key⟩ = some plaintext

/-- A toy provider for examples: it accepts every key, appends `tagLen` zero
bytes as the tag and strips them again. -/
def toyProvider : Provider where
  EVP_EncryptInit_ex := fun _ => true
  EVP_DecryptInit_ex := fun _ => true
  evpEncrypt := fun plaintext _ _ tagLen _ => .ok (plaintext ++ List.replicate tagLen 0)
  evpDecrypt := fun ciphertext _ _ tagLen _ =>
    if ciphertext.length < tagLen then none
    else some (ciphertext.take (ciphertext.length - tagLen))

/-- The mask byte of the sample provider, from the key and the nonce. -/
def sampleMask (key iv : List Nat) : Nat :=
  (key.sum + iv.sum) % 256

/-- The tag of the sample provider: `tagLen` copies of a checksum byte over the
key, the nonce, the associated data and the plaintext. -/
def sampleTag (key iv associatedData plaintext : List Nat) (tagLen : Nat) : List Nat :=
  List.replicate tagLen
    ((key.sum + 3 * iv.sum + 5 * associatedData.sum + 7 * plaintext.sum + 11) % 256)

/-- A sample provider for examples that depends on the key, the nonce, the
associated data and the tag length: a context without a key and a tag longer
than 16 bytes are refused; the plaintext bytes are XORed with the mask byte and
followed by the tag; decryption strips the tag, unmasks, and gives the
plaintext only if the tag is the one of this key, nonce, associated data and
plaintext. -/
def sampleProvider : Provider where
  EVP_EncryptInit_ex := fun key => key.length == 16
  EVP_DecryptInit_ex := fun key => key.length == 16
  evpEncrypt := fun plaintext associatedData iv tagLen ctx =>
    match ctx.key with
    | none => .error (.runtimeError "Encryption error")
    | some key =>
      if 16 < tagLen then .error (.runtimeError "Encryption error")
      else
        .ok (plaintext.map (fun b => b ^^^ sampleMask key iv)
          ++ sampleTag key iv associatedData plaintext tagLen)
  evpDecrypt := fun ciphertext associatedData iv tagLen ctx =>
    match ctx.key with
    | none => none
    | some key =>
      if 16 < tagLen ∨ ciphertext.length < tagLen then none
      else
        let plaintext :=
          (ciphertext.take (ciphertext.length - tagLen)).map (fun b => b ^^^ sampleMask key iv)
        if ciphertext.drop (ciphertext.length - tagLen)
            = sampleTag key iv associatedData plaintext tagLen then
          some plaintext
        else none

/-! ## Lemmas: big-endian integers -/

theorem beBytes_length (w v : Nat) : (beBytes w v).length = w := by
  induction w with
  | zero => rfl
  | succ w ih => simp [beBytes, ih]

theorem beValue_foldl (w v acc : Nat) :
    (beBytes w v).foldl (fun a b => a * 256 + b) acc = acc * 256 ^ w + v % 256 ^ w := by
  induction w generalizing acc with
  | zero => simp [beBytes, Nat.mod_one]
  | succ w ih =>
    simp only [beBytes, List.foldl_cons]
    rw [ih, Nat.mod_pow_succ]
    ring

theorem beValue_beBytes (w v : Nat) (h : v < 256 ^ w) : beValue (beBytes w v) = v := by
  unfold beValue
  rw [beValue_foldl, Nat.mod_eq_of_lt h]
  simp

theorem beBytes_getElem? (w v i : Nat) (h : i < w) :
    (beBytes w v)[i]? = some ((v / 256 ^ (w - 1 - i)) % 256) := by
  induction w generalizing i with
  | zero => omega
  | succ w ih =>
    cases i with
    | zero => simp [beBytes]
    | succ i =>
      simp only [beBytes, List.getElem?_cons_succ]
      rw [ih i (by omega)]
      have hidx : w + 1 - 1 - (i + 1) = w - 1 - i := by omega
      rw [hidx]

theorem beBytes_injective (w a b : Nat) (ha : a < 256 ^ w) (hb : b < 256 ^ w)
    (h : beBytes w a = beBytes w b) : a = b := by
  rw [← beValue_beBytes w a ha, ← beValue_beBytes w b hb, h]

theorem beValue_cons (a : Nat) (bs : List Nat) :
    beValue (a :: bs) = a * 256 ^ bs.length + beValue bs := by
  have h : ∀ (l : List Nat) (acc : Nat),
      l.foldl (fun x b => x * 256 + b) acc
        = acc * 256 ^ l.length + l.foldl (fun x b => x * 256 + b) 0 := by
    intro l
    induction l with
    | nil => intro acc; simp
    | cons c l ih =>
      intro acc
      simp only [List.foldl_cons, List.length_cons]
      rw [ih (acc * 256 + c), ih (0 * 256 + c)]
      ring
  simp only [beValue, List.foldl_cons]
  rw [h bs (0 * 256 + a)]
  simp

theorem beValue_lt (bs : List Nat) (h : ValidBytes bs) : beValue bs < 256 ^ bs.length := by
  induction bs with
  | nil => simp [beValue]
  | cons a bs ih =>
    have ha : a < 256 := h a (List.mem_cons_self _ _)
    have hb := ih (fun y hy => h y (List.mem_cons_of_mem _ hy))
    rw [beValue_cons, List.length_cons, pow_succ]
    nlinarith

theorem beBytes_mod (w v : Nat) : beBytes w v = beBytes w (v % 256 ^ w) := by
  induction w generalizing v with
  | zero => rfl
  | succ w ih =>
    simp only [beBytes]
    congr 1
    · have hpos : 0 < 256 ^ w := Nat.pow_pos (by norm_num)
      rw [Nat.mod_pow_succ, Nat.add_mul_div_left _ _ hpos,
        Nat.div_eq_of_lt (Nat.mod_lt _ hpos)]
      simp
    · rw [ih v, ih (v % 256 ^ (w + 1)),
        Nat.mod_mod_of_dvd _ (Dvd.intro 256 (by rw [pow_succ]))]

theorem beBytes_beValue (bs : List Nat) (h : ValidBytes bs) :
    beBytes bs.length (beValue bs) = bs := by
  induction bs with
  | nil => rfl
  | cons a bs ih =>
    have ha : a < 256 := h a (List.mem_cons_self _ _)
    have hv := fun y hy => h y (List.mem_cons_of_mem _ hy)
    have hb := beValue_lt bs hv
    simp only [List.length_cons, beBytes, beValue_cons]
    congr 1
    · have hpos : 0 < 256 ^ bs.length := Nat.pow_pos (by norm_num)
      rw [Nat.add_comm, Nat.add_mul_div_right _ _ hpos, Nat.div_eq_of_lt hb]
      simpa using Nat.mod_eq_of_lt ha
    · rw [beBytes_mod, Nat.add_comm, Nat.add_mul_mod_self_right, Nat.mod_eq_of_lt hb]
      exact ih hv

/-! ## Lemmas: XOR -/

theorem XOR_length (a b : List Nat) (h : a.length = b.length) : (XOR a b).length = b.length := by
  simp [XOR, h]

theorem XOR_right_injective (a b c : List Nat) (hb : a.length = b.length)
    (hc : a.length = c.length) (h : XOR a b = XOR a c) : b = c := by
  induction a generalizing b c with
  | nil =>
    cases b <;> cases c <;> simp_all
  | cons x a ih =>
    cases b with
    | nil => simp at hb
    | cons y b =>
      cases c with
      | nil => simp at hc
      | cons z c =>
        simp only [XOR, List.zipWith_cons_cons, List.cons.injEq] at h
        simp only [List.length_cons, Nat.add_right_cancel_iff] at hb hc
        have h1 : y = z := Nat.xor_left_injective h.1
        rw [h1, ih b c hb hc h.2]

theorem createIV_length (impl : EVPImpl) (iv : List Nat) (s : Nat)
    (hlen : iv.length = impl.kIVLength) (h8 : 8 ≤ impl.kIVLength) :
    (createIV impl iv s).length = impl.kIVLength := by
  simp only [createIV]
  rw [XOR_length] <;> simp [beBytes_length] <;> omega

theorem XOR_getElem? (a b : List Nat) (i x y : Nat) (ha : a[i]? = some x) (hb : b[i]? = some y) :
    (XOR a b)[i]? = some (y ^^^ x) := by
  induction a generalizing b i with
  | nil => simp at ha
  | cons x0 a ih =>
    cases b with
    | nil => simp at hb
    | cons y0 b =>
      cases i with
      | zero =>
        simp only [List.getElem?_cons_zero, Option.some.injEq] at ha hb
        simp [XOR, ha, hb]
      | succ i =>
        simp only [List.getElem?_cons_succ] at ha hb
        simpa [XOR] using ih b i ha hb

/-! ## Lemmas: cursors, buffers and vectors -/

theorem Cursor.readBE_beBytes (w v : Nat) (rest : List Nat) (h : v < 256 ^ w) :
    Cursor.readBE w (beBytes w v ++ rest) = .ok (v, rest) := by
  have hl := beBytes_length w v
  unfold Cursor.readBE
  rw [if_neg (by simp [hl])]
  rw [List.take_left' hl, List.drop_left' hl, beValue_beBytes w v h]

theorem Cursor.clone_append (buf rest : List Nat) :
    Cursor.clone buf.length (buf ++ rest) = .ok (buf, rest) := by
  unfold Cursor.clone
  rw [if_neg (by simp)]
  simp

namespace detail

theorem read_write (w v : Nat) (rest : List Nat) (h : v < 256 ^ w) :
    detail.read w (detail.write w v ++ rest) = .ok ⟨v, w, rest⟩ := by
  simp only [detail.read, detail.write, Cursor.readBE_beBytes w v rest h]

theorem write_length (w v : Nat) : (detail.write w v).length = w := by
  simp [detail.write, beBytes_length]

theorem writeBuf_ok (w : Nat) (buf : List Nat) (h : buf.length < 256 ^ w) :
    writeBuf w buf = .ok (beBytes w buf.length ++ buf) := by
  simp [writeBuf, writeLength, h]

theorem readBuf_writeBuf (w : Nat) (buf rest : List Nat) (h : buf.length < 256 ^ w) :
    readBuf w (beBytes w buf.length ++ buf ++ rest) = .ok ⟨buf, w + buf.length, rest⟩ := by
  unfold readBuf
  rw [List.append_assoc, Cursor.readBE_beBytes w buf.length _ h]
  simp only [Cursor.clone_append]

theorem writeAll_length {α : Type} (getSize : α → Nat) (wr : α → Except Err (List Nat))
    (rd : List Nat → Except Err (ReadResult α)) (data : List α)
    (h : ∀ x ∈ data, ElemRoundTrip getSize wr rd x) :
    ∃ body, writeAll wr data = .ok body ∧ body.length = (data.map getSize).sum ∧
      data.length ≤ body.length := by
  induction data with
  | nil => exact ⟨[], rfl, rfl, Nat.le_refl _⟩
  | cons x xs ih =>
    obtain ⟨b, hb, hbl, hbn⟩ := ih (fun y hy => h y (List.mem_cons_of_mem _ hy))
    obtain ⟨hpos, a, ha, hal, _⟩ := h x (List.mem_cons_self _ _)
    refine ⟨a ++ b, ?_, ?_, ?_⟩
    · simp only [writeAll, ha, hb]
    · simp [hal, hbl]
    · simp only [List.length_cons, List.length_append]
      omega

theorem readVectorLoop_writeAll {α : Type} (getSize : α → Nat)
    (wr : α → Except Err (List Nat)) (rd : List Nat → Except Err (ReadResult α))
    (data : List α) (h : ∀ x ∈ data, ElemRoundTrip getSize wr rd x)
    (fuel len consumed : Nat) (out : List α) (body rest : List Nat)
    (hbody : writeAll wr data = .ok body) (hfuel : data.length < fuel)
    (hlen : len = consumed + (data.map getSize).sum) :
    readVectorLoop rd fuel len consumed out (body ++ rest) = .ok (out ++ data, rest) := by
  induction data generalizing fuel consumed out body with
  | nil =>
    cases fuel with
    | zero => simp at hfuel
    | succ f =>
      simp only [writeAll, Except.ok.injEq] at hbody
      subst hbody
      simp [readVectorLoop, hlen]
  | cons x xs ih =>
    cases fuel with
    | zero => simp at hfuel
    | succ f =>
      obtain ⟨hpos, a, ha, _, hrd⟩ := h x (List.mem_cons_self _ _)
      obtain ⟨b, hb, _, _⟩ :=
        writeAll_length getSize wr rd xs (fun y hy => h y (List.mem_cons_of_mem _ hy))
      simp only [writeAll, ha, hb, Except.ok.injEq] at hbody
      subst hbody
      have hne : consumed ≠ len := by
        simp only [List.map_cons, List.sum_cons] at hlen
        omega
      simp only [readVectorLoop, if_neg hne, List.append_assoc, hrd]
      rw [ih (fun y hy => h y (List.mem_cons_of_mem _ hy)) f (consumed + getSize x)
        (out ++ [x]) b hb (by simpa using hfuel)
        (by simp only [List.map_cons, List.sum_cons] at hlen; omega)]
      simp

/-- A vector of elements that round-trip, whose sizes add up to less than
`256 ^ w`, is written as the length field followed by the elements and read
back unchanged, leaving the cursor after it. -/
theorem readVector_writeVector {α : Type} (w : Nat) (getSize : α → Nat)
    (wr : α → Except Err (List Nat)) (rd : List Nat → Except Err (ReadResult α))
    (data : List α) (h : ∀ x ∈ data, ElemRoundTrip getSize wr rd x)
    (hsum : (data.map getSize).sum < 256 ^ w) :
    ∃ bytes, writeVector w getSize wr data = .ok bytes ∧
      bytes.length = w + (data.map getSize).sum ∧
      ∀ rest, readVector w rd (bytes ++ rest) = .ok (data, rest) := by
  obtain ⟨body, hbody, hbl, hbn⟩ := writeAll_length getSize wr rd data h
  refine ⟨beBytes w (data.map getSize).sum ++ body, ?_, ?_, ?_⟩
  · simp [writeVector, writeLength, hsum, hbody]
  · simp [beBytes_length, hbl]
  · intro rest
    unfold readVector
    rw [List.append_assoc, Cursor.readBE_beBytes w _ _ hsum]
    simp only [Cursor.totalLength]
    rw [if_neg (by simp [hbl]),
      readVectorLoop_writeAll getSize wr rd data h _ _ 0 [] body rest hbody
        (by simp only [List.length_append]; omega) (by simp)]
    simp

theorem KeyShareEntry_roundTrip (e : KeyShareEntry) (h : e.WellFormed) :
    ElemRoundTrip Sizer_KeyShareEntry.getSize Writer_KeyShareEntry.write
      Reader_KeyShareEntry.read e := by
  obtain ⟨hg, hk⟩ := h
  refine ⟨by simp [Sizer_KeyShareEntry.getSize, sizeofNamedGroup],
    detail.write sizeofNamedGroup e.group ++ (beBytes 2 e.key_exchange.length ++ e.key_exchange),
    ?_, ?_, ?_⟩
  · simp only [Writer_KeyShareEntry.write, writeBuf_ok 2 e.key_exchange (by simpa using hk)]
  · simp [Sizer_KeyShareEntry.getSize, getBufSize, write_length, beBytes_length]
  · intro rest
    simp only [Reader_KeyShareEntry.read, List.append_assoc]
    rw [read_write sizeofNamedGroup e.group _ (by simpa [sizeofNamedGroup] using hg)]
    simp only
    rw [← List.append_assoc, readBuf_writeBuf 2 e.key_exchange rest (by simpa using hk)]
    simp [Sizer_KeyShareEntry.getSize, getBufSize]

theorem PskIdentity_roundTrip (i : PskIdentity) (h : i.WellFormed) :
    ElemRoundTrip Sizer_PskIdentity.getSize Writer_PskIdentity.write
      Reader_PskIdentity.read i := by
  obtain ⟨hi, ha⟩ := h
  refine ⟨by simp [Sizer_PskIdentity.getSize],
    (beBytes 2 i.psk_identity.length ++ i.psk_identity) ++ detail.write 4 i.obfuscated_ticket_age,
    ?_, ?_, ?_⟩
  · simp only [Writer_PskIdentity.write, writeBuf_ok 2 i.psk_identity (by simpa using hi)]
  · simp only [Sizer_PskIdentity.getSize, getBufSize, write_length, beBytes_length,
      List.length_append]
  · intro rest
    simp only [Reader_PskIdentity.read, List.append_assoc]
    rw [← List.append_assoc, readBuf_writeBuf 2 i.psk_identity _ (by simpa using hi)]
    simp only
    rw [read_write 4 i.obfuscated_ticket_age _ (by simpa using ha)]
    simp [Sizer_PskIdentity.getSize, getBufSize]

theorem PskBinder_roundTrip (b : PskBinder) (h : b.WellFormed) :
    ElemRoundTrip Sizer_PskBinder.getSize Writer_PskBinder.write
      Reader_PskBinder.read b := by
  have hb : b.binder.length < 256 ^ 1 := by simpa [PskBinder.WellFormed] using h
  refine ⟨by simp [Sizer_PskBinder.getSize, getBufSize], beBytes 1 b.binder.length ++ b.binder,
    ?_, ?_, ?_⟩
  · simp only [Writer_PskBinder.write, writeBuf_ok 1 b.binder hb]
  · simp [Sizer_PskBinder.getSize, getBufSize, beBytes_length]
  · intro rest
    simp only [Reader_PskBinder.read]
    rw [readBuf_writeBuf 1 b.binder rest hb]
    simp [Sizer_PskBinder.getSize, getBufSize]

theorem ServerName_roundTrip (n : ServerName) (h : n.WellFormed) :
    ElemRoundTrip Sizer_ServerName.getSize Writer_ServerName.write
      Reader_ServerName.read n := by
  obtain ⟨ht, hh⟩ := h
  refine ⟨by simp [Sizer_ServerName.getSize, sizeofServerNameType],
    detail.write sizeofServerNameType n.name_type ++ (beBytes 2 n.hostname.length ++ n.hostname),
    ?_, ?_, ?_⟩
  · simp only [Writer_ServerName.write, writeBuf_ok 2 n.hostname (by simpa using hh)]
  · simp [Sizer_ServerName.getSize, getBufSize, write_length, beBytes_length]
  · intro rest
    simp only [Reader_ServerName.read, List.append_assoc]
    rw [read_write sizeofServerNameType n.name_type _ (by simpa [sizeofServerNameType] using ht)]
    simp only
    rw [← List.append_assoc, readBuf_writeBuf 2 n.hostname rest (by simpa using hh)]
    simp [Sizer_ServerName.getSize, getBufSize]

end detail

/-! ## Lemmas: writing back what was read -/

theorem ValidBytes.drop (b : List Nat) (n : Nat) (h : ValidBytes b) : ValidBytes (b.drop n) :=
  fun y hy => h y (List.mem_of_mem_drop hy)

theorem ValidBytes.take (b : List Nat) (n : Nat) (h : ValidBytes b) : ValidBytes (b.take n) :=
  fun y hy => h y (List.mem_of_mem_take hy)

theorem take_append_take_drop (b : List Nat) (m n : Nat) :
    b.take m ++ (b.drop m).take n = b.take (m + n) := by
  rw [List.take_add]

theorem drop_drop_add (b : List Nat) (m n : Nat) : (b.drop m).drop n = b.drop (m + n) := by
  rw [List.drop_drop, Nat.add_comm]

theorem Cursor.readBE_inv (w : Nat) (b : List Nat) (v : Nat) (rest : List Nat)
    (hb : ValidBytes b) (h : Cursor.readBE w b = .ok (v, rest)) :
    w ≤ b.length ∧ rest = b.drop w ∧ beBytes w v = b.take w ∧ v < 256 ^ w := by
  unfold Cursor.readBE at h
  by_cases hc : b.length < w
  · simp [hc] at h
  · simp only [hc, if_false, Except.ok.injEq, Prod.mk.injEq] at h
    obtain ⟨hv, hr⟩ := h
    have hlen : (b.take w).length = w := by
      simp only [List.length_take]
      omega
    have hvalid : ValidBytes (b.take w) := ValidBytes.take b w hb
    have h1 := beBytes_beValue (b.take w) hvalid
    have h2 := beValue_lt (b.take w) hvalid
    rw [hlen, hv] at h1 h2
    exact ⟨by omega, hr.symm, h1, h2⟩

namespace detail

theorem read_inv (w : Nat) (b : List Nat) (r : ReadResult Nat) (hb : ValidBytes b)
    (h : detail.read w b = .ok r) :
    detail.write w r.out = b.take r.len ∧ r.cursor = b.drop r.len ∧ r.len ≤ b.length ∧
      r.len = w := by
  unfold detail.read at h
  cases hre : Cursor.readBE w b with
  | error e => simp [hre] at h
  | ok p =>
    obtain ⟨v, rest⟩ := p
    simp only [hre, Except.ok.injEq] at h
    obtain ⟨hle, hrest, hbytes, -⟩ := Cursor.readBE_inv w b v rest hb hre
    subst h
    exact ⟨hbytes, hrest, hle, rfl⟩

theorem readBuf_inv (w : Nat) (b : List Nat) (r : ReadResult (List Nat)) (hb : ValidBytes b)
    (h : readBuf w b = .ok r) :
    writeBuf w r.out = .ok (b.take r.len) ∧ r.cursor = b.drop r.len ∧ r.len ≤ b.length := by
  unfold readBuf at h
  cases hre : Cursor.readBE w b with
  | error e => simp [hre] at h
  | ok p =>
    obtain ⟨len, c1⟩ := p
    obtain ⟨hle, hrest, hbytes, hlt⟩ := Cursor.readBE_inv w b len c1 hb hre
    simp only [hre] at h
    by_cases hc : c1.length < len
    · simp [Cursor.clone, hc] at h
    · simp only [Cursor.clone, hc, if_false, Except.ok.injEq] at h
      subst h
      have hc1 : c1.length = b.length - w := by rw [hrest]; simp
      have hlen : (c1.take len).length = len := by
        simp only [List.length_take]
        omega
      refine ⟨?_, ?_, by simp only; omega⟩
      · rw [writeBuf_ok w _ (by rw [hlen]; exact hlt), hlen, hbytes, hrest,
          take_append_take_drop]
      · simp only
        rw [hrest, drop_drop_add]

theorem ProtocolName_roundTrip (n : ProtocolName) (h : n.WellFormed) :
    ElemRoundTrip Sizer_ProtocolName.getSize Writer_ProtocolName.write
      Reader_ProtocolName.read n := by
  have hb : n.name.length < 256 ^ 1 := by simpa [ProtocolName.WellFormed] using h
  refine ⟨by simp [Sizer_ProtocolName.getSize, getBufSize], beBytes 1 n.name.length ++ n.name,
    ?_, ?_, ?_⟩
  · simp only [Writer_ProtocolName.write, writeBuf_ok 1 n.name hb]
  · simp [Sizer_ProtocolName.getSize, getBufSize, beBytes_length]
  · intro rest
    simp only [Reader_ProtocolName.read]
    rw [readBuf_writeBuf 1 n.name rest hb]
    simp [Sizer_ProtocolName.getSize, getBufSize]

theorem DistinguishedName_roundTrip (dn : DistinguishedName) (h : dn.WellFormed) :
    ElemRoundTrip Sizer_DistinguishedName.getSize Writer_DistinguishedName.write
      Reader_DistinguishedName.read dn := by
  have hb : dn.encoded_name.length < 256 ^ 2 := by
    simpa [DistinguishedName.WellFormed] using h
  refine ⟨by simp [Sizer_DistinguishedName.getSize, getBufSize],
    beBytes 2 dn.encoded_name.length ++ dn.encoded_name, ?_, ?_, ?_⟩
  · simp only [Writer_DistinguishedName.write, writeBuf_ok 2 dn.encoded_name hb]
  · simp [Sizer_DistinguishedName.getSize, getBufSize, beBytes_length]
  · intro rest
    simp only [Reader_DistinguishedName.read]
    rw [readBuf_writeBuf 2 dn.encoded_name rest hb]
    simp [Sizer_DistinguishedName.getSize, getBufSize]

/-- An integer field followed by a length-prefixed buffer, read and written back:
the shape of `KeyShareEntry` and `ServerName`. -/
theorem read_readBuf_inv (w1 w2 : Nat) (b : List Nat) (g : ReadResult Nat)
    (k : ReadResult (List Nat)) (hb : ValidBytes b) (hg : detail.read w1 b = .ok g)
    (hk : readBuf w2 g.cursor = .ok k) :
    ∃ kb, writeBuf w2 k.out = .ok kb ∧
      detail.write w1 g.out ++ kb = b.take (g.len + k.len) ∧
      k.cursor = b.drop (g.len + k.len) ∧ g.len + k.len ≤ b.length := by
  obtain ⟨hw, hc, hle, -⟩ := read_inv w1 b g hb hg
  have hb1 : ValidBytes g.cursor := by rw [hc]; exact ValidBytes.drop b _ hb
  obtain ⟨hw2, hc2, hle2⟩ := readBuf_inv w2 g.cursor k hb1 hk
  refine ⟨_, hw2, ?_, ?_, ?_⟩
  · rw [hw, hc, take_append_take_drop]
  · rw [hc2, hc, drop_drop_add]
  · have : g.cursor.length = b.length - g.len := by rw [hc]; simp
    omega

theorem KeyShareEntry_read_inv (b : List Nat) (r : ReadResult KeyShareEntry)
    (hb : ValidBytes b) (h : Reader_KeyShareEntry.read b = .ok r) :
    Writer_KeyShareEntry.write r.out = .ok (b.take r.len) ∧ r.cursor = b.drop r.len ∧
      r.len ≤ b.length := by
  unfold Reader_KeyShareEntry.read at h
  cases hg : detail.read sizeofNamedGroup b with
  | error e => simp [hg] at h
  | ok g =>
    simp only [hg] at h
    cases hk : readBuf 2 g.cursor with
    | error e => simp [hk] at h
    | ok k =>
      simp only [hk, Except.ok.injEq] at h
      subst h
      obtain ⟨kb, hkb, hbytes, hrest, hle⟩ := read_readBuf_inv _ 2 b g k hb hg hk
      exact ⟨by simp only [Writer_KeyShareEntry.write, hkb, hbytes], hrest, hle⟩

theorem ServerName_read_inv (b : List Nat) (r : ReadResult ServerName)
    (hb : ValidBytes b) (h : Reader_ServerName.read b = .ok r) :
    Writer_ServerName.write r.out = .ok (b.take r.len) ∧ r.cursor = b.drop r.len ∧
      r.len ≤ b.length := by
  unfold Reader_ServerName.read at h
  cases hg : detail.read sizeofServerNameType b with
  | error e => simp [hg] at h
  | ok g =>
    simp only [hg] at h
    cases hk : readBuf 2 g.cursor with
    | error e => simp [hk] at h
    | ok k =>
      simp only [hk, Except.ok.injEq] at h
      subst h
      obtain ⟨kb, hkb, hbytes, hrest, hle⟩ := read_readBuf_inv _ 2 b g k hb hg hk
      exact ⟨by simp only [Writer_ServerName.write, hkb, hbytes], hrest, hle⟩

theorem PskIdentity_read_inv (b : List Nat) (r : ReadResult PskIdentity)
    (hb : ValidBytes b) (h : Reader_PskIdentity.read b = .ok r) :
    Writer_PskIdentity.write r.out = .ok (b.take r.len) ∧ r.cursor = b.drop r.len ∧
      r.len ≤ b.length := by
  unfold Reader_PskIdentity.read at h
  cases hi : readBuf 2 b with
  | error e => simp [hi] at h
  | ok i =>
    simp only [hi] at h
    cases ha : detail.read 4 i.cursor with
    | error e => simp [ha] at h
    | ok a =>
      simp only [ha, Except.ok.injEq] at h
      subst h
      obtain ⟨hw, hc, hle⟩ := readBuf_inv 2 b i hb hi
      have hb1 : ValidBytes i.cursor := by rw [hc]; exact ValidBytes.drop b _ hb
      obtain ⟨hw2, hc2, hle2, -⟩ := read_inv 4 i.cursor a hb1 ha
      have hlen : i.cursor.length = b.length - i.len := by rw [hc]; simp
      refine ⟨?_, ?_, by simp only; omega⟩
      · simp only [Writer_PskIdentity.write, hw, hw2]
        rw [hc, take_append_take_drop]
      · simp only
        rw [hc2, hc, drop_drop_add]

theorem PskBinder_read_inv (b : List Nat) (r : ReadResult PskBinder)
    (hb : ValidBytes b) (h : Reader_PskBinder.read b = .ok r) :
    Writer_PskBinder.write r.out = .ok (b.take r.len) ∧ r.cursor = b.drop r.len ∧
      r.len ≤ b.length := by
  unfold Reader_PskBinder.read at h
  cases hk : readBuf 1 b with
  | error e => simp [hk] at h
  | ok k =>
    simp only [hk, Except.ok.injEq] at h
    subst h
    exact readBuf_inv 1 b k hb hk

theorem ProtocolName_read_inv (b : List Nat) (r : ReadResult ProtocolName)
    (hb : ValidBytes b) (h : Reader_ProtocolName.read b = .ok r) :
    Writer_ProtocolName.write r.out = .ok (b.take r.len) ∧ r.cursor = b.drop r.len ∧
      r.len ≤ b.length := by
  unfold Reader_ProtocolName.read at h
  cases hk : readBuf 1 b with
  | error e => simp [hk] at h
  | ok k =>
    simp only [hk, Except.ok.injEq] at h
    subst h
    exact readBuf_inv 1 b k hb hk

theorem DistinguishedName_read_inv (b : List Nat) (r : ReadResult DistinguishedName)
    (hb : ValidBytes b) (h : Reader_DistinguishedName.read b = .ok r) :
    Writer_DistinguishedName.write r.out = .ok (b.take r.len) ∧ r.cursor = b.drop r.len ∧
      r.len ≤ b.length := by
  unfold Reader_DistinguishedName.read at h
  cases hk : readBuf 2 b with
  | error e => simp [hk] at h
  | ok k =>
    simp only [hk, Except.ok.injEq] at h
    subst h
    exact readBuf_inv 2 b k hb hk

end detail

/-! ## Lemmas: findExtension -/

theorem findExtension_le (extensions : List Extension) (type : ExtensionType) :
    findExtension extensions type ≤ extensions.length := by
  induction extensions with
  | nil => simp [findExtension]
  | cons e rest ih =>
    simp only [findExtension, List.length_cons]
    split <;> omega

theorem findExtension_eq_length_iff (extensions : List Extension) (type : ExtensionType) :
    findExtension extensions type = extensions.length ↔
      ∀ e ∈ extensions, e.extension_type ≠ type := by
  induction extensions with
  | nil => simp [findExtension]
  | cons e rest ih =>
    simp only [findExtension, List.length_cons, List.mem_cons, forall_eq_or_imp]
    by_cases h : e.extension_type = type
    · simp [h]
    · simp [h, ih]

theorem findExtension_getElem? (extensions : List Extension) (type : ExtensionType)
    (e : Extension) (h : extensions[findExtension extensions type]? = some e) :
    e.extension_type = type := by
  induction extensions with
  | nil => simp at h
  | cons x rest ih =>
    simp only [findExtension] at h
    by_cases hx : x.extension_type = type
    · simp only [hx, if_true, List.getElem?_cons_zero, Option.some.injEq] at h
      rw [← h]; exact hx
    · simp only [hx, if_false, List.getElem?_cons_succ] at h
      exact ih h

theorem findExtension_before (extensions : List Extension) (type : ExtensionType)
    (j : Nat) (x : Extension) (hj : j < findExtension extensions type)
    (hx : extensions[j]? = some x) : x.extension_type ≠ type := by
  induction extensions generalizing j with
  | nil => simp at hx
  | cons y rest ih =>
    simp only [findExtension] at hj
    by_cases hy : y.extension_type = type
    · simp [hy] at hj
    · simp only [hy, if_false] at hj
      cases j with
      | zero =>
        simp only [List.getElem?_cons_zero, Option.some.injEq] at hx
        rw [← hx]; exact hy
      | succ j =>
        simp only [List.getElem?_cons_succ] at hx
        exact ih j (by omega) hx

theorem findExtension_append_cons (pre post : List Extension) (e : Extension)
    (type : ExtensionType) (hpre : ∀ x ∈ pre, x.extension_type ≠ type)
    (he : e.extension_type = type) :
    findExtension (pre ++ e :: post) type = pre.length := by
  induction pre with
  | nil => simp [findExtension, he]
  | cons y rest ih =>
    have hy : y.extension_type ≠ type := hpre y (List.mem_cons_self _ _)
    have ih1 := ih (fun x hx => hpre x (List.mem_cons_of_mem _ hx))
    simp only [List.cons_append, findExtension, if_neg hy, List.length_cons]
    exact congrArg (· + 1) ih1

theorem extensionDataAt_append_cons (pre post : List Extension) (e : Extension) :
    extensionDataAt (pre ++ e :: post) pre.length = e.extension_data := by
  have h : (pre ++ e :: post)[pre.length]? = some e := by
    rw [List.getElem?_append_right (Nat.le_refl _)]
    simp
  simp only [extensionDataAt, h]

/-! ## Lemmas: getBinderLength -/

theorem getBinderLength_of_last (pre : List Extension) (back : Extension) :
    getBinderLength ⟨pre ++ [back]⟩ =
      if back.extension_type ≠ ExtensionType.pre_shared_key then
        .error (.fizzException "psk not at end of client hello")
      else
        match detail.read 2 back.extension_data with
        | .error e => .error e
        | .ok identitiesLen =>
          match Cursor.skip identitiesLen.out identitiesLen.cursor with
          | .error e => .error e
          | .ok cursor =>
            match detail.read 2 cursor with
            | .error e => .error e
            | .ok binderLen =>
              if Cursor.totalLength binderLen.cursor ≠ binderLen.out then
                .error (.fizzException "malformed binder length")
              else .ok (2 + binderLen.out) := by
  simp [getBinderLength]

theorem detail.read_error (w : Nat) (cursor : List Nat) (e : Err)
    (h : detail.read w cursor = .error e) : e = Err.outOfRange := by
  by_cases hc : cursor.length < w
  · simp only [detail.read, Cursor.readBE, if_pos hc, Except.error.injEq] at h
    exact h.symm
  · simp [detail.read, Cursor.readBE, if_neg hc] at h

theorem Cursor.skip_error (n : Nat) (cursor : List Nat) (e : Err)
    (h : Cursor.skip n cursor = .error e) : e = Err.outOfRange := by
  by_cases hc : cursor.length < n
  · simp only [Cursor.skip, if_pos hc, Except.error.injEq] at h
    exact h.symm
  · simp [Cursor.skip, if_neg hc] at h

/-- With `pre_shared_key` last, a failure of `getBinderLength` is either the
cursor running out of bytes or the error "malformed binder length". -/
theorem getBinderLength_error_of_psk_last (chlo : ClientHello) (back : Extension) (e : Err)
    (hl : chlo.extensions.getLast? = some back)
    (hpsk : back.extension_type = ExtensionType.pre_shared_key)
    (h : getBinderLength chlo = .error e) :
    e = Err.outOfRange ∨ e = Err.fizzException "malformed binder length" := by
  simp only [getBinderLength, hl, hpsk, ne_eq, not_true_eq_false, if_false] at h
  cases h1 : detail.read 2 back.extension_data with
  | error e1 =>
    simp only [h1, Except.error.injEq] at h
    exact Or.inl (h ▸ detail.read_error _ _ _ h1)
  | ok identitiesLen =>
    simp only [h1] at h
    cases h2 : Cursor.skip identitiesLen.out identitiesLen.cursor with
    | error e2 =>
      simp only [h2, Except.error.injEq] at h
      exact Or.inl (h ▸ Cursor.skip_error _ _ _ h2)
    | ok cursor =>
      simp only [h2] at h
      cases h3 : detail.read 2 cursor with
      | error e3 =>
        simp only [h3, Except.error.injEq] at h
        exact Or.inl (h ▸ detail.read_error _ _ _ h3)
      | ok binderLen =>
        simp only [h3] at h
        by_cases hb : Cursor.totalLength binderLen.cursor = binderLen.out
        · simp [hb] at h
        · simp only [hb, not_false_eq_true, if_true, Except.error.injEq] at h
          exact Or.inr h.symm

theorem Cursor.skip_append (a rest : List Nat) :
    Cursor.skip a.length (a ++ rest) = .ok rest := by
  unfold Cursor.skip
  rw [if_neg (by simp)]
  simp

/-- What `getBinderLength` does on a `pre_shared_key` extension at the end whose
data holds a complete identities block and a binder-list length field. -/
theorem getBinderLength_framed (pre : List Extension) (identities remaining : List Nat)
    (L : Nat) (hI : identities.length < 2 ^ 16) (hL : L < 2 ^ 16) :
    getBinderLength ⟨pre ++ [⟨ExtensionType.pre_shared_key,
        beBytes 2 identities.length ++ identities ++ beBytes 2 L ++ remaining⟩]⟩ =
      if remaining.length ≠ L then .error (.fizzException "malformed binder length")
      else .ok (2 + L) := by
  rw [getBinderLength_of_last]
  simp only [ne_eq, not_true_eq_false, if_false, List.append_assoc]
  have h1 := detail.read_write 2 identities.length (identities ++ (beBytes 2 L ++ remaining))
    (by simpa using hI)
  have h2 := detail.read_write 2 L remaining (by simpa using hL)
  simp only [detail.write] at h1 h2
  simp only [h1, Cursor.skip_append, h2, Cursor.totalLength]

/-! ## Claims about createIV -/

/-- C1: under one traffic IV of the profile's IV length (at least 8 bytes), two
different 64-bit sequence numbers give different nonces. -/
theorem createIV_ne_of_seqNum_ne (impl : EVPImpl) (iv : List Nat) (s1 s2 : Nat)
    (hlen : iv.length = impl.kIVLength) (h8 : 8 ≤ impl.kIVLength)
    (h1 : s1 < 2 ^ 64) (h2 : s2 < 2 ^ 64) (hne : s1 ≠ s2) :
    createIV impl iv s1 ≠ createIV impl iv s2 := by
  intro h
  simp only [createIV] at h
  have hl : ∀ s, iv.length = (List.replicate (impl.kIVLength - 8) 0 ++ beBytes 8 s).length := by
    intro s
    simp [beBytes_length]
    omega
  have h3 := XOR_right_injective iv _ _ (hl s1) (hl s2) h
  have h4 := List.append_cancel_left h3
  exact hne (beBytes_injective 8 s1 s2 (by simpa using h1) (by simpa using h2) h4)

theorem createIV_ne_of_seqNum_ne_witness :
    createIV ⟨16, 12, 16⟩ [1, 2, 3, 4, 5, 6, 7, 8, 9, 10, 11, 12] 1
      ≠ createIV ⟨16, 12, 16⟩ [1, 2, 3, 4, 5, 6, 7, 8, 9, 10, 11, 12] 2 :=
  createIV_ne_of_seqNum_ne ⟨16, 12, 16⟩ [1, 2, 3, 4, 5, 6, 7, 8, 9, 10, 11, 12] 1 2
    (by decide) (by decide) (by norm_num) (by norm_num) (by decide)

/-- C2: for a traffic IV of length `n = kIVLength ≥ 8`, `createIV s` has exactly
`n` bytes; its first `n - 8` bytes are those of the IV, and byte `i` of the last
eight is the IV byte XOR the byte of weight `256 ^ (n - 1 - i)` of `s`, that is
the IV XOR (`n - 8` zero bytes followed by the big-endian encoding of `s`). -/
theorem createIV_bytes (impl : EVPImpl) (iv : List Nat) (s : Nat)
    (hlen : iv.length = impl.kIVLength) (h8 : 8 ≤ impl.kIVLength) :
    (createIV impl iv s).length = impl.kIVLength ∧
    (∀ i, i < impl.kIVLength - 8 → (createIV impl iv s)[i]? = iv[i]?) ∧
    (∀ i, impl.kIVLength - 8 ≤ i → i < impl.kIVLength →
      (createIV impl iv s)[i]? =
        (iv[i]?).map (fun b => b ^^^ ((s / 256 ^ (impl.kIVLength - 1 - i)) % 256))) := by
  refine ⟨createIV_length impl iv s hlen h8, ?_, ?_⟩
  · intro i hi
    have hiv : iv[i]? = some (iv[i]?.getD 0) := by
      rw [List.getElem?_eq_getElem (by omega)]
      simp
    rw [hiv]
    simp only [createIV]
    have hp : (List.replicate (impl.kIVLength - 8) 0 ++ beBytes 8 s)[i]? = some 0 := by
      rw [List.getElem?_append_left (by simpa using hi)]
      simp [hi]
    rw [XOR_getElem? _ _ i _ _ hiv hp]
    simp
  · intro i hlo hhi
    have hiv : iv[i]? = some (iv[i]?.getD 0) := by
      rw [List.getElem?_eq_getElem (by omega)]
      simp
    rw [hiv]
    simp only [createIV, Option.map_some']
    have hp : (List.replicate (impl.kIVLength - 8) 0 ++ beBytes 8 s)[i]?
        = some ((s / 256 ^ (impl.kIVLength - 1 - i)) % 256) := by
      rw [List.getElem?_append_right (by simpa using hlo)]
      simp only [List.length_replicate]
      rw [beBytes_getElem? 8 s _ (by omega)]
      have hidx : 8 - 1 - (i - (impl.kIVLength - 8)) = impl.kIVLength - 1 - i := by omega
      rw [hidx]
    rw [XOR_getElem? _ _ i _ _ hiv hp]
    simp [Nat.xor_comm]

theorem createIV_bytes_witness :
    (createIV ⟨16, 12, 16⟩ [1, 2, 3, 4, 5, 6, 7, 8, 9, 10, 11, 12] 258).length = 12 ∧
    (∀ i, i < 12 - 8 →
      (createIV ⟨16, 12, 16⟩ [1, 2, 3, 4, 5, 6, 7, 8, 9, 10, 11, 12] 258)[i]?
        = [1, 2, 3, 4, 5, 6, 7, 8, 9, 10, 11, 12][i]?) ∧
    (∀ i, 12 - 8 ≤ i → i < 12 →
      (createIV ⟨16, 12, 16⟩ [1, 2, 3, 4, 5, 6, 7, 8, 9, 10, 11, 12] 258)[i]? =
        ([1, 2, 3, 4, 5, 6, 7, 8, 9, 10, 11, 12][i]?).map
          (fun b => b ^^^ ((258 / 256 ^ (12 - 1 - i)) % 256))) :=
  createIV_bytes ⟨16, 12, 16⟩ [1, 2, 3, 4, 5, 6, 7, 8, 9, 10, 11, 12] 258 (by decide) (by decide)

/-! ## Claims about getExtension and encodeExtension -/

/-- C3: a well-formed `ClientKeyShare`, with `preDraft23` true or false, is
encoded without error, and decoding the one-element list holding its
encoding returns the same value: same shares in the same order, same flag. -/
theorem getExtension_encodeExtension_ClientKeyShare (v : ClientKeyShare)
    (h : v.WellFormed) :
    ∃ ext, encodeExtension_ClientKeyShare v = .ok ext ∧
      getExtension_ClientKeyShare [ext] = .ok (some v) := by
  obtain ⟨bytes, hw, -, hr⟩ := detail.readVector_writeVector 2
    detail.Sizer_KeyShareEntry.getSize detail.Writer_KeyShareEntry.write
    detail.Reader_KeyShareEntry.read v.client_shares
    (fun e he => detail.KeyShareEntry_roundTrip e (h.1 e he)) (by simpa using h.2)
  have hr0 := hr []
  rw [List.append_nil] at hr0
  refine ⟨_, by simp only [encodeExtension_ClientKeyShare, hw]; rfl, ?_⟩
  obtain ⟨shares, flag⟩ := v
  cases flag <;>
    simp [getExtension_ClientKeyShare, findExtension, extensionDataAt, hr0]

theorem getExtension_encodeExtension_ClientKeyShare_witness :
    (∃ ext, encodeExtension_ClientKeyShare ⟨[⟨29, [1, 2, 3]⟩, ⟨23, []⟩], true⟩ = .ok ext ∧
      getExtension_ClientKeyShare [ext] = .ok (some ⟨[⟨29, [1, 2, 3]⟩, ⟨23, []⟩], true⟩)) ∧
    (∃ ext, encodeExtension_ClientKeyShare ⟨[⟨29, [1, 2, 3]⟩, ⟨23, []⟩], false⟩ = .ok ext ∧
      getExtension_ClientKeyShare [ext] = .ok (some ⟨[⟨29, [1, 2, 3]⟩, ⟨23, []⟩], false⟩)) :=
  ⟨getExtension_encodeExtension_ClientKeyShare ⟨[⟨29, [1, 2, 3]⟩, ⟨23, []⟩], true⟩
      ⟨by decide, by decide⟩,
    getExtension_encodeExtension_ClientKeyShare ⟨[⟨29, [1, 2, 3]⟩, ⟨23, []⟩], false⟩
      ⟨by decide, by decide⟩⟩

/-- C4, evaluated on the code: the server name list with one host name and
`useAlternateCodePoint == true` is encoded under the alternate tag, and
`getExtension<ServerNameList>` decodes the names from it but leaves the flag
at the default of its result, so a default of `false` returns a value that
differs from the one encoded; whatever the default is, some well-formed value
does not come back. -/
theorem getExtension_ServerNameList_loses_alternate_flag :
    encodeExtension_ServerNameList ⟨[⟨0, [97]⟩], true⟩
      = .ok ⟨ExtensionType.alternate_server_name, [0, 4, 0, 0, 1, 97]⟩ ∧
    getExtension_ServerNameList false [⟨ExtensionType.alternate_server_name, [0, 4, 0, 0, 1, 97]⟩]
      = .ok (some ⟨[⟨0, [97]⟩], false⟩) ∧
    getExtension_ServerNameList false [⟨ExtensionType.alternate_server_name, [0, 4, 0, 0, 1, 97]⟩]
      ≠ .ok (some ⟨[⟨0, [97]⟩], true⟩) ∧
    ∀ dflt : Bool, ∃ v : ServerNameList, v.WellFormed ∧
      ∃ ext, encodeExtension_ServerNameList v = .ok ext ∧
        getExtension_ServerNameList dflt [ext] ≠ .ok (some v) := by
  refine ⟨by decide, by decide, by decide, ?_⟩
  intro dflt
  refine ⟨⟨[], !dflt⟩, ⟨by simp, by simp⟩, ?_⟩
  cases dflt
  · exact ⟨⟨ExtensionType.alternate_server_name, [0, 0]⟩, by decide, by decide⟩
  · exact ⟨⟨ExtensionType.server_name, [0, 0]⟩, by decide, by decide⟩

/-- C5: a well-formed `ClientPresharedKey` is encoded without error, and
decoding the one-element list holding its encoding returns the same value:
identical identities (bytes and ticket age) and identical binders, in order. -/
theorem getExtension_encodeExtension_ClientPresharedKey (v : ClientPresharedKey)
    (h : v.WellFormed) :
    ∃ ext, encodeExtension_ClientPresharedKey v = .ok ext ∧
      getExtension_ClientPresharedKey [ext] = .ok (some v) := by
  obtain ⟨hi, hb, hisum, hbsum⟩ := h
  obtain ⟨ids, hwi, -, hri⟩ := detail.readVector_writeVector 2
    detail.Sizer_PskIdentity.getSize detail.Writer_PskIdentity.write
    detail.Reader_PskIdentity.read v.identities
    (fun i hmem => detail.PskIdentity_roundTrip i (hi i hmem)) (by simpa using hisum)
  obtain ⟨bs, hwb, -, hrb⟩ := detail.readVector_writeVector 2
    detail.Sizer_PskBinder.getSize detail.Writer_PskBinder.write
    detail.Reader_PskBinder.read v.binders
    (fun b hmem => detail.PskBinder_roundTrip b (hb b hmem)) (by simpa using hbsum)
  have hrb0 := hrb []
  rw [List.append_nil] at hrb0
  refine ⟨_, by simp only [encodeExtension_ClientPresharedKey, hwi, hwb]; rfl, ?_⟩
  simp [getExtension_ClientPresharedKey, findExtension, extensionDataAt, hri bs, hrb0]

theorem getExtension_encodeExtension_ClientPresharedKey_witness :
    ∃ ext, encodeExtension_ClientPresharedKey
        ⟨[⟨[7, 7], 5⟩, ⟨[], 4294967295⟩], [⟨[1, 2, 3]⟩, ⟨[]⟩]⟩ = .ok ext ∧
      getExtension_ClientPresharedKey [ext]
        = .ok (some ⟨[⟨[7, 7], 5⟩, ⟨[], 4294967295⟩], [⟨[1, 2, 3]⟩, ⟨[]⟩]⟩) :=
  getExtension_encodeExtension_ClientPresharedKey
    ⟨[⟨[7, 7], 5⟩, ⟨[], 4294967295⟩], [⟨[1, 2, 3]⟩, ⟨[]⟩]⟩
    ⟨by decide, by decide, by decide, by decide⟩

/-- C6: when no extension carries `key_share` and `e` is the first extension
carrying `key_share_old`, `getExtension<ClientKeyShare>` is the decoding of the
data of `e` with `preDraft23 == true` (a value whenever that data decodes);
when `e` is the first extension carrying `key_share`, whether `key_share_old`
occurs before it, after it or not at all, the result is the decoding of the
data of `e` with `preDraft23 == false`. -/
theorem getExtension_ClientKeyShare_fallback (pre post : List Extension) (e : Extension) :
    ((∀ x ∈ pre ++ e :: post, x.extension_type ≠ ExtensionType.key_share) →
      (∀ x ∈ pre, x.extension_type ≠ ExtensionType.key_share_old) →
      e.extension_type = ExtensionType.key_share_old →
      getExtension_ClientKeyShare (pre ++ e :: post) =
        (detail.readVector 2 detail.Reader_KeyShareEntry.read e.extension_data).map
          (fun r => some ⟨r.1, true⟩)) ∧
    ((∀ x ∈ pre, x.extension_type ≠ ExtensionType.key_share) →
      e.extension_type = ExtensionType.key_share →
      getExtension_ClientKeyShare (pre ++ e :: post) =
        (detail.readVector 2 detail.Reader_KeyShareEntry.read e.extension_data).map
          (fun r => some ⟨r.1, false⟩)) := by
  have hne : pre.length ≠ (pre ++ e :: post).length := by
    simp only [List.length_append, List.length_cons]
    omega
  constructor
  · intro hno hpre he
    have hend := (findExtension_eq_length_iff _ ExtensionType.key_share).mpr hno
    simp only [getExtension_ClientKeyShare, hend, if_true,
      findExtension_append_cons pre post e _ hpre he, if_neg hne, extensionDataAt_append_cons]
    cases detail.readVector 2 detail.Reader_KeyShareEntry.read e.extension_data with
    | error err => rfl
    | ok r => simp [Except.map]
  · intro hpre he
    simp only [getExtension_ClientKeyShare,
      findExtension_append_cons pre post e _ hpre he, if_neg hne, extensionDataAt_append_cons]
    cases detail.readVector 2 detail.Reader_KeyShareEntry.read e.extension_data with
    | error err => rfl
    | ok r => simp [Except.map]

/-- Three instances: only the legacy tag (twice, the first one wins); the
legacy tag before the current one; the current tag before the legacy one. -/
theorem getExtension_ClientKeyShare_fallback_witness :
    getExtension_ClientKeyShare
        [⟨ExtensionType.cookie, []⟩, ⟨ExtensionType.key_share_old, [0, 4, 0, 29, 0, 0]⟩,
          ⟨ExtensionType.key_share_old, [0, 0]⟩]
      = .ok (some ⟨[⟨29, []⟩], true⟩) ∧
    getExtension_ClientKeyShare
        [⟨ExtensionType.key_share_old, [0, 0]⟩, ⟨ExtensionType.key_share, [0, 4, 0, 23, 0, 0]⟩]
      = .ok (some ⟨[⟨23, []⟩], false⟩) ∧
    getExtension_ClientKeyShare
        [⟨ExtensionType.key_share, [0, 4, 0, 23, 0, 0]⟩, ⟨ExtensionType.key_share_old, [0, 0]⟩]
      = .ok (some ⟨[⟨23, []⟩], false⟩) :=
  ⟨((getExtension_ClientKeyShare_fallback [⟨ExtensionType.cookie, []⟩]
        [⟨ExtensionType.key_share_old, [0, 0]⟩]
        ⟨ExtensionType.key_share_old, [0, 4, 0, 29, 0, 0]⟩).1
      (by decide) (by decide) rfl).trans (by decide),
    ((getExtension_ClientKeyShare_fallback [⟨ExtensionType.key_share_old, [0, 0]⟩] []
        ⟨ExtensionType.key_share, [0, 4, 0, 23, 0, 0]⟩).2 (by decide) rfl).trans (by decide),
    ((getExtension_ClientKeyShare_fallback [] [⟨ExtensionType.key_share_old, [0, 0]⟩]
        ⟨ExtensionType.key_share, [0, 4, 0, 23, 0, 0]⟩).2 (by decide) rfl).trans (by decide)⟩

/-! ## Claims about findExtension and getBinderLength -/

/-- C7: `findExtension` returns a position inside the list or its end; it
returns the end exactly when no element carries the tag; an element at the
returned position carries the tag, and no element before it does. -/
theorem findExtension_first_match (extensions : List Extension) (type : ExtensionType) :
    findExtension extensions type ≤ extensions.length ∧
    (findExtension extensions type = extensions.length ↔
      ∀ e ∈ extensions, e.extension_type ≠ type) ∧
    (∀ e, extensions[findExtension extensions type]? = some e → e.extension_type = type) ∧
    (∀ j x, j < findExtension extensions type → extensions[j]? = some x →
      x.extension_type ≠ type) :=
  ⟨findExtension_le extensions type, findExtension_eq_length_iff extensions type,
    findExtension_getElem? extensions type, findExtension_before extensions type⟩

/-- C8: `getBinderLength` fails with the decode error "psk not at end of client
hello" exactly when the extension list is empty or its last extension is not
`pre_shared_key`; in particular it does when a `pre_shared_key` extension is
present and the last extension has another type. -/
theorem getBinderLength_psk_not_at_end (chlo : ClientHello) :
    (getBinderLength chlo = .error (.fizzException "psk not at end of client hello") ↔
      (chlo.extensions = [] ∨
        ∃ back, chlo.extensions.getLast? = some back ∧
          back.extension_type ≠ ExtensionType.pre_shared_key)) ∧
    ((∃ x ∈ chlo.extensions, x.extension_type = ExtensionType.pre_shared_key) →
      (∀ back, chlo.extensions.getLast? = some back →
        back.extension_type ≠ ExtensionType.pre_shared_key) →
      getBinderLength chlo = .error (.fizzException "psk not at end of client hello")) := by
  have hmsg : "malformed binder length" ≠ "psk not at end of client hello" := by decide
  constructor
  · constructor
    · intro h
      cases hl : chlo.extensions.getLast? with
      | none => exact Or.inl (List.getLast?_eq_none_iff.mp hl)
      | some back =>
        refine Or.inr ⟨back, rfl, ?_⟩
        intro hpsk
        rcases getBinderLength_error_of_psk_last chlo back _ hl hpsk h with h1 | h1
        · cases h1
        · simp only [Err.fizzException.injEq] at h1
          exact hmsg h1.symm
    · rintro (h | ⟨back, hb, hne⟩)
      · simp [getBinderLength, h]
      · simp [getBinderLength, hb, hne]
  · rintro - hlast
    cases hl : chlo.extensions.getLast? with
    | none => simp [getBinderLength, hl]
    | some back => simp [getBinderLength, hl, hlast back hl]

theorem getBinderLength_psk_not_at_end_witness :
    getBinderLength ⟨[⟨ExtensionType.pre_shared_key, [0, 0, 0, 0]⟩, ⟨ExtensionType.cookie, []⟩]⟩
      = .error (.fizzException "psk not at end of client hello") :=
  (getBinderLength_psk_not_at_end
      ⟨[⟨ExtensionType.pre_shared_key, [0, 0, 0, 0]⟩, ⟨ExtensionType.cookie, []⟩]⟩).2
    ⟨⟨ExtensionType.pre_shared_key, [0, 0, 0, 0]⟩, by simp, rfl⟩
    (by
      intro back hb
      simp only [List.getLast?_cons_cons, List.getLast?_singleton, Option.some.injEq] at hb
      rw [← hb]
      decide)

/-- C9: when the last extension is `pre_shared_key` and its data is a 2-byte
big-endian identities length, that many identity bytes, a 2-byte big-endian
binder-list length `L` and exactly `L` further bytes, `getBinderLength` returns
`L + 2`, which is the data length minus 2 minus the identities length. -/
theorem getBinderLength_returns (pre : List Extension) (identities binders : List Nat)
    (hI : identities.length < 2 ^ 16) (hL : binders.length < 2 ^ 16) :
    getBinderLength ⟨pre ++ [⟨ExtensionType.pre_shared_key,
        beBytes 2 identities.length ++ identities ++ beBytes 2 binders.length ++ binders⟩]⟩
      = .ok (binders.length + 2) ∧
    binders.length + 2 =
      (beBytes 2 identities.length ++ identities ++ beBytes 2 binders.length ++ binders).length
        - 2 - identities.length := by
  constructor
  · rw [getBinderLength_framed pre identities binders binders.length hI hL]
    simp [Nat.add_comm]
  · simp only [List.length_append, beBytes_length]
    omega

/-- The instance with a 4-byte identities block, a declared length of 32 and
32 binder bytes: the result is 34. -/
theorem getBinderLength_returns_witness :
    getBinderLength ⟨[⟨ExtensionType.pre_shared_key,
        [0, 4, 1, 2, 3, 4, 0, 32] ++ List.replicate 32 7⟩]⟩ = .ok 34 :=
  (getBinderLength_returns [] [1, 2, 3, 4] (List.replicate 32 7)
    (by simp) (by simp)).1

/-- C10: when the last extension is `pre_shared_key` and its data holds a
complete identities block and a 2-byte binder-list length `L`, but the number
of bytes after that length field differs from `L`, `getBinderLength` returns no
length: it fails with the decode error "malformed binder length". -/
theorem getBinderLength_malformed (pre : List Extension) (identities remaining : List Nat)
    (L : Nat) (hI : identities.length < 2 ^ 16) (hL : L < 2 ^ 16)
    (hne : remaining.length ≠ L) :
    getBinderLength ⟨pre ++ [⟨ExtensionType.pre_shared_key,
        beBytes 2 identities.length ++ identities ++ beBytes 2 L ++ remaining⟩]⟩
      = .error (.fizzException "malformed binder length") := by
  rw [getBinderLength_framed pre identities remaining L hI hL, if_pos hne]

theorem getBinderLength_malformed_witness :
    getBinderLength ⟨[⟨ExtensionType.pre_shared_key,
        [0, 4, 1, 2, 3, 4, 0, 32] ++ List.replicate 31 7⟩]⟩
      = .error (.fizzException "malformed binder length") ∧
    getBinderLength ⟨[⟨ExtensionType.pre_shared_key,
        [0, 4, 1, 2, 3, 4, 0, 32] ++ List.replicate 33 7⟩]⟩
      = .error (.fizzException "malformed binder length") :=
  ⟨getBinderLength_malformed [] [1, 2, 3, 4] (List.replicate 31 7) 32
      (by simp) (by norm_num) (by simp),
    getBinderLength_malformed [] [1, 2, 3, 4] (List.replicate 33 7) 32
      (by simp) (by norm_num) (by simp)⟩

/-! ## Lemmas: sizes -/

namespace detail

theorem writeBuf_length (w : Nat) (buf : List Nat) (h : buf.length < 256 ^ w) :
    ∃ bytes, writeBuf w buf = .ok bytes ∧ bytes.length = getBufSize w buf :=
  ⟨_, writeBuf_ok w buf h, by simp [getBufSize, beBytes_length]⟩

end detail

/-! ## Lemmas: absence of an extension -/

theorem getExtension_SignatureAlgorithms_eq_none_iff (extensions : List Extension) :
    getExtension_SignatureAlgorithms extensions = .ok none ↔
      ∀ e ∈ extensions, e.extension_type ≠ ExtensionType.signature_algorithms := by
  rw [← findExtension_eq_length_iff]
  by_cases h : findExtension extensions ExtensionType.signature_algorithms = extensions.length
  · simp [getExtension_SignatureAlgorithms, h]
  · simp only [getExtension_SignatureAlgorithms, h, if_false, iff_false]
    repeat' split
    all_goals simp

theorem getExtension_SupportedGroups_eq_none_iff (extensions : List Extension) :
    getExtension_SupportedGroups extensions = .ok none ↔
      ∀ e ∈ extensions, e.extension_type ≠ ExtensionType.supported_groups := by
  rw [← findExtension_eq_length_iff]
  by_cases h : findExtension extensions ExtensionType.supported_groups = extensions.length
  · simp [getExtension_SupportedGroups, h]
  · simp only [getExtension_SupportedGroups, h, if_false, iff_false]
    repeat' split
    all_goals simp

theorem getExtension_ClientPresharedKey_eq_none_iff (extensions : List Extension) :
    getExtension_ClientPresharedKey extensions = .ok none ↔
      ∀ e ∈ extensions, e.extension_type ≠ ExtensionType.pre_shared_key := by
  rw [← findExtension_eq_length_iff]
  by_cases h : findExtension extensions ExtensionType.pre_shared_key = extensions.length
  · simp [getExtension_ClientPresharedKey, h]
  · simp only [getExtension_ClientPresharedKey, h, if_false, iff_false]
    repeat' split
    all_goals simp

theorem getExtension_ServerPresharedKey_eq_none_iff (extensions : List Extension) :
    getExtension_ServerPresharedKey extensions = .ok none ↔
      ∀ e ∈ extensions, e.extension_type ≠ ExtensionType.pre_shared_key := by
  rw [← findExtension_eq_length_iff]
  by_cases h : findExtension extensions ExtensionType.pre_shared_key = extensions.length
  · simp [getExtension_ServerPresharedKey, h]
  · simp only [getExtension_ServerPresharedKey, h, if_false, iff_false]
    repeat' split
    all_goals simp

theorem getExtension_ClientEarlyData_eq_none_iff (extensions : List Extension) :
    getExtension_ClientEarlyData extensions = .ok none ↔
      ∀ e ∈ extensions, e.extension_type ≠ ExtensionType.early_data := by
  rw [← findExtension_eq_length_iff]
  by_cases h : findExtension extensions ExtensionType.early_data = extensions.length
  · simp [getExtension_ClientEarlyData, h]
  · simp [getExtension_ClientEarlyData, h]

theorem getExtension_ServerEarlyData_eq_none_iff (extensions : List Extension) :
    getExtension_ServerEarlyData extensions = .ok none ↔
      ∀ e ∈ extensions, e.extension_type ≠ ExtensionType.early_data := by
  rw [← findExtension_eq_length_iff]
  by_cases h : findExtension extensions ExtensionType.early_data = extensions.length
  · simp [getExtension_ServerEarlyData, h]
  · simp [getExtension_ServerEarlyData, h]

theorem getExtension_TicketEarlyData_eq_none_iff (extensions : List Extension) :
    getExtension_TicketEarlyData extensions = .ok none ↔
      ∀ e ∈ extensions, e.extension_type ≠ ExtensionType.early_data := by
  rw [← findExtension_eq_length_iff]
  by_cases h : findExtension extensions ExtensionType.early_data = extensions.length
  · simp [getExtension_TicketEarlyData, h]
  · simp only [getExtension_TicketEarlyData, h, if_false, iff_false]
    repeat' split
    all_goals simp

theorem getExtension_Cookie_eq_none_iff (extensions : List Extension) :
    getExtension_Cookie extensions = .ok none ↔
      ∀ e ∈ extensions, e.extension_type ≠ ExtensionType.cookie := by
  rw [← findExtension_eq_length_iff]
  by_cases h : findExtension extensions ExtensionType.cookie = extensions.length
  · simp [getExtension_Cookie, h]
  · simp only [getExtension_Cookie, h, if_false, iff_false]
    repeat' split
    all_goals simp

theorem getExtension_SupportedVersions_eq_none_iff (extensions : List Extension) :
    getExtension_SupportedVersions extensions = .ok none ↔
      ∀ e ∈ extensions, e.extension_type ≠ ExtensionType.supported_versions := by
  rw [← findExtension_eq_length_iff]
  by_cases h : findExtension extensions ExtensionType.supported_versions = extensions.length
  · simp [getExtension_SupportedVersions, h]
  · simp only [getExtension_SupportedVersions, h, if_false, iff_false]
    repeat' split
    all_goals simp

theorem getExtension_ServerSupportedVersions_eq_none_iff (extensions : List Extension) :
    getExtension_ServerSupportedVersions extensions = .ok none ↔
      ∀ e ∈ extensions, e.extension_type ≠ ExtensionType.supported_versions := by
  rw [← findExtension_eq_length_iff]
  by_cases h : findExtension extensions ExtensionType.supported_versions = extensions.length
  · simp [getExtension_ServerSupportedVersions, h]
  · simp only [getExtension_ServerSupportedVersions, h, if_false, iff_false]
    repeat' split
    all_goals simp

theorem getExtension_PskKeyExchangeModes_eq_none_iff (extensions : List Extension) :
    getExtension_PskKeyExchangeModes extensions = .ok none ↔
      ∀ e ∈ extensions, e.extension_type ≠ ExtensionType.psk_key_exchange_modes := by
  rw [← findExtension_eq_length_iff]
  by_cases h : findExtension extensions ExtensionType.psk_key_exchange_modes = extensions.length
  · simp [getExtension_PskKeyExchangeModes, h]
  · simp only [getExtension_PskKeyExchangeModes, h, if_false, iff_false]
    repeat' split
    all_goals simp

theorem getExtension_ProtocolNameList_eq_none_iff (extensions : List Extension) :
    getExtension_ProtocolNameList extensions = .ok none ↔
      ∀ e ∈ extensions, e.extension_type ≠ ExtensionType.application_layer_protocol_negotiation := by
  rw [← findExtension_eq_length_iff]
  by_cases h : findExtension extensions ExtensionType.application_layer_protocol_negotiation = extensions.length
  · simp [getExtension_ProtocolNameList, h]
  · simp only [getExtension_ProtocolNameList, h, if_false, iff_false]
    repeat' split
    all_goals simp

theorem getExtension_CertificateAuthorities_eq_none_iff (extensions : List Extension) :
    getExtension_CertificateAuthorities extensions = .ok none ↔
      ∀ e ∈ extensions, e.extension_type ≠ ExtensionType.certificate_authorities := by
  rw [← findExtension_eq_length_iff]
  by_cases h : findExtension extensions ExtensionType.certificate_authorities = extensions.length
  · simp [getExtension_CertificateAuthorities, h]
  · simp only [getExtension_CertificateAuthorities, h, if_false, iff_false]
    repeat' split
    all_goals simp

theorem getExtension_ClientKeyShare_eq_none_iff (extensions : List Extension) :
    getExtension_ClientKeyShare extensions = .ok none ↔
      (∀ e ∈ extensions, e.extension_type ≠ ExtensionType.key_share) ∧
      (∀ e ∈ extensions, e.extension_type ≠ ExtensionType.key_share_old) := by
  rw [← findExtension_eq_length_iff, ← findExtension_eq_length_iff]
  by_cases h1 : findExtension extensions ExtensionType.key_share = extensions.length
  · by_cases h2 : findExtension extensions ExtensionType.key_share_old = extensions.length
    · simp [getExtension_ClientKeyShare, h1, h2]
    · simp only [getExtension_ClientKeyShare, h1, h2, if_true, if_false, and_false, iff_false]
      repeat' split
      all_goals simp
  · simp only [getExtension_ClientKeyShare, h1, if_false, false_and, iff_false]
    repeat' split
    all_goals simp

theorem getExtension_ServerKeyShare_eq_none_iff (extensions : List Extension) :
    getExtension_ServerKeyShare extensions = .ok none ↔
      (∀ e ∈ extensions, e.extension_type ≠ ExtensionType.key_share) ∧
      (∀ e ∈ extensions, e.extension_type ≠ ExtensionType.key_share_old) := by
  rw [← findExtension_eq_length_iff, ← findExtension_eq_length_iff]
  by_cases h1 : findExtension extensions ExtensionType.key_share = extensions.length
  · by_cases h2 : findExtension extensions ExtensionType.key_share_old = extensions.length
    · simp [getExtension_ServerKeyShare, h1, h2]
    · simp only [getExtension_ServerKeyShare, h1, h2, if_true, if_false, and_false, iff_false]
      repeat' split
      all_goals simp
  · simp only [getExtension_ServerKeyShare, h1, if_false, false_and, iff_false]
    repeat' split
    all_goals simp

theorem getExtension_HelloRetryRequestKeyShare_eq_none_iff (extensions : List Extension) :
    getExtension_HelloRetryRequestKeyShare extensions = .ok none ↔
      (∀ e ∈ extensions, e.extension_type ≠ ExtensionType.key_share) ∧
      (∀ e ∈ extensions, e.extension_type ≠ ExtensionType.key_share_old) := by
  rw [← findExtension_eq_length_iff, ← findExtension_eq_length_iff]
  by_cases h1 : findExtension extensions ExtensionType.key_share = extensions.length
  · by_cases h2 : findExtension extensions ExtensionType.key_share_old = extensions.length
    · simp [getExtension_HelloRetryRequestKeyShare, h1, h2]
    · simp only [getExtension_HelloRetryRequestKeyShare, h1, h2, if_true, if_false, and_false, iff_false]
      repeat' split
      all_goals simp
  · simp only [getExtension_HelloRetryRequestKeyShare, h1, if_false, false_and, iff_false]
    repeat' split
    all_goals simp

theorem getExtension_ServerNameList_eq_none_iff (dflt : Bool) (extensions : List Extension) :
    getExtension_ServerNameList dflt extensions = .ok none ↔
      (∀ e ∈ extensions, e.extension_type ≠ ExtensionType.server_name) ∧
      (∀ e ∈ extensions, e.extension_type ≠ ExtensionType.alternate_server_name) := by
  rw [← findExtension_eq_length_iff, ← findExtension_eq_length_iff]
  by_cases h1 : findExtension extensions ExtensionType.server_name = extensions.length
  · by_cases h2 : findExtension extensions ExtensionType.alternate_server_name = extensions.length
    · simp [getExtension_ServerNameList, h1, h2]
    · simp only [getExtension_ServerNameList, h1, h2, if_true, if_false, and_false, iff_false]
      repeat' split
      all_goals simp
  · simp only [getExtension_ServerNameList, h1, if_false, false_and, iff_false]
    repeat' split
    all_goals simp

/-! ## Lemmas: truncated key share entries -/

theorem detail.KeyShareEntry_read_truncated_iff (cursor : List Nat) :
    detail.Reader_KeyShareEntry.read cursor = .error .outOfRange ↔
      KeyShareEntry.Truncated cursor := by
  unfold KeyShareEntry.Truncated detail.Reader_KeyShareEntry.read detail.read detail.readBuf
    Cursor.readBE Cursor.clone
  by_cases h2 : cursor.length < 2
  · simp only [sizeofNamedGroup, h2, if_true, true_iff]
    left; omega
  · by_cases h4 : cursor.length < 4
    · have h3 : cursor.length - 2 < 2 := by omega
      simp [sizeofNamedGroup, h2, h3, h4]
    · have h3 : ¬ cursor.length - 2 < 2 := by omega
      by_cases h6 : cursor.length - 4 < beValue ((cursor.drop 2).take 2)
      · simp [sizeofNamedGroup, h2, h3, h4, h6]
      · simp [sizeofNamedGroup, h2, h3, h4, h6]

theorem getExtension_ServerKeyShare_append_cons (pre post : List Extension) (e : Extension)
    (hpre : ∀ x ∈ pre, x.extension_type ≠ ExtensionType.key_share)
    (he : e.extension_type = ExtensionType.key_share) :
    getExtension_ServerKeyShare (pre ++ e :: post) =
      match detail.Reader_KeyShareEntry.read e.extension_data with
      | .error err => .error err
      | .ok r => .ok (some { server_share := r.out, preDraft23 := false }) := by
  have hne : pre.length ≠ (pre ++ e :: post).length := by
    simp only [List.length_append, List.length_cons]
    omega
  simp only [getExtension_ServerKeyShare, findExtension_append_cons pre post e _ hpre he,
    if_neg hne, extensionDataAt_append_cons]

/-! ## Lemmas: first match of a single-lookup type -/

theorem length_ne_append_cons (pre post : List Extension) (e : Extension) :
    pre.length ≠ (pre ++ e :: post).length := by
  simp only [List.length_append, List.length_cons]
  omega

theorem findExtension_singleton (e : Extension) (type : ExtensionType)
    (he : e.extension_type = type) : findExtension [e] type = 0 := by
  simp [findExtension, he]

theorem extensionDataAt_singleton (e : Extension) :
    extensionDataAt [e] 0 = e.extension_data := by
  simp [extensionDataAt]

theorem getExtension_SignatureAlgorithms_first (pre post : List Extension) (e : Extension)
    (hpre : ∀ x ∈ pre, x.extension_type ≠ ExtensionType.signature_algorithms)
    (he : e.extension_type = ExtensionType.signature_algorithms) :
    getExtension_SignatureAlgorithms (pre ++ e :: post) = getExtension_SignatureAlgorithms [e] := by
  simp only [getExtension_SignatureAlgorithms, findExtension_append_cons pre post e _ hpre he,
    if_neg (length_ne_append_cons pre post e), extensionDataAt_append_cons,
    findExtension_singleton e _ he, extensionDataAt_singleton, List.length_singleton,
    Nat.zero_ne_one, if_false]

theorem getExtension_SupportedGroups_first (pre post : List Extension) (e : Extension)
    (hpre : ∀ x ∈ pre, x.extension_type ≠ ExtensionType.supported_groups)
    (he : e.extension_type = ExtensionType.supported_groups) :
    getExtension_SupportedGroups (pre ++ e :: post) = getExtension_SupportedGroups [e] := by
  simp only [getExtension_SupportedGroups, findExtension_append_cons pre post e _ hpre he,
    if_neg (length_ne_append_cons pre post e), extensionDataAt_append_cons,
    findExtension_singleton e _ he, extensionDataAt_singleton, List.length_singleton,
    Nat.zero_ne_one, if_false]

theorem getExtension_ClientPresharedKey_first (pre post : List Extension) (e : Extension)
    (hpre : ∀ x ∈ pre, x.extension_type ≠ ExtensionType.pre_shared_key)
    (he : e.extension_type = ExtensionType.pre_shared_key) :
    getExtension_ClientPresharedKey (pre ++ e :: post) = getExtension_ClientPresharedKey [e] := by
  simp only [getExtension_ClientPresharedKey, findExtension_append_cons pre post e _ hpre he,
    if_neg (length_ne_append_cons pre post e), extensionDataAt_append_cons,
    findExtension_singleton e _ he, extensionDataAt_singleton, List.length_singleton,
    Nat.zero_ne_one, if_false]

theorem getExtension_ServerPresharedKey_first (pre post : List Extension) (e : Extension)
    (hpre : ∀ x ∈ pre, x.extension_type ≠ ExtensionType.pre_shared_key)
    (he : e.extension_type = ExtensionType.pre_shared_key) :
    getExtension_ServerPresharedKey (pre ++ e :: post) = getExtension_ServerPresharedKey [e] := by
  simp only [getExtension_ServerPresharedKey, findExtension_append_cons pre post e _ hpre he,
    if_neg (length_ne_append_cons pre post e), extensionDataAt_append_cons,
    findExtension_singleton e _ he, extensionDataAt_singleton, List.length_singleton,
    Nat.zero_ne_one, if_false]

theorem getExtension_ClientEarlyData_first (pre post : List Extension) (e : Extension)
    (hpre : ∀ x ∈ pre, x.extension_type ≠ ExtensionType.early_data)
    (he : e.extension_type = ExtensionType.early_data) :
    getExtension_ClientEarlyData (pre ++ e :: post) = getExtension_ClientEarlyData [e] := by
  simp only [getExtension_ClientEarlyData, findExtension_append_cons pre post e _ hpre he,
    if_neg (length_ne_append_cons pre post e), extensionDataAt_append_cons,
    findExtension_singleton e _ he, extensionDataAt_singleton, List.length_singleton,
    Nat.zero_ne_one, if_false]

theorem getExtension_ServerEarlyData_first (pre post : List Extension) (e : Extension)
    (hpre : ∀ x ∈ pre, x.extension_type ≠ ExtensionType.early_data)
    (he : e.extension_type = ExtensionType.early_data) :
    getExtension_ServerEarlyData (pre ++ e :: post) = getExtension_ServerEarlyData [e] := by
  simp only [getExtension_ServerEarlyData, findExtension_append_cons pre post e _ hpre he,
    if_neg (length_ne_append_cons pre post e), extensionDataAt_append_cons,
    findExtension_singleton e _ he, extensionDataAt_singleton, List.length_singleton,
    Nat.zero_ne_one, if_false]

theorem getExtension_TicketEarlyData_first (pre post : List Extension) (e : Extension)
    (hpre : ∀ x ∈ pre, x.extension_type ≠ ExtensionType.early_data)
    (he : e.extension_type = ExtensionType.early_data) :
    getExtension_TicketEarlyData (pre ++ e :: post) = getExtension_TicketEarlyData [e] := by
  simp only [getExtension_TicketEarlyData, findExtension_append_cons pre post e _ hpre he,
    if_neg (length_ne_append_cons pre post e), extensionDataAt_append_cons,
    findExtension_singleton e _ he, extensionDataAt_singleton, List.length_singleton,
    Nat.zero_ne_one, if_false]

theorem getExtension_Cookie_first (pre post : List Extension) (e : Extension)
    (hpre : ∀ x ∈ pre, x.extension_type ≠ ExtensionType.cookie)
    (he : e.extension_type = ExtensionType.cookie) :
    getExtension_Cookie (pre ++ e :: post) = getExtension_Cookie [e] := by
  simp only [getExtension_Cookie, findExtension_append_cons pre post e _ hpre he,
    if_neg (length_ne_append_cons pre post e), extensionDataAt_append_cons,
    findExtension_singleton e _ he, extensionDataAt_singleton, List.length_singleton,
    Nat.zero_ne_one, if_false]

theorem getExtension_SupportedVersions_first (pre post : List Extension) (e : Extension)
    (hpre : ∀ x ∈ pre, x.extension_type ≠ ExtensionType.supported_versions)
    (he : e.extension_type = ExtensionType.supported_versions) :
    getExtension_SupportedVersions (pre ++ e :: post) = getExtension_SupportedVersions [e] := by
  simp only [getExtension_SupportedVersions, findExtension_append_cons pre post e _ hpre he,
    if_neg (length_ne_append_cons pre post e), extensionDataAt_append_cons,
    findExtension_singleton e _ he, extensionDataAt_singleton, List.length_singleton,
    Nat.zero_ne_one, if_false]

theorem getExtension_ServerSupportedVersions_first (pre post : List Extension) (e : Extension)
    (hpre : ∀ x ∈ pre, x.extension_type ≠ ExtensionType.supported_versions)
    (he : e.extension_type = ExtensionType.supported_versions) :
    getExtension_ServerSupportedVersions (pre ++ e :: post) = getExtension_ServerSupportedVersions [e] := by
  simp only [getExtension_ServerSupportedVersions, findExtension_append_cons pre post e _ hpre he,
    if_neg (length_ne_append_cons pre post e), extensionDataAt_append_cons,
    findExtension_singleton e _ he, extensionDataAt_singleton, List.length_singleton,
    Nat.zero_ne_one, if_false]

theorem getExtension_PskKeyExchangeModes_first (pre post : List Extension) (e : Extension)
    (hpre : ∀ x ∈ pre, x.extension_type ≠ ExtensionType.psk_key_exchange_modes)
    (he : e.extension_type = ExtensionType.psk_key_exchange_modes) :
    getExtension_PskKeyExchangeModes (pre ++ e :: post) = getExtension_PskKeyExchangeModes [e] := by
  simp only [getExtension_PskKeyExchangeModes, findExtension_append_cons pre post e _ hpre he,
    if_neg (length_ne_append_cons pre post e), extensionDataAt_append_cons,
    findExtension_singleton e _ he, extensionDataAt_singleton, List.length_singleton,
    Nat.zero_ne_one, if_false]

theorem getExtension_ProtocolNameList_first (pre post : List Extension) (e : Extension)
    (hpre : ∀ x ∈ pre, x.extension_type ≠ ExtensionType.application_layer_protocol_negotiation)
    (he : e.extension_type = ExtensionType.application_layer_protocol_negotiation) :
    getExtension_ProtocolNameList (pre ++ e :: post) = getExtension_ProtocolNameList [e] := by
  simp only [getExtension_ProtocolNameList, findExtension_append_cons pre post e _ hpre he,
    if_neg (length_ne_append_cons pre post e), extensionDataAt_append_cons,
    findExtension_singleton e _ he, extensionDataAt_singleton, List.length_singleton,
    Nat.zero_ne_one, if_false]

theorem getExtension_CertificateAuthorities_first (pre post : List Extension) (e : Extension)
    (hpre : ∀ x ∈ pre, x.extension_type ≠ ExtensionType.certificate_authorities)
    (he : e.extension_type = ExtensionType.certificate_authorities) :
    getExtension_CertificateAuthorities (pre ++ e :: post) = getExtension_CertificateAuthorities [e] := by
  simp only [getExtension_CertificateAuthorities, findExtension_append_cons pre post e _ hpre he,
    if_neg (length_ne_append_cons pre post e), extensionDataAt_append_cons,
    findExtension_singleton e _ he, extensionDataAt_singleton, List.length_singleton,
    Nat.zero_ne_one, if_false]

/-! ## Lemmas: the shape of a written vector -/

theorem detail.writeVector_shape {α : Type} (w : Nat) (getSize : α → Nat)
    (wr : α → Except Err (List Nat)) (rd : List Nat → Except Err (ReadResult α))
    (data : List α) (h : ∀ x ∈ data, detail.ElemRoundTrip getSize wr rd x)
    (hsum : (data.map getSize).sum < 256 ^ w) :
    ∃ body, detail.writeVector w getSize wr data
        = .ok (beBytes w (data.map getSize).sum ++ body) ∧
      body.length = (data.map getSize).sum := by
  obtain ⟨body, hbody, hbl, -⟩ := detail.writeAll_length getSize wr rd data h
  exact ⟨body, by simp [detail.writeVector, detail.writeLength, hsum, hbody], hbl⟩

theorem detail.Sizer_PskBinder_getSize_eq :
    detail.Sizer_PskBinder.getSize = fun b => 1 + b.binder.length := by
  funext b
  rfl

/-! ## Lemmas: the decoding of the first match -/

theorem getExtension_SignatureAlgorithms_decodes (pre post : List Extension) (e : Extension)
    (hpre : ∀ x ∈ pre, x.extension_type ≠ ExtensionType.signature_algorithms)
    (he : e.extension_type = ExtensionType.signature_algorithms) :
    getExtension_SignatureAlgorithms (pre ++ e :: post) =
        (detail.readVector 2 (detail.read sizeofSignatureScheme) e.extension_data).map
          (fun r => some ⟨r.1⟩) := by
  simp only [getExtension_SignatureAlgorithms, findExtension_append_cons pre post e _ hpre he,
    if_neg (length_ne_append_cons pre post e), extensionDataAt_append_cons]
  split <;> simp_all [Except.map]

theorem getExtension_SupportedGroups_decodes (pre post : List Extension) (e : Extension)
    (hpre : ∀ x ∈ pre, x.extension_type ≠ ExtensionType.supported_groups)
    (he : e.extension_type = ExtensionType.supported_groups) :
    getExtension_SupportedGroups (pre ++ e :: post) =
        (detail.readVector 2 (detail.read sizeofNamedGroup) e.extension_data).map
          (fun r => some ⟨r.1⟩) := by
  simp only [getExtension_SupportedGroups, findExtension_append_cons pre post e _ hpre he,
    if_neg (length_ne_append_cons pre post e), extensionDataAt_append_cons]
  split <;> simp_all [Except.map]

theorem getExtension_ClientPresharedKey_decodes (pre post : List Extension) (e : Extension)
    (hpre : ∀ x ∈ pre, x.extension_type ≠ ExtensionType.pre_shared_key)
    (he : e.extension_type = ExtensionType.pre_shared_key) :
    getExtension_ClientPresharedKey (pre ++ e :: post) =
        (detail.readVector 2 detail.Reader_PskIdentity.read e.extension_data).bind
          (fun ids => (detail.readVector 2 detail.Reader_PskBinder.read ids.2).map
            (fun bs => some ⟨ids.1, bs.1⟩)) := by
  simp only [getExtension_ClientPresharedKey, findExtension_append_cons pre post e _ hpre he,
    if_neg (length_ne_append_cons pre post e), extensionDataAt_append_cons]
  cases detail.readVector 2 detail.Reader_PskIdentity.read e.extension_data with
  | error err => rfl
  | ok ids =>
    obtain ⟨i, cursor⟩ := ids
    simp only [Except.bind]
    cases detail.readVector 2 detail.Reader_PskBinder.read cursor with
    | error err => rfl
    | ok bs => simp [Except.map]

theorem getExtension_ServerPresharedKey_decodes (pre post : List Extension) (e : Extension)
    (hpre : ∀ x ∈ pre, x.extension_type ≠ ExtensionType.pre_shared_key)
    (he : e.extension_type = ExtensionType.pre_shared_key) :
    getExtension_ServerPresharedKey (pre ++ e :: post) =
        (detail.read 2 e.extension_data).map
          (fun r => some ⟨r.out⟩) := by
  simp only [getExtension_ServerPresharedKey, findExtension_append_cons pre post e _ hpre he,
    if_neg (length_ne_append_cons pre post e), extensionDataAt_append_cons]
  split <;> simp_all [Except.map]

theorem getExtension_ClientEarlyData_decodes (pre post : List Extension) (e : Extension)
    (hpre : ∀ x ∈ pre, x.extension_type ≠ ExtensionType.early_data)
    (he : e.extension_type = ExtensionType.early_data) :
    getExtension_ClientEarlyData (pre ++ e :: post) =
        .ok (some {}) := by
  simp only [getExtension_ClientEarlyData, findExtension_append_cons pre post e _ hpre he,
    if_neg (length_ne_append_cons pre post e), extensionDataAt_append_cons]

theorem getExtension_ServerEarlyData_decodes (pre post : List Extension) (e : Extension)
    (hpre : ∀ x ∈ pre, x.extension_type ≠ ExtensionType.early_data)
    (he : e.extension_type = ExtensionType.early_data) :
    getExtension_ServerEarlyData (pre ++ e :: post) =
        .ok (some {}) := by
  simp only [getExtension_ServerEarlyData, findExtension_append_cons pre post e _ hpre he,
    if_neg (length_ne_append_cons pre post e), extensionDataAt_append_cons]

theorem getExtension_TicketEarlyData_decodes (pre post : List Extension) (e : Extension)
    (hpre : ∀ x ∈ pre, x.extension_type ≠ ExtensionType.early_data)
    (he : e.extension_type = ExtensionType.early_data) :
    getExtension_TicketEarlyData (pre ++ e :: post) =
        (detail.read 4 e.extension_data).map
          (fun r => some ⟨r.out⟩) := by
  simp only [getExtension_TicketEarlyData, findExtension_append_cons pre post e _ hpre he,
    if_neg (length_ne_append_cons pre post e), extensionDataAt_append_cons]
  split <;> simp_all [Except.map]

theorem getExtension_Cookie_decodes (pre post : List Extension) (e : Extension)
    (hpre : ∀ x ∈ pre, x.extension_type ≠ ExtensionType.cookie)
    (he : e.extension_type = ExtensionType.cookie) :
    getExtension_Cookie (pre ++ e :: post) =
        (detail.readBuf 2 e.extension_data).map
          (fun r => some ⟨r.out⟩) := by
  simp only [getExtension_Cookie, findExtension_append_cons pre post e _ hpre he,
    if_neg (length_ne_append_cons pre post e), extensionDataAt_append_cons]
  split <;> simp_all [Except.map]

theorem getExtension_SupportedVersions_decodes (pre post : List Extension) (e : Extension)
    (hpre : ∀ x ∈ pre, x.extension_type ≠ ExtensionType.supported_versions)
    (he : e.extension_type = ExtensionType.supported_versions) :
    getExtension_SupportedVersions (pre ++ e :: post) =
        (detail.readVector 1 (detail.read sizeofProtocolVersion) e.extension_data).map
          (fun r => some ⟨r.1⟩) := by
  simp only [getExtension_SupportedVersions, findExtension_append_cons pre post e _ hpre he,
    if_neg (length_ne_append_cons pre post e), extensionDataAt_append_cons]
  split <;> simp_all [Except.map]

theorem getExtension_ServerSupportedVersions_decodes (pre post : List Extension) (e : Extension)
    (hpre : ∀ x ∈ pre, x.extension_type ≠ ExtensionType.supported_versions)
    (he : e.extension_type = ExtensionType.supported_versions) :
    getExtension_ServerSupportedVersions (pre ++ e :: post) =
        (detail.read sizeofProtocolVersion e.extension_data).map
          (fun r => some ⟨r.out⟩) := by
  simp only [getExtension_ServerSupportedVersions, findExtension_append_cons pre post e _ hpre he,
    if_neg (length_ne_append_cons pre post e), extensionDataAt_append_cons]
  split <;> simp_all [Except.map]

theorem getExtension_PskKeyExchangeModes_decodes (pre post : List Extension) (e : Extension)
    (hpre : ∀ x ∈ pre, x.extension_type ≠ ExtensionType.psk_key_exchange_modes)
    (he : e.extension_type = ExtensionType.psk_key_exchange_modes) :
    getExtension_PskKeyExchangeModes (pre ++ e :: post) =
        (detail.readVector 1 (detail.read sizeofPskKeyExchangeMode) e.extension_data).map
          (fun r => some ⟨r.1⟩) := by
  simp only [getExtension_PskKeyExchangeModes, findExtension_append_cons pre post e _ hpre he,
    if_neg (length_ne_append_cons pre post e), extensionDataAt_append_cons]
  split <;> simp_all [Except.map]

theorem getExtension_ProtocolNameList_decodes (pre post : List Extension) (e : Extension)
    (hpre : ∀ x ∈ pre, x.extension_type ≠ ExtensionType.application_layer_protocol_negotiation)
    (he : e.extension_type = ExtensionType.application_layer_protocol_negotiation) :
    getExtension_ProtocolNameList (pre ++ e :: post) =
        (detail.readVector 2 detail.Reader_ProtocolName.read e.extension_data).map
          (fun r => some ⟨r.1⟩) := by
  simp only [getExtension_ProtocolNameList, findExtension_append_cons pre post e _ hpre he,
    if_neg (length_ne_append_cons pre post e), extensionDataAt_append_cons]
  split <;> simp_all [Except.map]

theorem getExtension_CertificateAuthorities_decodes (pre post : List Extension) (e : Extension)
    (hpre : ∀ x ∈ pre, x.extension_type ≠ ExtensionType.certificate_authorities)
    (he : e.extension_type = ExtensionType.certificate_authorities) :
    getExtension_CertificateAuthorities (pre ++ e :: post) =
        (detail.readVector 2 detail.Reader_DistinguishedName.read e.extension_data).map
          (fun r => some ⟨r.1⟩) := by
  simp only [getExtension_CertificateAuthorities, findExtension_append_cons pre post e _ hpre he,
    if_neg (length_ne_append_cons pre post e), extensionDataAt_append_cons]
  split <;> simp_all [Except.map]

/-! ## Lemmas: setKey -/

theorem OpenSSLEVPCipher.setKey_of_bad_length (impl : EVPImpl) (prov : Provider)
    (self : OpenSSLEVPCipher) (trafficKey : TrafficKey)
    (h : trafficKey.key.length ≠ impl.kKeyLength ∨ trafficKey.iv.length ≠ impl.kIVLength) :
    OpenSSLEVPCipher.setKey impl prov self trafficKey
      = (.error (.runtimeError
          (if trafficKey.key.length ≠ impl.kKeyLength then "Invalid key" else "Invalid IV")),
        self) := by
  by_cases hk : trafficKey.key.length = impl.kKeyLength
  · have hi : trafficKey.iv.length ≠ impl.kIVLength := by
      rcases h with h | h
      · exact absurd hk h
      · exact h
    simp [OpenSSLEVPCipher.setKey, hk, hi]
  · simp [OpenSSLEVPCipher.setKey, hk]

theorem OpenSSLEVPCipher.setKey_ok (impl : EVPImpl) (prov : Provider)
    (self : OpenSSLEVPCipher) (trafficKey : TrafficKey)
    (hk : trafficKey.key.length = impl.kKeyLength)
    (hi : trafficKey.iv.length = impl.kIVLength)
    (he : prov.EVP_EncryptInit_ex trafficKey.key = true)
    (hd : prov.EVP_DecryptInit_ex trafficKey.key = true) :
    OpenSSLEVPCipher.setKey impl prov self trafficKey
      = (.ok (), ⟨trafficKey, ⟨some trafficKey.key⟩, ⟨some trafficKey.key⟩⟩) := by
  simp [OpenSSLEVPCipher.setKey, hk, hi, he, hd]

/-- A call of `setKey` that returns normally has installed the key in both
contexts and the traffic key in the cipher. -/
theorem OpenSSLEVPCipher.setKey_installed (impl : EVPImpl) (prov : Provider)
    (self after : OpenSSLEVPCipher) (trafficKey : TrafficKey)
    (h : OpenSSLEVPCipher.setKey impl prov self trafficKey = (.ok (), after)) :
    after = ⟨trafficKey, ⟨some trafficKey.key⟩, ⟨some trafficKey.key⟩⟩ ∧
      trafficKey.key.length = impl.kKeyLength ∧ trafficKey.iv.length = impl.kIVLength := by
  unfold OpenSSLEVPCipher.setKey at h
  by_cases hk : trafficKey.key.length = impl.kKeyLength
  · by_cases hi : trafficKey.iv.length = impl.kIVLength
    · by_cases he : prov.EVP_EncryptInit_ex trafficKey.key = true
      · by_cases hd : prov.EVP_DecryptInit_ex trafficKey.key = true
        · simp [hk, hi, he, hd] at h
          exact ⟨h.symm, hk, hi⟩
        · simp [hk, hi, he, hd] at h
      · simp [hk, hi, he] at h
    · simp [hk, hi] at h
  · simp [hk] at h

/-! ## Claims about setKey, encrypt and tryDecrypt -/

/-- C11: `setKey` fails with the invalid-key-material errors (`std::runtime_error`
"Invalid key" when the key length differs from `kKeyLength`, otherwise
"Invalid IV" when the IV length differs from `kIVLength`), and when both
lengths match and the provider accepts the key in both contexts it succeeds,
with the traffic key and both context keys installed. -/
theorem setKey_checks_lengths (impl : EVPImpl) (prov : Provider) (self : OpenSSLEVPCipher)
    (trafficKey : TrafficKey) :
    (trafficKey.key.length ≠ impl.kKeyLength →
      (OpenSSLEVPCipher.setKey impl prov self trafficKey).1
        = .error (.runtimeError "Invalid key")) ∧
    (trafficKey.key.length = impl.kKeyLength → trafficKey.iv.length ≠ impl.kIVLength →
      (OpenSSLEVPCipher.setKey impl prov self trafficKey).1
        = .error (.runtimeError "Invalid IV")) ∧
    (trafficKey.key.length = impl.kKeyLength → trafficKey.iv.length = impl.kIVLength →
      prov.EVP_EncryptInit_ex trafficKey.key = true →
      prov.EVP_DecryptInit_ex trafficKey.key = true →
      OpenSSLEVPCipher.setKey impl prov self trafficKey
        = (.ok (), ⟨trafficKey, ⟨some trafficKey.key⟩, ⟨some trafficKey.key⟩⟩)) := by
  refine ⟨?_, ?_, ?_⟩
  · intro hk
    rw [OpenSSLEVPCipher.setKey_of_bad_length impl prov self trafficKey (Or.inl hk)]
    simp [hk]
  · intro hk hi
    rw [OpenSSLEVPCipher.setKey_of_bad_length impl prov self trafficKey (Or.inr hi)]
    simp [hk]
  · exact OpenSSLEVPCipher.setKey_ok impl prov self trafficKey

/-- Instances for AES-128-GCM (key 16, IV 12, tag 16): a 15-byte key, a
16-byte key with an 11-byte IV, and a key and IV of the right lengths. -/
theorem setKey_checks_lengths_witness :
    (OpenSSLEVPCipher.setKey ⟨16, 12, 16⟩ toyProvider ⟨⟨[], []⟩, ⟨none⟩, ⟨none⟩⟩
        ⟨List.replicate 15 0, List.replicate 12 0⟩).1 = .error (.runtimeError "Invalid key") ∧
    (OpenSSLEVPCipher.setKey ⟨16, 12, 16⟩ toyProvider ⟨⟨[], []⟩, ⟨none⟩, ⟨none⟩⟩
        ⟨List.replicate 16 0, List.replicate 11 0⟩).1 = .error (.runtimeError "Invalid IV") ∧
    OpenSSLEVPCipher.setKey ⟨16, 12, 16⟩ toyProvider ⟨⟨[], []⟩, ⟨none⟩, ⟨none⟩⟩
        ⟨List.replicate 16 0, List.replicate 12 0⟩
      = (.ok (), ⟨⟨List.replicate 16 0, List.replicate 12 0⟩,
          ⟨some (List.replicate 16 0)⟩, ⟨some (List.replicate 16 0)⟩⟩) :=
  ⟨(setKey_checks_lengths ⟨16, 12, 16⟩ toyProvider ⟨⟨[], []⟩, ⟨none⟩, ⟨none⟩⟩
      ⟨List.replicate 15 0, List.replicate 12 0⟩).1 (by decide),
    (setKey_checks_lengths ⟨16, 12, 16⟩ toyProvider ⟨⟨[], []⟩, ⟨none⟩, ⟨none⟩⟩
      ⟨List.replicate 16 0, List.replicate 11 0⟩).2.1 (by decide) (by decide),
    (setKey_checks_lengths ⟨16, 12, 16⟩ toyProvider ⟨⟨[], []⟩, ⟨none⟩, ⟨none⟩⟩
      ⟨List.replicate 16 0, List.replicate 12 0⟩).2.2 (by decide) (by decide) rfl rfl⟩

/-- C12: a `setKey` that fails because the key or the IV has the wrong length
leaves the cipher as it was: the members after the call (installed traffic key
and IV, keys of the encrypt and decrypt contexts) equal those before it, so
`createIV`, `encrypt` and `tryDecrypt` give afterwards what they gave before. -/
theorem setKey_bad_length_keeps_state (impl : EVPImpl) (prov : Provider)
    (self : OpenSSLEVPCipher) (trafficKey : TrafficKey)
    (h : trafficKey.key.length ≠ impl.kKeyLength ∨ trafficKey.iv.length ≠ impl.kIVLength) :
    (∃ msg, (OpenSSLEVPCipher.setKey impl prov self trafficKey).1
      = .error (.runtimeError msg)) ∧
    (OpenSSLEVPCipher.setKey impl prov self trafficKey).2 = self ∧
    (∀ seqNum, (OpenSSLEVPCipher.setKey impl prov self trafficKey).2.createIV impl seqNum
      = self.createIV impl seqNum) ∧
    (∀ plaintext aad seqNum,
      (OpenSSLEVPCipher.setKey impl prov self trafficKey).2.encrypt impl prov plaintext aad seqNum
        = self.encrypt impl prov plaintext aad seqNum) ∧
    (∀ ciphertext aad seqNum,
      (OpenSSLEVPCipher.setKey impl prov self trafficKey).2.tryDecrypt impl prov ciphertext aad
          seqNum
        = self.tryDecrypt impl prov ciphertext aad seqNum) := by
  rw [OpenSSLEVPCipher.setKey_of_bad_length impl prov self trafficKey h]
  exact ⟨⟨_, rfl⟩, rfl, fun _ => rfl, fun _ _ _ => rfl, fun _ _ _ => rfl⟩

/-- An instance: a cipher with a 16-byte key installed is offered a 15-byte key. -/
theorem setKey_bad_length_keeps_state_witness :
    (OpenSSLEVPCipher.setKey ⟨16, 12, 16⟩ toyProvider
        ⟨⟨List.replicate 16 1, List.replicate 12 2⟩, ⟨some (List.replicate 16 1)⟩,
          ⟨some (List.replicate 16 1)⟩⟩
        ⟨List.replicate 15 0, List.replicate 12 0⟩).2
      = ⟨⟨List.replicate 16 1, List.replicate 12 2⟩, ⟨some (List.replicate 16 1)⟩,
          ⟨some (List.replicate 16 1)⟩⟩ :=
  (setKey_bad_length_keeps_state ⟨16, 12, 16⟩ toyProvider
    ⟨⟨List.replicate 16 1, List.replicate 12 2⟩, ⟨some (List.replicate 16 1)⟩,
      ⟨some (List.replicate 16 1)⟩⟩
    ⟨List.replicate 15 0, List.replicate 12 0⟩ (Or.inl (by decide))).2.1

/-- C13: on a cipher whose traffic key was installed by a successful `setKey`,
if the provider's decryption inverts its encryption under the installed key,
the nonce `createIV(seqNum)`, the tag length `kTagLength` and the associated
data of the call, then `encrypt` succeeds and `tryDecrypt` of its output, with
the same associated data and sequence number, returns the plaintext; both
calls hand the provider that nonce, that tag length and a context holding the
installed key. -/
theorem tryDecrypt_encrypt (impl : EVPImpl) (prov : Provider)
    (before self : OpenSSLEVPCipher) (trafficKey : TrafficKey)
    (plaintext aad : List Nat) (seqNum : Nat)
    (hset : OpenSSLEVPCipher.setKey impl prov before trafficKey = (.ok (), self))
    (hinv : prov.InvertsAt trafficKey.key plaintext aad
      (createIV impl trafficKey.iv seqNum) impl.kTagLength) :
    (∃ ciphertext, self.encrypt impl prov plaintext aad seqNum = .ok ciphertext ∧
      self.tryDecrypt impl prov ciphertext aad seqNum = some plaintext) ∧
    self.encrypt impl prov plaintext aad seqNum
      = prov.evpEncrypt plaintext aad (createIV impl trafficKey.iv seqNum) impl.kTagLength
          ⟨some trafficKey.key⟩ ∧
    (∀ ciphertext, self.tryDecrypt impl prov ciphertext aad seqNum
      = prov.evpDecrypt ciphertext aad (createIV impl trafficKey.iv seqNum) impl.kTagLength
          ⟨some trafficKey.key⟩) := by
  obtain ⟨hself, -, -⟩ := OpenSSLEVPCipher.setKey_installed impl prov before self trafficKey hset
  subst hself
  refine ⟨?_, rfl, fun _ => rfl⟩
  obtain ⟨ct, henc, hdec⟩ := hinv
  exact ⟨ct, henc, hdec⟩

/-- An instance on the sample provider, which depends on key, nonce and
associated data: AES-128-GCM lengths, the plaintext "ping" with associated data
`17 03 03`, sequence number 1. The round trip gives "ping" back; the same
ciphertext under sequence number 2 or under other associated data is refused. -/
theorem tryDecrypt_encrypt_witness :
    (∃ ciphertext,
      OpenSSLEVPCipher.encrypt ⟨16, 12, 16⟩ sampleProvider
          ⟨⟨List.replicate 16 1, [1, 2, 3, 4, 5, 6, 7, 8, 9, 10, 11, 12]⟩,
            ⟨some (List.replicate 16 1)⟩, ⟨some (List.replicate 16 1)⟩⟩
          [112, 105, 110, 103] [23, 3, 3] 1 = .ok ciphertext ∧
      OpenSSLEVPCipher.tryDecrypt ⟨16, 12, 16⟩ sampleProvider
          ⟨⟨List.replicate 16 1, [1, 2, 3, 4, 5, 6, 7, 8, 9, 10, 11, 12]⟩,
            ⟨some (List.replicate 16 1)⟩, ⟨some (List.replicate 16 1)⟩⟩
          ciphertext [23, 3, 3] 1 = some [112, 105, 110, 103]) ∧
    OpenSSLEVPCipher.encrypt ⟨16, 12, 16⟩ sampleProvider
        ⟨⟨List.replicate 16 1, [1, 2, 3, 4, 5, 6, 7, 8, 9, 10, 11, 12]⟩,
          ⟨some (List.replicate 16 1)⟩, ⟨some (List.replicate 16 1)⟩⟩
        [112, 105, 110, 103] [23, 3, 3] 1
      = .ok ([47, 54, 49, 56] ++ List.replicate 16 91) ∧
    OpenSSLEVPCipher.tryDecrypt ⟨16, 12, 16⟩ sampleProvider
        ⟨⟨List.replicate 16 1, [1, 2, 3, 4, 5, 6, 7, 8, 9, 10, 11, 12]⟩,
          ⟨some (List.replicate 16 1)⟩, ⟨some (List.replicate 16 1)⟩⟩
        ([47, 54, 49, 56] ++ List.replicate 16 91) [23, 3, 3] 2 = none ∧
    OpenSSLEVPCipher.tryDecrypt ⟨16, 12, 16⟩ sampleProvider
        ⟨⟨List.replicate 16 1, [1, 2, 3, 4, 5, 6, 7, 8, 9, 10, 11, 12]⟩,
          ⟨some (List.replicate 16 1)⟩, ⟨some (List.replicate 16 1)⟩⟩
        ([47, 54, 49, 56] ++ List.replicate 16 91) [23, 3, 4] 1 = none :=
  ⟨(tryDecrypt_encrypt ⟨16, 12, 16⟩ sampleProvider ⟨⟨[], []⟩, ⟨none⟩, ⟨none⟩⟩
      ⟨⟨List.replicate 16 1, [1, 2, 3, 4, 5, 6, 7, 8, 9, 10, 11, 12]⟩,
        ⟨some (List.replicate 16 1)⟩, ⟨some (List.replicate 16 1)⟩⟩
      ⟨List.replicate 16 1, [1, 2, 3, 4, 5, 6, 7, 8, 9, 10, 11, 12]⟩
      [112, 105, 110, 103] [23, 3, 3] 1 (by decide)
      ⟨[47, 54, 49, 56] ++ List.replicate 16 91, by decide, by decide⟩).1,
    by decide, by decide, by decide⟩

/-! ## Claims about the nested wire structures -/

/-- C14: for each of the six nested wire structures, when the length-prefixed
field of a value fits its length field, `write` succeeds and appends exactly
`getSize` bytes. -/
theorem getSize_eq_write_length :
    (∀ e : KeyShareEntry, e.key_exchange.length < 2 ^ 16 →
      ∃ bytes, detail.Writer_KeyShareEntry.write e = .ok bytes ∧
        bytes.length = detail.Sizer_KeyShareEntry.getSize e) ∧
    (∀ p : PskIdentity, p.psk_identity.length < 2 ^ 16 →
      ∃ bytes, detail.Writer_PskIdentity.write p = .ok bytes ∧
        bytes.length = detail.Sizer_PskIdentity.getSize p) ∧
    (∀ b : PskBinder, b.binder.length < 2 ^ 8 →
      ∃ bytes, detail.Writer_PskBinder.write b = .ok bytes ∧
        bytes.length = detail.Sizer_PskBinder.getSize b) ∧
    (∀ n : ProtocolName, n.name.length < 2 ^ 8 →
      ∃ bytes, detail.Writer_ProtocolName.write n = .ok bytes ∧
        bytes.length = detail.Sizer_ProtocolName.getSize n) ∧
    (∀ n : ServerName, n.hostname.length < 2 ^ 16 →
      ∃ bytes, detail.Writer_ServerName.write n = .ok bytes ∧
        bytes.length = detail.Sizer_ServerName.getSize n) ∧
    (∀ dn : DistinguishedName, dn.encoded_name.length < 2 ^ 16 →
      ∃ bytes, detail.Writer_DistinguishedName.write dn = .ok bytes ∧
        bytes.length = detail.Sizer_DistinguishedName.getSize dn) := by
  refine ⟨?_, ?_, ?_, ?_, ?_, ?_⟩
  · intro e h
    obtain ⟨kb, hkb, hlen⟩ := detail.writeBuf_length 2 e.key_exchange (by simpa using h)
    refine ⟨detail.write sizeofNamedGroup e.group ++ kb,
      by simp only [detail.Writer_KeyShareEntry.write, hkb], ?_⟩
    simp [detail.Sizer_KeyShareEntry.getSize, detail.write_length, hlen]
  · intro p h
    obtain ⟨kb, hkb, hlen⟩ := detail.writeBuf_length 2 p.psk_identity (by simpa using h)
    refine ⟨kb ++ detail.write 4 p.obfuscated_ticket_age,
      by simp only [detail.Writer_PskIdentity.write, hkb], ?_⟩
    simp [detail.Sizer_PskIdentity.getSize, detail.write_length, hlen]
  · intro b h
    exact detail.writeBuf_length 1 b.binder (by simpa using h)
  · intro n h
    exact detail.writeBuf_length 1 n.name (by simpa using h)
  · intro n h
    obtain ⟨kb, hkb, hlen⟩ := detail.writeBuf_length 2 n.hostname (by simpa using h)
    refine ⟨detail.write sizeofServerNameType n.name_type ++ kb,
      by simp only [detail.Writer_ServerName.write, hkb], ?_⟩
    simp [detail.Sizer_ServerName.getSize, detail.write_length, hlen]
  · intro dn h
    exact detail.writeBuf_length 2 dn.encoded_name (by simpa using h)

theorem getSize_eq_write_length_witness :
    (∃ bytes, detail.Writer_KeyShareEntry.write ⟨29, [1, 2, 3]⟩ = .ok bytes ∧
      bytes.length = detail.Sizer_KeyShareEntry.getSize ⟨29, [1, 2, 3]⟩) ∧
    (∃ bytes, detail.Writer_PskIdentity.write ⟨[7, 7], 5⟩ = .ok bytes ∧
      bytes.length = detail.Sizer_PskIdentity.getSize ⟨[7, 7], 5⟩) ∧
    (∃ bytes, detail.Writer_PskBinder.write ⟨[1, 2, 3]⟩ = .ok bytes ∧
      bytes.length = detail.Sizer_PskBinder.getSize ⟨[1, 2, 3]⟩) ∧
    (∃ bytes, detail.Writer_ProtocolName.write ⟨[104, 50]⟩ = .ok bytes ∧
      bytes.length = detail.Sizer_ProtocolName.getSize ⟨[104, 50]⟩) ∧
    (∃ bytes, detail.Writer_ServerName.write ⟨0, [97]⟩ = .ok bytes ∧
      bytes.length = detail.Sizer_ServerName.getSize ⟨0, [97]⟩) ∧
    (∃ bytes, detail.Writer_DistinguishedName.write ⟨[48, 0]⟩ = .ok bytes ∧
      bytes.length = detail.Sizer_DistinguishedName.getSize ⟨[48, 0]⟩) :=
  ⟨getSize_eq_write_length.1 ⟨29, [1, 2, 3]⟩ (by decide),
    getSize_eq_write_length.2.1 ⟨[7, 7], 5⟩ (by decide),
    getSize_eq_write_length.2.2.1 ⟨[1, 2, 3]⟩ (by decide),
    getSize_eq_write_length.2.2.2.1 ⟨[104, 50]⟩ (by decide),
    getSize_eq_write_length.2.2.2.2.1 ⟨0, [97]⟩ (by decide),
    getSize_eq_write_length.2.2.2.2.2 ⟨[48, 0]⟩ (by decide)⟩

/-- C15: for each of the six nested wire structures and every well-formed
value `x`, `write x` succeeds, and reading from its bytes followed by any
`rest` yields `x`, returns the byte count `getSize x` and leaves the cursor at
`rest`. -/
theorem read_write_roundtrip :
    (∀ (e : KeyShareEntry) (rest : List Nat), e.WellFormed →
      ∃ bytes, detail.Writer_KeyShareEntry.write e = .ok bytes ∧
        detail.Reader_KeyShareEntry.read (bytes ++ rest) = .ok ⟨e, detail.Sizer_KeyShareEntry.getSize e, rest⟩) ∧
    (∀ (p : PskIdentity) (rest : List Nat), p.WellFormed →
      ∃ bytes, detail.Writer_PskIdentity.write p = .ok bytes ∧
        detail.Reader_PskIdentity.read (bytes ++ rest) = .ok ⟨p, detail.Sizer_PskIdentity.getSize p, rest⟩) ∧
    (∀ (b : PskBinder) (rest : List Nat), b.WellFormed →
      ∃ bytes, detail.Writer_PskBinder.write b = .ok bytes ∧
        detail.Reader_PskBinder.read (bytes ++ rest) = .ok ⟨b, detail.Sizer_PskBinder.getSize b, rest⟩) ∧
    (∀ (n : ProtocolName) (rest : List Nat), n.WellFormed →
      ∃ bytes, detail.Writer_ProtocolName.write n = .ok bytes ∧
        detail.Reader_ProtocolName.read (bytes ++ rest) = .ok ⟨n, detail.Sizer_ProtocolName.getSize n, rest⟩) ∧
    (∀ (n : ServerName) (rest : List Nat), n.WellFormed →
      ∃ bytes, detail.Writer_ServerName.write n = .ok bytes ∧
        detail.Reader_ServerName.read (bytes ++ rest) = .ok ⟨n, detail.Sizer_ServerName.getSize n, rest⟩) ∧
    (∀ (dn : DistinguishedName) (rest : List Nat), dn.WellFormed →
      ∃ bytes, detail.Writer_DistinguishedName.write dn = .ok bytes ∧
        detail.Reader_DistinguishedName.read (bytes ++ rest) = .ok ⟨dn, detail.Sizer_DistinguishedName.getSize dn, rest⟩) := by
  refine ⟨?_, ?_, ?_, ?_, ?_, ?_⟩
  · intro x rest h
    obtain ⟨-, bytes, hw, -, hr⟩ := detail.KeyShareEntry_roundTrip x h
    exact ⟨bytes, hw, hr rest⟩
  · intro x rest h
    obtain ⟨-, bytes, hw, -, hr⟩ := detail.PskIdentity_roundTrip x h
    exact ⟨bytes, hw, hr rest⟩
  · intro x rest h
    obtain ⟨-, bytes, hw, -, hr⟩ := detail.PskBinder_roundTrip x h
    exact ⟨bytes, hw, hr rest⟩
  · intro x rest h
    obtain ⟨-, bytes, hw, -, hr⟩ := detail.ProtocolName_roundTrip x h
    exact ⟨bytes, hw, hr rest⟩
  · intro x rest h
    obtain ⟨-, bytes, hw, -, hr⟩ := detail.ServerName_roundTrip x h
    exact ⟨bytes, hw, hr rest⟩
  · intro x rest h
    obtain ⟨-, bytes, hw, -, hr⟩ := detail.DistinguishedName_roundTrip x h
    exact ⟨bytes, hw, hr rest⟩

theorem read_write_roundtrip_witness :
    (∃ bytes, detail.Writer_KeyShareEntry.write ⟨29, [1, 2, 3]⟩ = .ok bytes ∧
      detail.Reader_KeyShareEntry.read (bytes ++ [9, 9]) =
        .ok ⟨⟨29, [1, 2, 3]⟩, detail.Sizer_KeyShareEntry.getSize ⟨29, [1, 2, 3]⟩, [9, 9]⟩) ∧
    (∃ bytes, detail.Writer_PskIdentity.write ⟨[7, 7], 5⟩ = .ok bytes ∧
      detail.Reader_PskIdentity.read (bytes ++ [9, 9]) =
        .ok ⟨⟨[7, 7], 5⟩, detail.Sizer_PskIdentity.getSize ⟨[7, 7], 5⟩, [9, 9]⟩) ∧
    (∃ bytes, detail.Writer_PskBinder.write ⟨[1, 2, 3]⟩ = .ok bytes ∧
      detail.Reader_PskBinder.read (bytes ++ [9, 9]) =
        .ok ⟨⟨[1, 2, 3]⟩, detail.Sizer_PskBinder.getSize ⟨[1, 2, 3]⟩, [9, 9]⟩) ∧
    (∃ bytes, detail.Writer_ProtocolName.write ⟨[104, 50]⟩ = .ok bytes ∧
      detail.Reader_ProtocolName.read (bytes ++ [9, 9]) =
        .ok ⟨⟨[104, 50]⟩, detail.Sizer_ProtocolName.getSize ⟨[104, 50]⟩, [9, 9]⟩) ∧
    (∃ bytes, detail.Writer_ServerName.write ⟨0, [97]⟩ = .ok bytes ∧
      detail.Reader_ServerName.read (bytes ++ [9, 9]) =
        .ok ⟨⟨0, [97]⟩, detail.Sizer_ServerName.getSize ⟨0, [97]⟩, [9, 9]⟩) ∧
    (∃ bytes, detail.Writer_DistinguishedName.write ⟨[48, 0]⟩ = .ok bytes ∧
      detail.Reader_DistinguishedName.read (bytes ++ [9, 9]) =
        .ok ⟨⟨[48, 0]⟩, detail.Sizer_DistinguishedName.getSize ⟨[48, 0]⟩, [9, 9]⟩) :=
  ⟨read_write_roundtrip.1 ⟨29, [1, 2, 3]⟩ [9, 9] ⟨by decide, by decide⟩,
    read_write_roundtrip.2.1 ⟨[7, 7], 5⟩ [9, 9] ⟨by decide, by decide⟩,
    read_write_roundtrip.2.2.1 ⟨[1, 2, 3]⟩ [9, 9] (by decide),
    read_write_roundtrip.2.2.2.1 ⟨[104, 50]⟩ [9, 9] (by decide),
    read_write_roundtrip.2.2.2.2.1 ⟨0, [97]⟩ [9, 9] ⟨by decide, by decide⟩,
    read_write_roundtrip.2.2.2.2.2 ⟨[48, 0]⟩ [9, 9] (by decide)⟩

/-- C16: for each of the six nested wire structures and every byte string `b`
from which `read` succeeds, producing `x`, the byte count `n` and the cursor
`rest`: `write x` succeeds with exactly the first `n` bytes of `b`, and `rest`
is `b` without them. -/
theorem write_read_roundtrip :
    (∀ (b : List Nat) (r : ReadResult KeyShareEntry), ValidBytes b →
      detail.Reader_KeyShareEntry.read b = .ok r →
      detail.Writer_KeyShareEntry.write r.out = .ok (b.take r.len) ∧ r.cursor = b.drop r.len ∧
        r.len ≤ b.length) ∧
    (∀ (b : List Nat) (r : ReadResult PskIdentity), ValidBytes b →
      detail.Reader_PskIdentity.read b = .ok r →
      detail.Writer_PskIdentity.write r.out = .ok (b.take r.len) ∧ r.cursor = b.drop r.len ∧
        r.len ≤ b.length) ∧
    (∀ (b : List Nat) (r : ReadResult PskBinder), ValidBytes b →
      detail.Reader_PskBinder.read b = .ok r →
      detail.Writer_PskBinder.write r.out = .ok (b.take r.len) ∧ r.cursor = b.drop r.len ∧
        r.len ≤ b.length) ∧
    (∀ (b : List Nat) (r : ReadResult ProtocolName), ValidBytes b →
      detail.Reader_ProtocolName.read b = .ok r →
      detail.Writer_ProtocolName.write r.out = .ok (b.take r.len) ∧ r.cursor = b.drop r.len ∧
        r.len ≤ b.length) ∧
    (∀ (b : List Nat) (r : ReadResult ServerName), ValidBytes b →
      detail.Reader_ServerName.read b = .ok r →
      detail.Writer_ServerName.write r.out = .ok (b.take r.len) ∧ r.cursor = b.drop r.len ∧
        r.len ≤ b.length) ∧
    (∀ (b : List Nat) (r : ReadResult DistinguishedName), ValidBytes b →
      detail.Reader_DistinguishedName.read b = .ok r →
      detail.Writer_DistinguishedName.write r.out = .ok (b.take r.len) ∧ r.cursor = b.drop r.len ∧
        r.len ≤ b.length) :=
  ⟨detail.KeyShareEntry_read_inv,
    detail.PskIdentity_read_inv,
    detail.PskBinder_read_inv,
    detail.ProtocolName_read_inv,
    detail.ServerName_read_inv,
    detail.DistinguishedName_read_inv⟩

theorem write_read_roundtrip_witness :
    (detail.Reader_KeyShareEntry.read ([0, 29, 0, 3, 1, 2, 3] ++ [9, 9]) = .ok ⟨⟨29, [1, 2, 3]⟩, 7, [9, 9]⟩ ∧
      detail.Writer_KeyShareEntry.write ⟨29, [1, 2, 3]⟩ = .ok [0, 29, 0, 3, 1, 2, 3]) ∧
    (detail.Reader_PskIdentity.read ([0, 2, 7, 7, 0, 0, 0, 5] ++ [9, 9]) = .ok ⟨⟨[7, 7], 5⟩, 8, [9, 9]⟩ ∧
      detail.Writer_PskIdentity.write ⟨[7, 7], 5⟩ = .ok [0, 2, 7, 7, 0, 0, 0, 5]) ∧
    (detail.Reader_PskBinder.read ([3, 1, 2, 3] ++ [9, 9]) = .ok ⟨⟨[1, 2, 3]⟩, 4, [9, 9]⟩ ∧
      detail.Writer_PskBinder.write ⟨[1, 2, 3]⟩ = .ok [3, 1, 2, 3]) ∧
    (detail.Reader_ProtocolName.read ([2, 104, 50] ++ [9, 9]) = .ok ⟨⟨[104, 50]⟩, 3, [9, 9]⟩ ∧
      detail.Writer_ProtocolName.write ⟨[104, 50]⟩ = .ok [2, 104, 50]) ∧
    (detail.Reader_ServerName.read ([0, 0, 1, 97] ++ [9, 9]) = .ok ⟨⟨0, [97]⟩, 4, [9, 9]⟩ ∧
      detail.Writer_ServerName.write ⟨0, [97]⟩ = .ok [0, 0, 1, 97]) ∧
    (detail.Reader_DistinguishedName.read ([0, 2, 48, 0] ++ [9, 9]) = .ok ⟨⟨[48, 0]⟩, 4, [9, 9]⟩ ∧
      detail.Writer_DistinguishedName.write ⟨[48, 0]⟩ = .ok [0, 2, 48, 0]) :=
  ⟨⟨by decide, by
      simpa using (write_read_roundtrip.1 ([0, 29, 0, 3, 1, 2, 3] ++ [9, 9])
        ⟨⟨29, [1, 2, 3]⟩, 7, [9, 9]⟩ (by decide) (by decide)).1⟩,
    ⟨by decide, by
      simpa using (write_read_roundtrip.2.1 ([0, 2, 7, 7, 0, 0, 0, 5] ++ [9, 9])
        ⟨⟨[7, 7], 5⟩, 8, [9, 9]⟩ (by decide) (by decide)).1⟩,
    ⟨by decide, by
      simpa using (write_read_roundtrip.2.2.1 ([3, 1, 2, 3] ++ [9, 9])
        ⟨⟨[1, 2, 3]⟩, 4, [9, 9]⟩ (by decide) (by decide)).1⟩,
    ⟨by decide, by
      simpa using (write_read_roundtrip.2.2.2.1 ([2, 104, 50] ++ [9, 9])
        ⟨⟨[104, 50]⟩, 3, [9, 9]⟩ (by decide) (by decide)).1⟩,
    ⟨by decide, by
      simpa using (write_read_roundtrip.2.2.2.2.1 ([0, 0, 1, 97] ++ [9, 9])
        ⟨⟨0, [97]⟩, 4, [9, 9]⟩ (by decide) (by decide)).1⟩,
    ⟨by decide, by
      simpa using (write_read_roundtrip.2.2.2.2.2 ([0, 2, 48, 0] ++ [9, 9])
        ⟨⟨[48, 0]⟩, 4, [9, 9]⟩ (by decide) (by decide)).1⟩⟩

/-- C17: for a key share entry whose key exchange has at most 65535 bytes,
`write` appends the two big-endian bytes of the group, the two big-endian
bytes of the key exchange length, then the key exchange; for a PSK identity
whose identity has at most 65535 bytes it appends the two big-endian bytes of
the identity length, the identity, then the four big-endian bytes of the
obfuscated ticket age. -/
theorem write_wire_format :
    (∀ e : KeyShareEntry, e.key_exchange.length ≤ 65535 →
      detail.Writer_KeyShareEntry.write e =
        .ok ([e.group / 256 % 256, e.group % 256,
              e.key_exchange.length / 256, e.key_exchange.length % 256] ++ e.key_exchange)) ∧
    (∀ p : PskIdentity, p.psk_identity.length ≤ 65535 →
      detail.Writer_PskIdentity.write p =
        .ok ([p.psk_identity.length / 256, p.psk_identity.length % 256] ++ p.psk_identity ++
              [p.obfuscated_ticket_age / 16777216 % 256, p.obfuscated_ticket_age / 65536 % 256,
               p.obfuscated_ticket_age / 256 % 256, p.obfuscated_ticket_age % 256])) := by
  constructor
  · intro e h
    have hlt : e.key_exchange.length < 256 ^ 2 := by norm_num; omega
    have hdiv : e.key_exchange.length / 256 % 256 = e.key_exchange.length / 256 := by omega
    simp only [detail.Writer_KeyShareEntry.write, detail.writeBuf_ok 2 e.key_exchange hlt]
    simp [detail.write, sizeofNamedGroup, beBytes, hdiv]
  · intro p h
    have hlt : p.psk_identity.length < 256 ^ 2 := by norm_num; omega
    have hdiv : p.psk_identity.length / 256 % 256 = p.psk_identity.length / 256 := by omega
    simp only [detail.Writer_PskIdentity.write, detail.writeBuf_ok 2 p.psk_identity hlt]
    simp [detail.write, beBytes, hdiv]

theorem write_wire_format_witness :
    detail.Writer_KeyShareEntry.write ⟨29, [1, 2, 3]⟩ = .ok [0, 29, 0, 3, 1, 2, 3] ∧
    detail.Writer_PskIdentity.write ⟨[7, 7], 66051⟩ = .ok [0, 2, 7, 7, 0, 1, 2, 3] :=
  ⟨write_wire_format.1 ⟨29, [1, 2, 3]⟩ (by decide),
    write_wire_format.2 ⟨[7, 7], 66051⟩ (by decide)⟩

/-! ## Claims about absent and truncated extensions -/

/-- C18: for each of the seventeen extension types, `getExtension` returns none
(without raising an error) exactly when no extension of the list carries the
tag of the type, or, for the three key share types and the server name list,
neither of its two tags; the data of the other extensions plays no part, and
with a relevant tag present the result is a value or an error, never none. -/
theorem getExtension_none_iff_absent (extensions : List Extension) :
    (getExtension_SignatureAlgorithms extensions = .ok none ↔
      ∀ e ∈ extensions, e.extension_type ≠ ExtensionType.signature_algorithms) ∧
    (getExtension_SupportedGroups extensions = .ok none ↔
      ∀ e ∈ extensions, e.extension_type ≠ ExtensionType.supported_groups) ∧
    (getExtension_ClientPresharedKey extensions = .ok none ↔
      ∀ e ∈ extensions, e.extension_type ≠ ExtensionType.pre_shared_key) ∧
    (getExtension_ServerPresharedKey extensions = .ok none ↔
      ∀ e ∈ extensions, e.extension_type ≠ ExtensionType.pre_shared_key) ∧
    (getExtension_ClientEarlyData extensions = .ok none ↔
      ∀ e ∈ extensions, e.extension_type ≠ ExtensionType.early_data) ∧
    (getExtension_ServerEarlyData extensions = .ok none ↔
      ∀ e ∈ extensions, e.extension_type ≠ ExtensionType.early_data) ∧
    (getExtension_TicketEarlyData extensions = .ok none ↔
      ∀ e ∈ extensions, e.extension_type ≠ ExtensionType.early_data) ∧
    (getExtension_Cookie extensions = .ok none ↔
      ∀ e ∈ extensions, e.extension_type ≠ ExtensionType.cookie) ∧
    (getExtension_SupportedVersions extensions = .ok none ↔
      ∀ e ∈ extensions, e.extension_type ≠ ExtensionType.supported_versions) ∧
    (getExtension_ServerSupportedVersions extensions = .ok none ↔
      ∀ e ∈ extensions, e.extension_type ≠ ExtensionType.supported_versions) ∧
    (getExtension_PskKeyExchangeModes extensions = .ok none ↔
      ∀ e ∈ extensions, e.extension_type ≠ ExtensionType.psk_key_exchange_modes) ∧
    (getExtension_ProtocolNameList extensions = .ok none ↔
      ∀ e ∈ extensions, e.extension_type ≠ ExtensionType.application_layer_protocol_negotiation) ∧
    (getExtension_CertificateAuthorities extensions = .ok none ↔
      ∀ e ∈ extensions, e.extension_type ≠ ExtensionType.certificate_authorities) ∧
    (getExtension_ClientKeyShare extensions = .ok none ↔
      (∀ e ∈ extensions, e.extension_type ≠ ExtensionType.key_share) ∧
      (∀ e ∈ extensions, e.extension_type ≠ ExtensionType.key_share_old)) ∧
    (getExtension_ServerKeyShare extensions = .ok none ↔
      (∀ e ∈ extensions, e.extension_type ≠ ExtensionType.key_share) ∧
      (∀ e ∈ extensions, e.extension_type ≠ ExtensionType.key_share_old)) ∧
    (getExtension_HelloRetryRequestKeyShare extensions = .ok none ↔
      (∀ e ∈ extensions, e.extension_type ≠ ExtensionType.key_share) ∧
      (∀ e ∈ extensions, e.extension_type ≠ ExtensionType.key_share_old)) ∧
    (∀ dflt, getExtension_ServerNameList dflt extensions = .ok none ↔
      (∀ e ∈ extensions, e.extension_type ≠ ExtensionType.server_name) ∧
      (∀ e ∈ extensions, e.extension_type ≠ ExtensionType.alternate_server_name)) :=
  ⟨getExtension_SignatureAlgorithms_eq_none_iff extensions,
    getExtension_SupportedGroups_eq_none_iff extensions,
    getExtension_ClientPresharedKey_eq_none_iff extensions,
    getExtension_ServerPresharedKey_eq_none_iff extensions,
    getExtension_ClientEarlyData_eq_none_iff extensions,
    getExtension_ServerEarlyData_eq_none_iff extensions,
    getExtension_TicketEarlyData_eq_none_iff extensions,
    getExtension_Cookie_eq_none_iff extensions,
    getExtension_SupportedVersions_eq_none_iff extensions,
    getExtension_ServerSupportedVersions_eq_none_iff extensions,
    getExtension_PskKeyExchangeModes_eq_none_iff extensions,
    getExtension_ProtocolNameList_eq_none_iff extensions,
    getExtension_CertificateAuthorities_eq_none_iff extensions,
    getExtension_ClientKeyShare_eq_none_iff extensions,
    getExtension_ServerKeyShare_eq_none_iff extensions,
    getExtension_HelloRetryRequestKeyShare_eq_none_iff extensions,
    fun dflt => getExtension_ServerNameList_eq_none_iff dflt extensions⟩

/-- C19: when the first `key_share` extension of a list has truncated data
(fewer than 4 bytes, or a key exchange length field declaring more bytes than
remain), `getExtension<ServerKeyShare>` fails with the cursor's out-of-range
error instead of returning a value or none; and reading a key share entry
from a cursor fails with that error exactly when the cursor is truncated in
this sense. -/
theorem getExtension_ServerKeyShare_truncated (pre post : List Extension) (e : Extension)
    (cursor : List Nat) :
    ((∀ x ∈ pre, x.extension_type ≠ ExtensionType.key_share) →
      e.extension_type = ExtensionType.key_share →
      KeyShareEntry.Truncated e.extension_data →
      getExtension_ServerKeyShare (pre ++ e :: post) = .error .outOfRange) ∧
    (detail.Reader_KeyShareEntry.read cursor = .error .outOfRange ↔
      KeyShareEntry.Truncated cursor) := by
  refine ⟨?_, detail.KeyShareEntry_read_truncated_iff cursor⟩
  intro hpre he ht
  rw [getExtension_ServerKeyShare_append_cons pre post e hpre he,
    (detail.KeyShareEntry_read_truncated_iff e.extension_data).mpr ht]

/-- Three instances: data of three bytes, a length field of 5 in front of two
bytes, and a five-byte cursor whose length field declares two bytes. -/
theorem getExtension_ServerKeyShare_truncated_witness :
    getExtension_ServerKeyShare
        [⟨ExtensionType.cookie, []⟩, ⟨ExtensionType.key_share, [0, 29, 0]⟩]
      = .error .outOfRange ∧
    getExtension_ServerKeyShare
        [⟨ExtensionType.key_share, [0, 29, 0, 5, 1, 2]⟩, ⟨ExtensionType.key_share, [0, 29, 0, 0]⟩]
      = .error .outOfRange ∧
    detail.Reader_KeyShareEntry.read [0, 29, 0, 2, 1] = .error .outOfRange :=
  ⟨(getExtension_ServerKeyShare_truncated [⟨ExtensionType.cookie, []⟩] []
      ⟨ExtensionType.key_share, [0, 29, 0]⟩ []).1 (by decide) rfl (by decide),
    (getExtension_ServerKeyShare_truncated []
      [⟨ExtensionType.key_share, [0, 29, 0, 0]⟩]
      ⟨ExtensionType.key_share, [0, 29, 0, 5, 1, 2]⟩ []).1 (by decide) rfl (by decide),
    (getExtension_ServerKeyShare_truncated [] [] ⟨ExtensionType.cookie, []⟩
      [0, 29, 0, 2, 1]).2.mpr (by decide)⟩

/-! ## Claims about first-match lookup, binders and trailing data -/

/-- C21: for each of the thirteen single-lookup extension types, when `e` is the
first extension of a list that carries the tag of the type, the outcome of
`getExtension` on the list is the decoding of the data of `e` by the grammar of
the type, a value or the error of that decoding, and it is the outcome on the
list holding `e` alone: extensions with other tags before it and any
extensions after it, duplicates of the tag included, change nothing and are
not rejected. -/
theorem getExtension_first_match_only (pre post : List Extension) (e : Extension) :
    ((∀ x ∈ pre, x.extension_type ≠ ExtensionType.signature_algorithms) →
      e.extension_type = ExtensionType.signature_algorithms →
      getExtension_SignatureAlgorithms (pre ++ e :: post) =
        (detail.readVector 2 (detail.read sizeofSignatureScheme) e.extension_data).map
          (fun r => some ⟨r.1⟩) ∧
      getExtension_SignatureAlgorithms (pre ++ e :: post) = getExtension_SignatureAlgorithms [e]) ∧
    ((∀ x ∈ pre, x.extension_type ≠ ExtensionType.supported_groups) →
      e.extension_type = ExtensionType.supported_groups →
      getExtension_SupportedGroups (pre ++ e :: post) =
        (detail.readVector 2 (detail.read sizeofNamedGroup) e.extension_data).map
          (fun r => some ⟨r.1⟩) ∧
      getExtension_SupportedGroups (pre ++ e :: post) = getExtension_SupportedGroups [e]) ∧
    ((∀ x ∈ pre, x.extension_type ≠ ExtensionType.pre_shared_key) →
      e.extension_type = ExtensionType.pre_shared_key →
      getExtension_ClientPresharedKey (pre ++ e :: post) =
        (detail.readVector 2 detail.Reader_PskIdentity.read e.extension_data).bind
          (fun ids => (detail.readVector 2 detail.Reader_PskBinder.read ids.2).map
            (fun bs => some ⟨ids.1, bs.1⟩)) ∧
      getExtension_ClientPresharedKey (pre ++ e :: post) = getExtension_ClientPresharedKey [e]) ∧
    ((∀ x ∈ pre, x.extension_type ≠ ExtensionType.pre_shared_key) →
      e.extension_type = ExtensionType.pre_shared_key →
      getExtension_ServerPresharedKey (pre ++ e :: post) =
        (detail.read 2 e.extension_data).map
          (fun r => some ⟨r.out⟩) ∧
      getExtension_ServerPresharedKey (pre ++ e :: post) = getExtension_ServerPresharedKey [e]) ∧
    ((∀ x ∈ pre, x.extension_type ≠ ExtensionType.early_data) →
      e.extension_type = ExtensionType.early_data →
      getExtension_ClientEarlyData (pre ++ e :: post) =
        .ok (some {}) ∧
      getExtension_ClientEarlyData (pre ++ e :: post) = getExtension_ClientEarlyData [e]) ∧
    ((∀ x ∈ pre, x.extension_type ≠ ExtensionType.early_data) →
      e.extension_type = ExtensionType.early_data →
      getExtension_ServerEarlyData (pre ++ e :: post) =
        .ok (some {}) ∧
      getExtension_ServerEarlyData (pre ++ e :: post) = getExtension_ServerEarlyData [e]) ∧
    ((∀ x ∈ pre, x.extension_type ≠ ExtensionType.early_data) →
      e.extension_type = ExtensionType.early_data →
      getExtension_TicketEarlyData (pre ++ e :: post) =
        (detail.read 4 e.extension_data).map
          (fun r => some ⟨r.out⟩) ∧
      getExtension_TicketEarlyData (pre ++ e :: post) = getExtension_TicketEarlyData [e]) ∧
    ((∀ x ∈ pre, x.extension_type ≠ ExtensionType.cookie) →
      e.extension_type = ExtensionType.cookie →
      getExtension_Cookie (pre ++ e :: post) =
        (detail.readBuf 2 e.extension_data).map
          (fun r => some ⟨r.out⟩) ∧
      getExtension_Cookie (pre ++ e :: post) = getExtension_Cookie [e]) ∧
    ((∀ x ∈ pre, x.extension_type ≠ ExtensionType.supported_versions) →
      e.extension_type = ExtensionType.supported_versions →
      getExtension_SupportedVersions (pre ++ e :: post) =
        (detail.readVector 1 (detail.read sizeofProtocolVersion) e.extension_data).map
          (fun r => some ⟨r.1⟩) ∧
      getExtension_SupportedVersions (pre ++ e :: post) = getExtension_SupportedVersions [e]) ∧
    ((∀ x ∈ pre, x.extension_type ≠ ExtensionType.supported_versions) →
      e.extension_type = ExtensionType.supported_versions →
      getExtension_ServerSupportedVersions (pre ++ e :: post) =
        (detail.read sizeofProtocolVersion e.extension_data).map
          (fun r => some ⟨r.out⟩) ∧
      getExtension_ServerSupportedVersions (pre ++ e :: post) = getExtension_ServerSupportedVersions [e]) ∧
    ((∀ x ∈ pre, x.extension_type ≠ ExtensionType.psk_key_exchange_modes) →
      e.extension_type = ExtensionType.psk_key_exchange_modes →
      getExtension_PskKeyExchangeModes (pre ++ e :: post) =
        (detail.readVector 1 (detail.read sizeofPskKeyExchangeMode) e.extension_data).map
          (fun r => some ⟨r.1⟩) ∧
      getExtension_PskKeyExchangeModes (pre ++ e :: post) = getExtension_PskKeyExchangeModes [e]) ∧
    ((∀ x ∈ pre, x.extension_type ≠ ExtensionType.application_layer_protocol_negotiation) →
      e.extension_type = ExtensionType.application_layer_protocol_negotiation →
      getExtension_ProtocolNameList (pre ++ e :: post) =
        (detail.readVector 2 detail.Reader_ProtocolName.read e.extension_data).map
          (fun r => some ⟨r.1⟩) ∧
      getExtension_ProtocolNameList (pre ++ e :: post) = getExtension_ProtocolNameList [e]) ∧
    ((∀ x ∈ pre, x.extension_type ≠ ExtensionType.certificate_authorities) →
      e.extension_type = ExtensionType.certificate_authorities →
      getExtension_CertificateAuthorities (pre ++ e :: post) =
        (detail.readVector 2 detail.Reader_DistinguishedName.read e.extension_data).map
          (fun r => some ⟨r.1⟩) ∧
      getExtension_CertificateAuthorities (pre ++ e :: post) = getExtension_CertificateAuthorities [e]) :=
  ⟨fun hpre he => ⟨getExtension_SignatureAlgorithms_decodes pre post e hpre he,
      getExtension_SignatureAlgorithms_first pre post e hpre he⟩,
    fun hpre he => ⟨getExtension_SupportedGroups_decodes pre post e hpre he,
      getExtension_SupportedGroups_first pre post e hpre he⟩,
    fun hpre he => ⟨getExtension_ClientPresharedKey_decodes pre post e hpre he,
      getExtension_ClientPresharedKey_first pre post e hpre he⟩,
    fun hpre he => ⟨getExtension_ServerPresharedKey_decodes pre post e hpre he,
      getExtension_ServerPresharedKey_first pre post e hpre he⟩,
    fun hpre he => ⟨getExtension_ClientEarlyData_decodes pre post e hpre he,
      getExtension_ClientEarlyData_first pre post e hpre he⟩,
    fun hpre he => ⟨getExtension_ServerEarlyData_decodes pre post e hpre he,
      getExtension_ServerEarlyData_first pre post e hpre he⟩,
    fun hpre he => ⟨getExtension_TicketEarlyData_decodes pre post e hpre he,
      getExtension_TicketEarlyData_first pre post e hpre he⟩,
    fun hpre he => ⟨getExtension_Cookie_decodes pre post e hpre he,
      getExtension_Cookie_first pre post e hpre he⟩,
    fun hpre he => ⟨getExtension_SupportedVersions_decodes pre post e hpre he,
      getExtension_SupportedVersions_first pre post e hpre he⟩,
    fun hpre he => ⟨getExtension_ServerSupportedVersions_decodes pre post e hpre he,
      getExtension_ServerSupportedVersions_first pre post e hpre he⟩,
    fun hpre he => ⟨getExtension_PskKeyExchangeModes_decodes pre post e hpre he,
      getExtension_PskKeyExchangeModes_first pre post e hpre he⟩,
    fun hpre he => ⟨getExtension_ProtocolNameList_decodes pre post e hpre he,
      getExtension_ProtocolNameList_first pre post e hpre he⟩,
    fun hpre he => ⟨getExtension_CertificateAuthorities_decodes pre post e hpre he,
      getExtension_CertificateAuthorities_first pre post e hpre he⟩⟩

/-- One instance for each type: an extension with another tag in front, the
extension looked up, and a duplicate of its tag with other data behind it; the
result is the value decoded from the data of the first one. -/
theorem getExtension_first_match_only_witness :
    getExtension_SignatureAlgorithms
        [⟨ExtensionType.key_share, [1]⟩, ⟨ExtensionType.signature_algorithms, [0, 2, 4, 3]⟩,
          ⟨ExtensionType.signature_algorithms, [7]⟩]
      = .ok (some ⟨[1027]⟩) ∧
    getExtension_SupportedGroups
        [⟨ExtensionType.key_share, [1]⟩, ⟨ExtensionType.supported_groups, [0, 2, 0, 29]⟩,
          ⟨ExtensionType.supported_groups, [7]⟩]
      = .ok (some ⟨[29]⟩) ∧
    getExtension_ClientPresharedKey
        [⟨ExtensionType.key_share, [1]⟩, ⟨ExtensionType.pre_shared_key, [0, 7, 0, 1, 7, 0, 0, 0, 5, 0, 2, 1, 9]⟩,
          ⟨ExtensionType.pre_shared_key, [7]⟩]
      = .ok (some ⟨[⟨[7], 5⟩], [⟨[9]⟩]⟩) ∧
    getExtension_ServerPresharedKey
        [⟨ExtensionType.key_share, [1]⟩, ⟨ExtensionType.pre_shared_key, [0, 1]⟩,
          ⟨ExtensionType.pre_shared_key, [7]⟩]
      = .ok (some ⟨1⟩) ∧
    getExtension_ClientEarlyData
        [⟨ExtensionType.key_share, [1]⟩, ⟨ExtensionType.early_data, [1, 2]⟩,
          ⟨ExtensionType.early_data, [7]⟩]
      = .ok (some {}) ∧
    getExtension_ServerEarlyData
        [⟨ExtensionType.key_share, [1]⟩, ⟨ExtensionType.early_data, [1, 2]⟩,
          ⟨ExtensionType.early_data, [7]⟩]
      = .ok (some {}) ∧
    getExtension_TicketEarlyData
        [⟨ExtensionType.key_share, [1]⟩, ⟨ExtensionType.early_data, [0, 0, 1, 0]⟩,
          ⟨ExtensionType.early_data, [7]⟩]
      = .ok (some ⟨256⟩) ∧
    getExtension_Cookie
        [⟨ExtensionType.key_share, [1]⟩, ⟨ExtensionType.cookie, [0, 2, 5, 6]⟩,
          ⟨ExtensionType.cookie, [7]⟩]
      = .ok (some ⟨[5, 6]⟩) ∧
    getExtension_SupportedVersions
        [⟨ExtensionType.key_share, [1]⟩, ⟨ExtensionType.supported_versions, [2, 3, 4]⟩,
          ⟨ExtensionType.supported_versions, [7]⟩]
      = .ok (some ⟨[772]⟩) ∧
    getExtension_ServerSupportedVersions
        [⟨ExtensionType.key_share, [1]⟩, ⟨ExtensionType.supported_versions, [3, 4]⟩,
          ⟨ExtensionType.supported_versions, [7]⟩]
      = .ok (some ⟨772⟩) ∧
    getExtension_PskKeyExchangeModes
        [⟨ExtensionType.key_share, [1]⟩, ⟨ExtensionType.psk_key_exchange_modes, [1, 1]⟩,
          ⟨ExtensionType.psk_key_exchange_modes, [7]⟩]
      = .ok (some ⟨[1]⟩) ∧
    getExtension_ProtocolNameList
        [⟨ExtensionType.key_share, [1]⟩, ⟨ExtensionType.application_layer_protocol_negotiation, [0, 3, 2, 104, 50]⟩,
          ⟨ExtensionType.application_layer_protocol_negotiation, [7]⟩]
      = .ok (some ⟨[⟨[104, 50]⟩]⟩) ∧
    getExtension_CertificateAuthorities
        [⟨ExtensionType.key_share, [1]⟩, ⟨ExtensionType.certificate_authorities, [0, 4, 0, 2, 48, 0]⟩,
          ⟨ExtensionType.certificate_authorities, [7]⟩]
      = .ok (some ⟨[⟨[48, 0]⟩]⟩) :=
  ⟨((getExtension_first_match_only [⟨ExtensionType.key_share, [1]⟩]
      [⟨ExtensionType.signature_algorithms, [7]⟩] ⟨ExtensionType.signature_algorithms, [0, 2, 4, 3]⟩).1
      (by decide) rfl).1.trans (by decide),
    ((getExtension_first_match_only [⟨ExtensionType.key_share, [1]⟩]
      [⟨ExtensionType.supported_groups, [7]⟩] ⟨ExtensionType.supported_groups, [0, 2, 0, 29]⟩).2.1
      (by decide) rfl).1.trans (by decide),
    ((getExtension_first_match_only [⟨ExtensionType.key_share, [1]⟩]
      [⟨ExtensionType.pre_shared_key, [7]⟩] ⟨ExtensionType.pre_shared_key, [0, 7, 0, 1, 7, 0, 0, 0, 5, 0, 2, 1, 9]⟩).2.2.1
      (by decide) rfl).1.trans (by decide),
    ((getExtension_first_match_only [⟨ExtensionType.key_share, [1]⟩]
      [⟨ExtensionType.pre_shared_key, [7]⟩] ⟨ExtensionType.pre_shared_key, [0, 1]⟩).2.2.2.1
      (by decide) rfl).1.trans (by decide),
    ((getExtension_first_match_only [⟨ExtensionType.key_share, [1]⟩]
      [⟨ExtensionType.early_data, [7]⟩] ⟨ExtensionType.early_data, [1, 2]⟩).2.2.2.2.1
      (by decide) rfl).1.trans (by decide),
    ((getExtension_first_match_only [⟨ExtensionType.key_share, [1]⟩]
      [⟨ExtensionType.early_data, [7]⟩] ⟨ExtensionType.early_data, [1, 2]⟩).2.2.2.2.2.1
      (by decide) rfl).1.trans (by decide),
    ((getExtension_first_match_only [⟨ExtensionType.key_share, [1]⟩]
      [⟨ExtensionType.early_data, [7]⟩] ⟨ExtensionType.early_data, [0, 0, 1, 0]⟩).2.2.2.2.2.2.1
      (by decide) rfl).1.trans (by decide),
    ((getExtension_first_match_only [⟨ExtensionType.key_share, [1]⟩]
      [⟨ExtensionType.cookie, [7]⟩] ⟨ExtensionType.cookie, [0, 2, 5, 6]⟩).2.2.2.2.2.2.2.1
      (by decide) rfl).1.trans (by decide),
    ((getExtension_first_match_only [⟨ExtensionType.key_share, [1]⟩]
      [⟨ExtensionType.supported_versions, [7]⟩] ⟨ExtensionType.supported_versions, [2, 3, 4]⟩).2.2.2.2.2.2.2.2.1
      (by decide) rfl).1.trans (by decide),
    ((getExtension_first_match_only [⟨ExtensionType.key_share, [1]⟩]
      [⟨ExtensionType.supported_versions, [7]⟩] ⟨ExtensionType.supported_versions, [3, 4]⟩).2.2.2.2.2.2.2.2.2.1
      (by decide) rfl).1.trans (by decide),
    ((getExtension_first_match_only [⟨ExtensionType.key_share, [1]⟩]
      [⟨ExtensionType.psk_key_exchange_modes, [7]⟩] ⟨ExtensionType.psk_key_exchange_modes, [1, 1]⟩).2.2.2.2.2.2.2.2.2.2.1
      (by decide) rfl).1.trans (by decide),
    ((getExtension_first_match_only [⟨ExtensionType.key_share, [1]⟩]
      [⟨ExtensionType.application_layer_protocol_negotiation, [7]⟩] ⟨ExtensionType.application_layer_protocol_negotiation, [0, 3, 2, 104, 50]⟩).2.2.2.2.2.2.2.2.2.2.2.1
      (by decide) rfl).1.trans (by decide),
    ((getExtension_first_match_only [⟨ExtensionType.key_share, [1]⟩]
      [⟨ExtensionType.certificate_authorities, [7]⟩] ⟨ExtensionType.certificate_authorities, [0, 4, 0, 2, 48, 0]⟩).2.2.2.2.2.2.2.2.2.2.2.2
      (by decide) rfl).1.trans (by decide)⟩

/-- C22: for a well-formed `ClientPresharedKey` whose encoding is the last
extension of a ClientHello, `getBinderLength` succeeds and returns the byte
length of the encoded binders vector, 2 plus the sum over the binders of
1 plus the binder length; the extension data without its last
`getBinderLength` bytes is exactly the encoded identities vector. -/
theorem getBinderLength_encodeExtension (pre : List Extension) (v : ClientPresharedKey)
    (h : v.WellFormed) :
    ∃ ext ids,
      encodeExtension_ClientPresharedKey v = .ok ext ∧
      detail.writeVector 2 detail.Sizer_PskIdentity.getSize detail.Writer_PskIdentity.write
        v.identities = .ok ids ∧
      getBinderLength ⟨pre ++ [ext]⟩
        = .ok (2 + (v.binders.map (fun b => 1 + b.binder.length)).sum) ∧
      ext.extension_data.take
          (ext.extension_data.length - (2 + (v.binders.map (fun b => 1 + b.binder.length)).sum))
        = ids := by
  obtain ⟨hi, hb, hisum, hbsum⟩ := h
  obtain ⟨ib, hwi, hil⟩ := detail.writeVector_shape 2
    detail.Sizer_PskIdentity.getSize detail.Writer_PskIdentity.write
    detail.Reader_PskIdentity.read v.identities
    (fun i hmem => detail.PskIdentity_roundTrip i (hi i hmem)) (by simpa using hisum)
  obtain ⟨bb, hwb, hbl⟩ := detail.writeVector_shape 2
    detail.Sizer_PskBinder.getSize detail.Writer_PskBinder.write
    detail.Reader_PskBinder.read v.binders
    (fun b hmem => detail.PskBinder_roundTrip b (hb b hmem)) (by simpa using hbsum)
  rw [detail.Sizer_PskBinder_getSize_eq] at hwb hbl hbsum
  rw [← hil] at hwi hisum
  refine ⟨⟨ExtensionType.pre_shared_key,
      (beBytes 2 ib.length ++ ib) ++
        (beBytes 2 (v.binders.map (fun b => 1 + b.binder.length)).sum ++ bb)⟩,
    beBytes 2 ib.length ++ ib, ?_, hwi, ?_, ?_⟩
  · simp only [encodeExtension_ClientPresharedKey, hwi, hwb, detail.Sizer_PskBinder_getSize_eq]
  · have hf := getBinderLength_framed pre ib bb
      (v.binders.map (fun b => 1 + b.binder.length)).sum hisum hbsum
    rw [if_neg (by simp [hbl])] at hf
    rw [← hf]
    simp only [List.append_assoc]
  · apply List.take_left'
    simp only [List.length_append, beBytes_length, hbl]
    omega

/-- An instance with two identities and the binders `010203` and the empty
binder: the encoded binders vector is `0005 03 010203 00`, seven bytes. -/
theorem getBinderLength_encodeExtension_witness :
    ∃ ext ids,
      encodeExtension_ClientPresharedKey
          ⟨[⟨[7, 7], 5⟩, ⟨[], 4294967295⟩], [⟨[1, 2, 3]⟩, ⟨[]⟩]⟩ = .ok ext ∧
      detail.writeVector 2 detail.Sizer_PskIdentity.getSize detail.Writer_PskIdentity.write
        [⟨[7, 7], 5⟩, ⟨[], 4294967295⟩] = .ok ids ∧
      getBinderLength ⟨[⟨ExtensionType.cookie, []⟩] ++ [ext]⟩ = .ok 7 ∧
      ext.extension_data.take (ext.extension_data.length - 7) = ids :=
  getBinderLength_encodeExtension [⟨ExtensionType.cookie, []⟩]
    ⟨[⟨[7, 7], 5⟩, ⟨[], 4294967295⟩], [⟨[1, 2, 3]⟩, ⟨[]⟩]⟩
    ⟨by decide, by decide, by decide, by decide⟩

/-- A share that does not come back: the server key share with
`preDraft23 == true` is encoded as the bytes `001d 0002 0102` (under the legacy
tag); a list whose first `key_share` extension has exactly these bytes as data
decodes to the same share with `preDraft23 == false`, which is not the value
that was encoded. -/
theorem getExtension_ServerKeyShare_flag_counterexample :
    encodeExtension_ServerKeyShare ⟨⟨29, [1, 2]⟩, true⟩
      = .ok ⟨ExtensionType.key_share_old, [0, 29, 0, 2, 1, 2]⟩ ∧
    getExtension_ServerKeyShare [⟨ExtensionType.key_share, [0, 29, 0, 2, 1, 2] ++ []⟩]
      = .ok (some ⟨⟨29, [1, 2]⟩, false⟩) ∧
    getExtension_ServerKeyShare [⟨ExtensionType.key_share, [0, 29, 0, 2, 1, 2] ++ []⟩]
      ≠ .ok (some ⟨⟨29, [1, 2]⟩, true⟩) := by
  refine ⟨by decide, by decide, by decide⟩

/-- C23, amended: for a server key share `v` with a well-formed entry and any
bytes `junk`, on a list whose first `key_share` extension has the data of
`encodeExtension(v)` followed by `junk`, `getExtension<ServerKeyShare>` returns
the share of `v` with `preDraft23 == false` (so `v` itself when its flag is
false), the same result as with `junk` empty; and `getExtension<ClientEarlyData>`
returns a value on every list with an `early_data` extension, whatever the
data of that extension. -/
theorem getExtension_ignores_trailing_data (pre post : List Extension) (v : ServerKeyShare)
    (junk data : List Nat) :
    (v.server_share.WellFormed →
      (∀ x ∈ pre, x.extension_type ≠ ExtensionType.key_share) →
      ∃ ext, encodeExtension_ServerKeyShare v = .ok ext ∧
        getExtension_ServerKeyShare
            (pre ++ ⟨ExtensionType.key_share, ext.extension_data ++ junk⟩ :: post)
          = .ok (some ⟨v.server_share, false⟩) ∧
        getExtension_ServerKeyShare
            (pre ++ ⟨ExtensionType.key_share, ext.extension_data ++ junk⟩ :: post)
          = getExtension_ServerKeyShare
              (pre ++ ⟨ExtensionType.key_share, ext.extension_data⟩ :: post) ∧
        (v.preDraft23 = false →
          getExtension_ServerKeyShare
              (pre ++ ⟨ExtensionType.key_share, ext.extension_data ++ junk⟩ :: post)
            = .ok (some v))) ∧
    getExtension_ClientEarlyData (pre ++ ⟨ExtensionType.early_data, data⟩ :: post)
      = .ok (some {}) := by
  constructor
  · intro hwf hpre
    obtain ⟨-, bytes, hw, -, hr⟩ := detail.KeyShareEntry_roundTrip v.server_share hwf
    have hjunk : ∀ rest, getExtension_ServerKeyShare
        (pre ++ ⟨ExtensionType.key_share, bytes ++ rest⟩ :: post)
          = .ok (some ⟨v.server_share, false⟩) := by
      intro rest
      rw [getExtension_ServerKeyShare_append_cons pre post _ hpre rfl]
      simp only [hr rest]
    refine ⟨⟨if v.preDraft23 then ExtensionType.key_share_old else ExtensionType.key_share,
      bytes⟩, by simp only [encodeExtension_ServerKeyShare, hw], hjunk junk, ?_, ?_⟩
    · have h0 := hjunk []
      rw [List.append_nil] at h0
      simp only [hjunk junk, h0]
    · intro hflag
      obtain ⟨share, flag⟩ := v
      simp only at hflag
      subst hflag
      exact hjunk junk
  · have hne : ∃ x ∈ pre ++ ⟨ExtensionType.early_data, data⟩ :: post,
        x.extension_type = ExtensionType.early_data :=
      ⟨⟨ExtensionType.early_data, data⟩, by simp, rfl⟩
    have hfind : findExtension (pre ++ ⟨ExtensionType.early_data, data⟩ :: post)
        ExtensionType.early_data ≠ (pre ++ ⟨ExtensionType.early_data, data⟩ :: post).length := by
      intro heq
      obtain ⟨x, hx, ht⟩ := hne
      exact (findExtension_eq_length_iff _ _).mp heq x hx ht
    simp only [getExtension_ClientEarlyData, if_neg hfind]

/-- An instance: the share `001d 0002 0102` followed by three junk bytes, behind
a cookie and in front of a second `key_share`; and an `early_data` extension
with data bytes. -/
theorem getExtension_ignores_trailing_data_witness :
    (∃ ext, encodeExtension_ServerKeyShare ⟨⟨29, [1, 2]⟩, false⟩ = .ok ext ∧
      getExtension_ServerKeyShare
          ([⟨ExtensionType.cookie, []⟩] ++
            ⟨ExtensionType.key_share, ext.extension_data ++ [9, 9, 9]⟩ ::
              [⟨ExtensionType.key_share, []⟩])
        = .ok (some ⟨⟨29, [1, 2]⟩, false⟩)) ∧
    getExtension_ClientEarlyData
        ([⟨ExtensionType.cookie, []⟩] ++ ⟨ExtensionType.early_data, [1, 2, 3]⟩ ::
          [⟨ExtensionType.key_share, []⟩])
      = .ok (some {}) := by
  have h := getExtension_ignores_trailing_data [⟨ExtensionType.cookie, []⟩]
    [⟨ExtensionType.key_share, []⟩] ⟨⟨29, [1, 2]⟩, false⟩ [9, 9, 9] [1, 2, 3]
  obtain ⟨ext, henc, hget, -, -⟩ := h.1 (by decide) (by decide)
  exact ⟨⟨ext, henc, hget⟩, h.2⟩

end fizz
